import Mathlib

/-!
Verification of the archetype-based component store of the `ecs-lite`
repository (the optimized, pooling/indexed `ComponentManager`).

The development is a shallow embedding of the TypeScript (roblox-ts) source:
every store operation is translated into a pure state-passing Lean function
over an explicit record of the manager's fields.  Notes on the translation:

* The source targets Luau via roblox-ts: arrays have `.size()`, `Array.sort`
  compiles to `table.sort`, whose comparator returns `true` when its first
  argument must come before the second.  Hence `.sort((a, b) => a < b)` is an
  ascending numeric sort; it is modelled by `List.insertionSort (· ≤ ·)`
  (all sorting algorithms agree on lists of numbers).
* JavaScript/Luau `Map`s are modelled as functions into `Option`; `Set`s and
  dense arrays as `List`s.  Assigning `arr[i] = v` at `i = arr.length`
  extends the array by one slot (Luau table assignment); `arrSet` models this.
* Archetype objects are aliased between several maps in the source and are
  deduplicated by their signature string, so object identity coincides with
  signature identity; the embedding therefore keys every map that holds an
  archetype reference by the archetype's signature (`List Nat`).  The source
  key is the string `componentIds.join(",")`; `createSignature` models it and
  is proved injective (`createSignature_inj`), so the two keyings coincide.
* Non-null assertions (`x!`) on lookups that the reachable-state invariant
  guarantees to succeed are modelled with `Option.getD`.
-/

namespace Ecs

/- Entities and component ids are natural numbers (`Entity` and
`ComponentId` in the source).  Archetype identity is the canonical (sorted)
list of component ids: the source keys its maps by the comma-joined string
of this list; the join is injective (`createSignature_inj`), so the list
itself is used as the map key in the embedding. -/

/-- Model of Luau `tostring` on a natural number: its decimal digit string. -/
def natChars (n : Nat) : List Char :=
  if n = 0 then ['0'] else ((Nat.digits 10 n).map Nat.digitChar).reverse

/-- Model of `Array.join(",")`: concatenate the pieces with a comma between
consecutive pieces. -/
def joinComma : List (List Char) → List Char
  | [] => []
  | [x] => x
  | x :: y :: xs => x ++ ',' :: joinComma (y :: xs)

/-- Source `createSignature(componentIds) { return componentIds.join(",") }`. -/
def createSignature (componentIds : List Nat) : String :=
  String.mk (joinComma (componentIds.map natChars))

/-- Model of `Set.add`: append the element unless it is already present. -/
def setAdd {α : Type} [DecidableEq α] (l : List α) (x : α) : List α :=
  if x ∈ l then l else l ++ [x]

/-- Model of a Luau array store `arr[i] = v`: in-bounds indices are
overwritten, the index equal to the length extends the array by one. -/
def arrSet {α : Type} (l : List α) (i : Nat) (v : α) : List α :=
  if i = l.length then l ++ [v] else l.set i v

/-- Model of `.sort((a, b) => a < b)` (Luau `table.sort`, ascending). -/
def sortIds (l : List Nat) : List Nat :=
  List.insertionSort (· ≤ ·) l

/-- One archetype: its canonical signature, the dense row list of member
entities, and one dense column per component id of the signature. -/
structure ArchetypeData (V : Type) where
  signature : List Nat
  entities : List Nat
  componentArrays : Nat → Option (List V)

/-- One query-cache entry (`QueryCache` in the source). -/
structure QueryCacheData where
  signature : List Nat
  entities : List Nat
  archetypes : List (List Nat)
  needsUpdate : Bool

/-- The fields of the source `ComponentManager` class. -/
structure CMState (K V : Type) where
  componentIdCounter : Nat
  componentClassToId : K → Option Nat
  componentIdToClass : Nat → Option K
  archetypes : List Nat → Option (ArchetypeData V)
  entityToArchetype : Nat → Option (List Nat)
  entityToIndex : Nat → Option Nat
  queryCache : List Nat → Option QueryCacheData
  archetypesByComponentId : Nat → Option (List (List Nat))
  componentPoolsById : Nat → Option (List V)
  recycledComponents : Nat → Option (List V)
  batchInvalidation : Bool
  pendingCacheInvalidation : Bool

/-- A freshly constructed `ComponentManager`. -/
def initState (K V : Type) : CMState K V where
  componentIdCounter := 0
  componentClassToId := fun _ => none
  componentIdToClass := fun _ => none
  archetypes := fun _ => none
  entityToArchetype := fun _ => none
  entityToIndex := fun _ => none
  queryCache := fun _ => none
  archetypesByComponentId := fun _ => none
  componentPoolsById := fun _ => none
  recycledComponents := fun _ => none
  batchInvalidation := false
  pendingCacheInvalidation := false

variable {K V : Type} [DecidableEq K] [Inhabited V]

/-- Source `getComponentId`: memoize the class, assigning the next dense id
on first sight and creating its (empty) index, pool and recycle entries. -/
def getComponentId (s : CMState K V) (componentClass : K) :
    CMState K V × Nat :=
  match s.componentClassToId componentClass with
  | some id => (s, id)
  | none =>
    let id := s.componentIdCounter
    ({ s with
        componentIdCounter := id + 1
        componentClassToId := Function.update s.componentClassToId componentClass (some id)
        componentIdToClass := Function.update s.componentIdToClass id (some componentClass)
        archetypesByComponentId := Function.update s.archetypesByComponentId id (some [])
        componentPoolsById := Function.update s.componentPoolsById id (some [])
        recycledComponents := Function.update s.recycledComponents id (some []) },
     id)

/-- Source `invalidateQueryCaches`: mark every cache entry dirty. -/
def invalidateQueryCaches (s : CMState K V) : CMState K V :=
  { s with queryCache := fun key =>
      (s.queryCache key).map (fun c => { c with needsUpdate := true }) }

/-- Source `scheduleQueryCacheInvalidation`: defer inside a batch, else
invalidate immediately. -/
def scheduleQueryCacheInvalidation (s : CMState K V) : CMState K V :=
  if s.batchInvalidation then { s with pendingCacheInvalidation := true }
  else invalidateQueryCaches s

/-- Source `startBatch`. -/
def startBatch (s : CMState K V) : CMState K V :=
  { s with batchInvalidation := true }

/-- Source `endBatch`: leave batch mode (`batchInvalidation = false`), then
apply any pending invalidation and clear the pending flag. -/
def endBatch (s : CMState K V) : CMState K V :=
  if s.pendingCacheInvalidation then
    { invalidateQueryCaches { s with batchInvalidation := false } with
        pendingCacheInvalidation := false }
  else { s with batchInvalidation := false }

/-- Source `getOrCreateArchetype`: fetch the archetype for this signature or
create it (with one empty column per id), registering it in the per-id index
(`Set.add`) and scheduling invalidation.  The source indexes the new
archetype under `archetypesByComponentId.get(id)!` for each id of the
(duplicate-free) signature; the update below is the pointwise form of that
loop. -/
def getOrCreateArchetype (s : CMState K V) (componentIds : List Nat) :
    CMState K V × List Nat :=
  match s.archetypes componentIds with
  | some _ => (s, componentIds)
  | none =>
    let a : ArchetypeData V :=
      { signature := componentIds
        entities := []
        componentArrays := fun id => if id ∈ componentIds then some [] else none }
    let s1 := { s with
      archetypes := Function.update s.archetypes componentIds (some a)
      archetypesByComponentId := fun id =>
        if id ∈ componentIds then
          (s.archetypesByComponentId id).map (fun l => setAdd l componentIds)
        else s.archetypesByComponentId id }
    (scheduleQueryCacheInvalidation s1, componentIds)

/-- Source `recycleComponent`: push onto the type's recycle pool unless the
pool already holds 1000 entries. -/
def recycleComponent (s : CMState K V) (componentId : Nat) (component : V) :
    CMState K V :=
  match s.recycledComponents componentId with
  | none => s
  | some recycled =>
    if recycled.length < 1000 then
      { s with recycledComponents :=
          Function.update s.recycledComponents componentId (some (recycled ++ [component])) }
    else s

/-- Pop-and-recycle tail of `swapRemoveFromArchetype` (the part after the
swap step): truncate the entity list and every column by one and offer each
popped value to its type's recycle pool.

The source recovers each column's component id through object identity
(`getComponentIdFromArray`); columns are created fresh per id, so that
search returns the iterated map key, and the map's key set is exactly the
signature — the pool update folds over the signature accordingly. -/
def swapRemovePop (s : CMState K V) (key : List Nat) (a1 : ArchetypeData V) :
    CMState K V :=
  a1.signature.foldl
    (fun acc id =>
      match (a1.componentArrays id).bind List.getLast? with
      | some removedComponent => recycleComponent acc id removedComponent
      | none => acc)
    { s with archetypes := (Function.update s.archetypes key
        (some { a1 with
          entities := a1.entities.dropLast
          componentArrays := fun id => (a1.componentArrays id).map List.dropLast })) }

/-- Source `swapRemoveFromArchetype`: when the removed row is not the last,
copy the last row (entity handle and every column value) into it and update
the moved entity's recorded index; then truncate the entity list and every
column by one, offering each popped value to its type's recycle pool
(`swapRemovePop`). -/
def swapRemoveFromArchetype (s : CMState K V) (_entity : Nat) (key : List Nat)
    (entityIndex : Nat) : CMState K V :=
  match s.archetypes key with
  | none => s
  | some a =>
    if entityIndex ≠ a.entities.length - 1 then
      swapRemovePop
        { s with entityToIndex := (Function.update s.entityToIndex
            (a.entities.getD (a.entities.length - 1) default) (some entityIndex)) }
        key
        { a with
          entities := a.entities.set entityIndex
            (a.entities.getD (a.entities.length - 1) default)
          componentArrays := fun id => (a.componentArrays id).map
            (fun col => col.set entityIndex (col.getD (a.entities.length - 1) default)) }
    else swapRemovePop s key a

/-- Source `moveEntity`: push the entity's component values onto the target
archetype's matching columns, swap-remove it from the source archetype, then
append it to the target's entity list and update its recorded location. -/
def moveEntity (s : CMState K V) (entity : Nat) (fromKey toKey : List Nat) :
    CMState K V :=
  match s.entityToIndex entity with
  | none => s
  | some entityIndex =>
    match s.archetypes fromKey, s.archetypes toKey with
    | some fromA, some toA =>
      let newIndex := toA.entities.length
      let toA1 : ArchetypeData V :=
        { toA with componentArrays := fun id =>
            match toA.componentArrays id with
            | none => none
            | some tgt =>
              if id ∈ fromA.signature then
                some (tgt ++ [((fromA.componentArrays id).getD []).getD entityIndex default])
              else some tgt }
      let s1 := { s with archetypes := Function.update s.archetypes toKey (some toA1) }
      let s2 := swapRemoveFromArchetype s1 entity fromKey entityIndex
      match s2.archetypes toKey with
      | none => s2
      | some toA2 =>
        let arch3 := Function.update s2.archetypes toKey (some { toA2 with entities := toA2.entities ++ [entity] })
        let s3 := { s2 with archetypes := arch3 }
        { s3 with
          entityToArchetype := Function.update s3.entityToArchetype entity (some toKey)
          entityToIndex := Function.update s3.entityToIndex entity (some newIndex) }
    | _, _ => s

/-- Source `addComponent`: overwrite in place when the entity's archetype
already holds the type (returning without scheduling invalidation), else
migrate to (or create) the extended archetype, else seed the single-type
archetype for an entity with no location. -/
def addComponent (s : CMState K V) (entity : Nat) (componentClass : K)
    (component : V) : CMState K V :=
  let p := getComponentId s componentClass
  let s0 := p.1
  let componentId := p.2
  match s0.entityToArchetype entity with
  | some curKey =>
    match s0.archetypes curKey with
    | none => s0
    | some cur =>
      if (cur.componentArrays componentId).isSome then
        let entityIndex := (s0.entityToIndex entity).getD 0
        let cur1 : ArchetypeData V :=
          { cur with componentArrays := fun id =>
              if id = componentId then
                (cur.componentArrays id).map (fun col => arrSet col entityIndex component)
              else cur.componentArrays id }
        { s0 with archetypes := Function.update s0.archetypes curKey (some cur1) }
      else
        let newSignature := sortIds (cur.signature ++ [componentId])
        let q := getOrCreateArchetype s0 newSignature
        let s1 := moveEntity q.1 entity curKey q.2
        match s1.archetypes q.2 with
        | none => s1
        | some newA =>
          let newIndex := newA.entities.length - 1
          let newA1 : ArchetypeData V :=
            { newA with componentArrays := fun id =>
                if id = componentId then
                  (newA.componentArrays id).map (fun col => arrSet col newIndex component)
                else newA.componentArrays id }
          let s2 := { s1 with archetypes := Function.update s1.archetypes q.2 (some newA1) }
          scheduleQueryCacheInvalidation s2
  | none =>
    let q := getOrCreateArchetype s0 [componentId]
    match q.1.archetypes q.2 with
    | none => q.1
    | some newA =>
      let newIndex := newA.entities.length
      let newA1 : ArchetypeData V :=
        { newA with
          entities := newA.entities ++ [entity]
          componentArrays := fun id =>
            if id = componentId then (newA.componentArrays id).map (fun col => col ++ [component])
            else newA.componentArrays id }
      let s1 := { q.1 with
        archetypes := Function.update q.1.archetypes q.2 (some newA1)
        entityToArchetype := Function.update q.1.entityToArchetype entity (some q.2)
        entityToIndex := Function.update q.1.entityToIndex entity (some newIndex) }
      scheduleQueryCacheInvalidation s1

/-- Source `getComponent`: location lookup, then column lookup; `undefined`
(`none`) on any miss, including an out-of-bounds row. -/
def getComponent (s : CMState K V) (entity : Nat) (componentClass : K) :
    CMState K V × Option V :=
  match s.entityToArchetype entity with
  | none => (s, none)
  | some key =>
    match s.archetypes key with
    | none => (s, none)
    | some a =>
      let p := getComponentId s componentClass
      match a.componentArrays p.2 with
      | none => (p.1, none)
      | some componentArray =>
        match p.1.entityToIndex entity with
        | none => (p.1, none)
        | some entityIndex => (p.1, componentArray[entityIndex]?)

/-- Source `hasComponent`. -/
def hasComponent (s : CMState K V) (entity : Nat) (componentClass : K) :
    CMState K V × Bool :=
  match s.entityToArchetype entity with
  | none => (s, false)
  | some key =>
    match s.archetypes key with
    | none => (s, false)
    | some a =>
      let p := getComponentId s componentClass
      (p.1, (a.componentArrays p.2).isSome)

/-- Source `removeAllComponents`: swap-compact the entity out of its
archetype and clear its location; a no-op when it has none. -/
def removeAllComponents (s : CMState K V) (entity : Nat) : CMState K V :=
  match s.entityToArchetype entity with
  | none => s
  | some key =>
    match s.entityToIndex entity with
    | none => s
    | some entityIndex =>
      let s1 := swapRemoveFromArchetype s entity key entityIndex
      let s2 := { s1 with
        entityToArchetype := Function.update s1.entityToArchetype entity none
        entityToIndex := Function.update s1.entityToIndex entity none }
      scheduleQueryCacheInvalidation s2

/-- Source `removeComponent`: `false` without touching anything when the
entity has no archetype; `false` after (only) a registry lookup when its
archetype lacks the type; otherwise migrate to the reduced archetype (or
delegate to full removal when the signature empties) and invalidate. -/
def removeComponent (s : CMState K V) (entity : Nat) (componentClass : K) :
    CMState K V × Bool :=
  match s.entityToArchetype entity with
  | none => (s, false)
  | some curKey =>
    let p := getComponentId s componentClass
    let s0 := p.1
    let componentId := p.2
    match s0.archetypes curKey with
    | none => (s0, false)
    | some cur =>
      if (cur.componentArrays componentId).isSome then
        let newSignature := cur.signature.filter (fun id => id ≠ componentId)
        if newSignature.length = 0 then
          let s1 := removeAllComponents s0 entity
          (scheduleQueryCacheInvalidation s1, true)
        else
          let q := getOrCreateArchetype s0 newSignature
          let s1 := moveEntity q.1 entity curKey q.2
          (scheduleQueryCacheInvalidation s1, true)
      else (s0, false)

/-- Source `getEntitiesWithComponent` (the uncached single-type query):
concatenate the member lists of every archetype indexed under the type. -/
def getEntitiesWithComponent (s : CMState K V) (componentClass : K) :
    CMState K V × List Nat :=
  let p := getComponentId s componentClass
  match p.1.archetypesByComponentId p.2 with
  | none => (p.1, [])
  | some archetypeKeys =>
    if archetypeKeys.length = 0 then (p.1, [])
    else
      (p.1, archetypeKeys.foldl
        (fun acc key =>
          match p.1.archetypes key with
          | some a => acc ++ a.entities
          | none => acc)
        [])

/-- The id list `componentClasses.map((cls) => this.getComponentId(cls))`:
a map with registry side effects, written as a fold. -/
def getComponentIds (s : CMState K V) (componentClasses : List K) :
    CMState K V × List Nat :=
  componentClasses.foldl
    (fun acc componentClass =>
      let p := getComponentId acc.1 componentClass
      (p.1, acc.2 ++ [p.2]))
    (s, [])

/-- Source `updateQueryCacheOptimized`: clear the entry, then scan only the
archetypes indexed under the first id of the (sorted) cache signature,
appending the member list of every archetype holding all queried ids. -/
def updateQueryCacheOptimized (s : CMState K V) (cacheKey : List Nat) : CMState K V :=
  match s.queryCache cacheKey with
  | none => s
  | some cache =>
    let c0 : QueryCacheData := { cache with entities := [], archetypes := [] }
    match c0.signature.head? with
    | none =>
      { s with queryCache :=
          Function.update s.queryCache cacheKey (some { c0 with needsUpdate := false }) }
    | some firstComponentId =>
      match s.archetypesByComponentId firstComponentId with
      | none =>
        { s with queryCache :=
            Function.update s.queryCache cacheKey (some { c0 with needsUpdate := false }) }
      | some candidateArchetypes =>
        let c1 := candidateArchetypes.foldl
          (fun c key =>
            match s.archetypes key with
            | none => c
            | some a =>
              if c.signature.all (fun id => (a.componentArrays id).isSome) then
                { c with
                  archetypes := setAdd c.archetypes key
                  entities := c.entities ++ a.entities }
              else c)
          c0
        { s with queryCache :=
            Function.update s.queryCache cacheKey (some { c1 with needsUpdate := false }) }

/-- Source `getEntitiesWithComponents` (the cached multi-type query):
canonicalize, fetch or create the cache entry, recompute it when dirty, and
return a copy of the cached list. -/
def getEntitiesWithComponents (s : CMState K V) (componentClasses : List K) :
    CMState K V × List Nat :=
  if componentClasses.length = 0 then (s, [])
  else
    let p := getComponentIds s componentClasses
    let componentIds := sortIds p.2
    let cacheKey := componentIds
    let s1 :=
      match p.1.queryCache cacheKey with
      | some _ => p.1
      | none =>
        let fresh : QueryCacheData :=
          { signature := componentIds, entities := [], archetypes := [], needsUpdate := true }
        let qc1 := Function.update p.1.queryCache cacheKey (some fresh)
        { p.1 with queryCache := qc1 }
    let s2 :=
      match s1.queryCache cacheKey with
      | some cache => if cache.needsUpdate then updateQueryCacheOptimized s1 cacheKey else s1
      | none => s1
    match s2.queryCache cacheKey with
    | some cache => (s2, cache.entities)
    | none => (s2, [])

/-- Source `clearQueryCache`. -/
def clearQueryCache (s : CMState K V) : CMState K V :=
  { s with queryCache := fun _ => none }

/-- The public operations of the store, used to define reachability. -/
inductive Op (K V : Type) where
  | add (entity : Nat) (componentClass : K) (component : V)
  | get (entity : Nat) (componentClass : K)
  | has (entity : Nat) (componentClass : K)
  | remove (entity : Nat) (componentClass : K)
  | removeAll (entity : Nat)
  | queryAll (componentClasses : List K)
  | queryOne (componentClass : K)
  | startB
  | endB
  | clearCache

/-- State effect of one public operation. -/
def stepOp (s : CMState K V) : Op K V → CMState K V
  | .add e k v => addComponent s e k v
  | .get e k => (getComponent s e k).1
  | .has e k => (hasComponent s e k).1
  | .remove e k => (removeComponent s e k).1
  | .removeAll e => removeAllComponents s e
  | .queryAll ks => (getEntitiesWithComponents s ks).1
  | .queryOne k => (getEntitiesWithComponent s k).1
  | .startB => startBatch s
  | .endB => endBatch s
  | .clearCache => clearQueryCache s

/-- Run a sequence of public operations. -/
def runOps (s : CMState K V) (ops : List (Op K V)) : CMState K V :=
  ops.foldl stepOp s

/-- A store state reachable from a freshly constructed manager. -/
def Reachable (s : CMState K V) : Prop :=
  ∃ ops : List (Op K V), runOps (initState K V) ops = s

/-! ### The canonical signature key

The source keys archetypes and query-cache entries by the string
`componentIds.join(",")`.  We prove this key injective on id lists, which
justifies keying the embedded maps by the id list itself. -/

lemma digitChar_ne_comma : ∀ d, d < 10 → Nat.digitChar d ≠ ',' := by decide

lemma digitChar_inj10 : ∀ a, a < 10 → ∀ b, b < 10 → Nat.digitChar a = Nat.digitChar b → a = b := by
  decide

lemma digitChar_eq_zero : ∀ d, d < 10 → Nat.digitChar d = '0' → d = 0 := by decide

lemma natChars_ne_nil (n : Nat) : natChars n ≠ [] := by
  unfold natChars
  split
  · simp
  · rename_i hn
    intro h
    rw [List.reverse_eq_nil_iff, List.map_eq_nil_iff] at h
    exact hn (Nat.digits_eq_nil_iff_eq_zero.mp h)

lemma natChars_no_comma (n : Nat) : ',' ∉ natChars n := by
  unfold natChars
  split
  · decide
  · intro h
    rw [List.mem_reverse, List.mem_map] at h
    obtain ⟨d, hd, hdc⟩ := h
    exact digitChar_ne_comma d (Nat.digits_lt_base (by norm_num) hd) hdc

lemma map_digitChar_inj : ∀ (l₁ l₂ : List Nat), (∀ d ∈ l₁, d < 10) → (∀ d ∈ l₂, d < 10) →
    l₁.map Nat.digitChar = l₂.map Nat.digitChar → l₁ = l₂ := by
  intro l₁
  induction l₁ with
  | nil =>
    intro l₂ _ _ h
    cases l₂ with
    | nil => rfl
    | cons b l₂ => simp at h
  | cons a l₁ ih =>
    intro l₂ h₁ h₂ h
    cases l₂ with
    | nil => simp at h
    | cons b l₂ =>
      simp only [List.map_cons, List.cons.injEq] at h
      have ha : a = b :=
        digitChar_inj10 a (h₁ a (by simp)) b (h₂ b (by simp)) h.1
      have := ih l₂ (fun d hd => h₁ d (by simp [hd])) (fun d hd => h₂ d (by simp [hd])) h.2
      rw [ha, this]

lemma natChars_singleton_zero {n : Nat} (h : natChars n = ['0']) : n = 0 := by
  by_contra hn
  unfold natChars at h
  rw [if_neg hn] at h
  have h' : (Nat.digits 10 n).map Nat.digitChar = ['0'] := by
    have := congrArg List.reverse h
    simpa using this
  have hlen : (Nat.digits 10 n).length = 1 := by
    have := congrArg List.length h'
    simpa using this
  obtain ⟨d, hd1⟩ := List.length_eq_one.mp hlen
  have hd2 : Nat.digitChar d = '0' := by
    rw [hd1] at h'
    simpa using h'
  have hdlt : d < 10 := Nat.digits_lt_base (by norm_num) (hd1 ▸ List.mem_singleton_self d)
  have hd0 : d = 0 := digitChar_eq_zero d hdlt hd2
  have : n = 0 := by
    have hof := Nat.ofDigits_digits 10 n
    rw [hd1, hd0] at hof
    simpa [Nat.ofDigits] using hof.symm
  exact hn this

lemma natChars_inj {m n : Nat} (h : natChars m = natChars n) : m = n := by
  by_cases hm : m = 0
  · subst hm
    exact (natChars_singleton_zero (show natChars n = ['0'] from h.symm)).symm
  · by_cases hn : n = 0
    · subst hn
      exact natChars_singleton_zero (show natChars m = ['0'] from h)
    · unfold natChars at h
      rw [if_neg hm, if_neg hn] at h
      have h' := List.reverse_injective h
      have hdig := map_digitChar_inj (Nat.digits 10 m) (Nat.digits 10 n)
        (fun d hd => Nat.digits_lt_base (by norm_num) hd)
        (fun d hd => Nat.digits_lt_base (by norm_num) hd) h'
      have := congrArg (Nat.ofDigits 10) hdig
      rwa [Nat.ofDigits_digits, Nat.ofDigits_digits] at this

lemma append_comma_inj : ∀ (a b s t : List Char), ',' ∉ a → ',' ∉ b →
    a ++ ',' :: s = b ++ ',' :: t → a = b ∧ s = t := by
  intro a
  induction a with
  | nil =>
    intro b s t _ hb h
    cases b with
    | nil => simpa using h
    | cons c b' =>
      exfalso
      simp only [List.nil_append, List.cons_append, List.cons.injEq] at h
      exact hb (h.1 ▸ List.mem_cons_self c b')
  | cons c a' ih =>
    intro b s t ha hb h
    cases b with
    | nil =>
      exfalso
      simp only [List.cons_append, List.nil_append, List.cons.injEq] at h
      exact ha (h.1 ▸ List.mem_cons_self c a')
    | cons d b' =>
      simp only [List.cons_append, List.cons.injEq] at h
      obtain ⟨hcd, h'⟩ := h
      have ha' : ',' ∉ a' := fun hx => ha (List.mem_cons_of_mem c hx)
      have hb' : ',' ∉ b' := fun hx => hb (List.mem_cons_of_mem d hx)
      obtain ⟨h1, h2⟩ := ih b' s t ha' hb' h'
      exact ⟨by rw [hcd, h1], h2⟩

lemma joinComma_inj : ∀ (xs ys : List (List Char)),
    (∀ l ∈ xs, l ≠ [] ∧ ',' ∉ l) → (∀ l ∈ ys, l ≠ [] ∧ ',' ∉ l) →
    joinComma xs = joinComma ys → xs = ys := by
  intro xs
  induction xs with
  | nil =>
    intro ys _ hys h
    cases ys with
    | nil => rfl
    | cons y ys' =>
      exfalso
      cases ys' with
      | nil => exact (hys y (by simp)).1 (by simpa [joinComma] using h.symm)
      | cons y' ys'' =>
        simp only [joinComma, List.nil_append] at h
        exact absurd h.symm (by simp)
  | cons x xs' ih =>
    intro ys hxs hys h
    cases ys with
    | nil =>
      exfalso
      cases xs' with
      | nil => exact (hxs x (by simp)).1 (by simpa [joinComma] using h)
      | cons x' xs'' =>
        simp only [joinComma] at h
        exact absurd h (by simp)
    | cons y ys' =>
      cases xs' with
      | nil =>
        cases ys' with
        | nil => simpa [joinComma] using h
        | cons y' ys'' =>
          exfalso
          simp only [joinComma] at h
          have : ',' ∈ x := by
            rw [h]
            exact List.mem_append_right y (by simp)
          exact (hxs x (by simp)).2 this
      | cons x' xs'' =>
        cases ys' with
        | nil =>
          exfalso
          simp only [joinComma] at h
          have : ',' ∈ y := by
            rw [← h]
            exact List.mem_append_right x (by simp)
          exact (hys y (by simp)).2 this
        | cons y' ys'' =>
          simp only [joinComma] at h
          obtain ⟨h1, h2⟩ := append_comma_inj x y _ _
            (hxs x (by simp)).2 (hys y (by simp)).2 h
          have := ih (y' :: ys'')
            (fun l hl => hxs l (List.mem_cons_of_mem x hl))
            (fun l hl => hys l (List.mem_cons_of_mem y hl)) h2
          rw [h1, this]

lemma map_natChars_inj : ∀ (l₁ l₂ : List Nat),
    l₁.map natChars = l₂.map natChars → l₁ = l₂ := by
  intro l₁
  induction l₁ with
  | nil =>
    intro l₂ h
    cases l₂ with
    | nil => rfl
    | cons b l₂ => simp at h
  | cons a l₁ ih =>
    intro l₂ h
    cases l₂ with
    | nil => simp at h
    | cons b l₂ =>
      simp only [List.map_cons, List.cons.injEq] at h
      rw [natChars_inj h.1, ih l₂ h.2]

/-- The source's archetype/cache key is injective on id lists: two id lists
produce the same `join(",")` string iff they are equal. -/
lemma createSignature_inj (l₁ l₂ : List Nat) :
    createSignature l₁ = createSignature l₂ ↔ l₁ = l₂ := by
  constructor
  · intro h
    unfold createSignature at h
    have h' : joinComma (l₁.map natChars) = joinComma (l₂.map natChars) := by
      have := congrArg String.data h
      simpa using this
    have hparts : ∀ (l : List Nat) (x : List Char), x ∈ l.map natChars →
        x ≠ [] ∧ ',' ∉ x := by
      intro l x hx
      obtain ⟨n, _, rfl⟩ := List.mem_map.mp hx
      exact ⟨natChars_ne_nil n, natChars_no_comma n⟩
    exact map_natChars_inj l₁ l₂
      (joinComma_inj _ _ (hparts l₁) (hparts l₂) h')
  · intro h
    rw [h]

/-! ### Sorting facts for the canonical order -/

lemma sortIds_perm (l : List Nat) : (sortIds l).Perm l :=
  List.perm_insertionSort _ l

lemma sortIds_sorted (l : List Nat) : List.Sorted (· ≤ ·) (sortIds l) :=
  List.sorted_insertionSort _ l

/-- Two id lists canonicalize to the same sorted sequence iff they are
permutations of one another (i.e. the same multiset of ids). -/
lemma sortIds_eq_iff {l₁ l₂ : List Nat} : sortIds l₁ = sortIds l₂ ↔ l₁.Perm l₂ := by
  constructor
  · intro h
    exact (sortIds_perm l₁).symm.trans (h ▸ sortIds_perm l₂)
  · intro h
    exact List.eq_of_perm_of_sorted
      ((sortIds_perm l₁).trans (h.trans (sortIds_perm l₂).symm))
      (sortIds_sorted l₁) (sortIds_sorted l₂)

lemma pairwise_lt_of_sorted_nodup {l : List Nat}
    (hs : List.Sorted (· ≤ ·) l) (hn : l.Nodup) : l.Pairwise (· < ·) :=
  (hs.and hn).imp (fun h => lt_of_le_of_ne h.1 h.2)

lemma sorted_of_pairwise_lt {l : List Nat} (h : l.Pairwise (· < ·)) :
    List.Sorted (· ≤ ·) l :=
  h.imp le_of_lt

lemma nodup_of_pairwise_lt {l : List Nat} (h : l.Pairwise (· < ·)) : l.Nodup :=
  h.imp ne_of_lt

lemma sortIds_pairwise_lt {l : List Nat} (hn : l.Nodup) :
    (sortIds l).Pairwise (· < ·) :=
  pairwise_lt_of_sorted_nodup (sortIds_sorted l) ((sortIds_perm l).nodup_iff.mpr hn)

/-! ### Small list and set helpers -/

lemma setAdd_mem {α : Type} [DecidableEq α] {l : List α} {x y : α} :
    y ∈ setAdd l x ↔ y ∈ l ∨ y = x := by
  unfold setAdd
  split
  · rename_i h
    constructor
    · exact Or.inl
    · rintro (hy | rfl)
      · exact hy
      · exact h
  · simp

lemma setAdd_nodup {α : Type} [DecidableEq α] {l : List α} {x : α} (h : l.Nodup) :
    (setAdd l x).Nodup := by
  unfold setAdd
  split
  · exact h
  · rename_i hx
    refine List.Nodup.append h (by simp) ?_
    intro y hy hy'
    rw [List.mem_singleton] at hy'
    exact hx (hy' ▸ hy)

lemma arrSet_length {α : Type} (l : List α) (i : Nat) (v : α) (h : i ≤ l.length) :
    (arrSet l i v).length = if i = l.length then l.length + 1 else l.length := by
  unfold arrSet
  split <;> simp

lemma arrSet_getElem? {α : Type} (l : List α) (i : Nat) (v : α) (j : Nat) (h : i ≤ l.length) :
    (arrSet l i v)[j]? = if j = i then some v else l[j]? := by
  unfold arrSet
  rcases Nat.lt_or_ge i l.length with hlt | hge
  · rw [if_neg (Nat.ne_of_lt hlt), List.getElem?_set]
    by_cases hji : j = i
    · subst hji
      simp [hlt]
    · rw [if_neg (fun hij => hji hij.symm), if_neg hji]
  · have hi : i = l.length := le_antisymm h hge
    subst hi
    rw [if_pos rfl]
    by_cases hji : j = l.length
    · subst hji
      simp [List.getElem?_concat_length]
    · rw [if_neg hji, List.getElem?_append]
      split
      · rfl
      · rename_i hj
        push_neg at hj
        have h1 : ([v] : List α)[j - l.length]? = none := by
          apply List.getElem?_eq_none
          simp only [List.length_singleton]
          omega
        have h2 : l[j]? = none := List.getElem?_eq_none (by omega)
        rw [h1, h2]

lemma getElem?_dropLast {α : Type} (l : List α) (j : Nat) :
    l.dropLast[j]? = if j < l.length - 1 then l[j]? else none := by
  rw [List.dropLast_eq_take, List.getElem?_take]

lemma getElem?_append_left' {α : Type} (l : List α) (x : α) (j : Nat) (h : j < l.length) :
    (l ++ [x])[j]? = l[j]? := by
  rw [List.getElem?_append, if_pos h]

/-! ### The reachable-state invariant

`WFcore` collects the structural invariants of the store: the dense type
registry, canonically sorted archetype signatures, row-aligned columns, the
entity-location maps agreeing with the archetype rows, the per-id archetype
index being exact, and the structural facts about query-cache entries.
`CacheInv` is the coherence of clean cache entries (which batching can
suspend only while an invalidation is pending). -/

/-- Nat `e` semantically matches the query ids `qids` in state `s`:
some archetype whose signature includes every queried id lists `e`. -/
def MatchesQuery (s : CMState K V) (qids : List Nat) (e : Nat) : Prop :=
  ∃ key a, s.archetypes key = some a ∧ (∀ id ∈ qids, id ∈ key) ∧ e ∈ a.entities

/-- A cache entry is accurate for state `s`: its materialized list holds
exactly the matching entities, without duplicates. -/
def CacheAccurate (s : CMState K V) (c : QueryCacheData) : Prop :=
  (∀ e, e ∈ c.entities ↔ MatchesQuery s c.signature e) ∧ c.entities.Nodup

/-- Structural invariants of every reachable store state. -/
structure WFcore (s : CMState K V) : Prop where
  toId_lt : ∀ k id, s.componentClassToId k = some id → id < s.componentIdCounter
  toId_inj : ∀ k₁ k₂ id, s.componentClassToId k₁ = some id →
      s.componentClassToId k₂ = some id → k₁ = k₂
  index_dom : ∀ id, (s.archetypesByComponentId id).isSome = true ↔ id < s.componentIdCounter
  pool_dom : ∀ id, (s.recycledComponents id).isSome = true ↔ id < s.componentIdCounter
  arch_sig : ∀ key a, s.archetypes key = some a → a.signature = key
  arch_sorted : ∀ key a, s.archetypes key = some a → key.Pairwise (· < ·)
  arch_ids_lt : ∀ key a, s.archetypes key = some a → ∀ id ∈ key, id < s.componentIdCounter
  cols_dom : ∀ key a id, s.archetypes key = some a →
      ((a.componentArrays id).isSome = true ↔ id ∈ key)
  cols_len : ∀ key a id col, s.archetypes key = some a → a.componentArrays id = some col →
      col.length = a.entities.length
  loc : ∀ e key, s.entityToArchetype e = some key →
      ∃ a i, s.archetypes key = some a ∧ s.entityToIndex e = some i ∧ a.entities[i]? = some e
  idx_loc : ∀ e, (s.entityToIndex e).isSome = true → (s.entityToArchetype e).isSome = true
  row_loc : ∀ key a i e, s.archetypes key = some a → a.entities[i]? = some e →
      s.entityToArchetype e = some key ∧ s.entityToIndex e = some i
  index_spec : ∀ id keys, s.archetypesByComponentId id = some keys →
      (∀ key, key ∈ keys ↔ ∃ a, s.archetypes key = some a ∧ id ∈ key) ∧ keys.Nodup
  cache_sig : ∀ key c, s.queryCache key = some c → c.signature = key
  cache_sorted : ∀ key c, s.queryCache key = some c → List.Sorted (· ≤ ·) key
  cache_ne : ∀ key c, s.queryCache key = some c → key ≠ []
  cache_ids_lt : ∀ key c, s.queryCache key = some c → ∀ id ∈ key, id < s.componentIdCounter
  pending_batch : s.pendingCacheInvalidation = true → s.batchInvalidation = true

/-- Clean query-cache entries are accurate, unless an invalidation pass is
pending (batch mode defers it). -/
def CacheInv (s : CMState K V) : Prop :=
  s.pendingCacheInvalidation = true ∨
    ∀ key c, s.queryCache key = some c → c.needsUpdate = false → CacheAccurate s c

/-- The full invariant of reachable states. -/
def WF (s : CMState K V) : Prop := WFcore s ∧ CacheInv s

/-- The archetype row-alignment invariant of claim C7: every archetype holds
one dense column per id of its signature, each column as long as the entity
list, and row `i` of every column belongs to `entities[i]`, with the
entity-to-row map agreeing with the entity lists in both directions. -/
def RowAligned (s : CMState K V) : Prop :=
  (∀ key a id, s.archetypes key = some a →
      ((a.componentArrays id).isSome = true ↔ id ∈ a.signature)) ∧
  (∀ key a id col, s.archetypes key = some a →
      a.componentArrays id = some col → col.length = a.entities.length) ∧
  (∀ key a i e, s.archetypes key = some a → a.entities[i]? = some e →
      s.entityToArchetype e = some key ∧ s.entityToIndex e = some i) ∧
  (∀ e key, s.entityToArchetype e = some key →
      ∃ a i, s.archetypes key = some a ∧ s.entityToIndex e = some i ∧
        a.entities[i]? = some e)

lemma wfcore_init : WFcore (initState K V) := by
  constructor <;> simp [initState]

lemma wf_init : WF (initState K V) := by
  refine ⟨wfcore_init, Or.inr ?_⟩
  simp [initState]

/-- Archetype member rows never repeat an entity. -/
lemma WFcore.entities_nodup {s : CMState K V} (hs : WFcore s) {key : List Nat}
    {a : ArchetypeData V} (ha : s.archetypes key = some a) : a.entities.Nodup := by
  rw [List.nodup_iff_injective_get]
  intro ⟨i, hi⟩ ⟨j, hj⟩ hij
  have h1 : a.entities[i]? = some (a.entities.get ⟨i, hi⟩) := by
    rw [List.getElem?_eq_getElem hi, List.get_eq_getElem]
  have h2 : a.entities[j]? = some (a.entities.get ⟨j, hj⟩) := by
    rw [List.getElem?_eq_getElem hj, List.get_eq_getElem]
  rw [hij] at h1
  have hi' := (hs.row_loc key a i _ ha h1).2
  have hj' := (hs.row_loc key a j _ ha h2).2
  have : i = j := by
    rw [hi'] at hj'
    exact Option.some_injective _ hj'
  simp [this]

/-- An entity listed by two archetypes pins both to the same key. -/
lemma WFcore.mem_unique {s : CMState K V} (hs : WFcore s) {key₁ key₂ : List Nat}
    {a₁ a₂ : ArchetypeData V} (h₁ : s.archetypes key₁ = some a₁)
    (h₂ : s.archetypes key₂ = some a₂) {e : Nat}
    (he₁ : e ∈ a₁.entities) (he₂ : e ∈ a₂.entities) : key₁ = key₂ := by
  obtain ⟨i, hi⟩ := List.get_of_mem he₁
  obtain ⟨j, hj⟩ := List.get_of_mem he₂
  have hi' : a₁.entities[i.1]? = some e := by
    rw [List.getElem?_eq_getElem i.2, ← List.get_eq_getElem, hi]
  have hj' : a₂.entities[j.1]? = some e := by
    rw [List.getElem?_eq_getElem j.2, ← List.get_eq_getElem, hj]
  have k1 := (hs.row_loc key₁ a₁ i.1 e h₁ hi').1
  have k2 := (hs.row_loc key₂ a₂ j.1 e h₂ hj').1
  rw [k1] at k2
  exact Option.some_injective _ k2

/-! ### Effect and preservation lemmas: registry and invalidation helpers -/

lemma getComponentId_unchanged (s : CMState K V) (k : K) :
    (getComponentId s k).1.archetypes = s.archetypes ∧
    (getComponentId s k).1.entityToArchetype = s.entityToArchetype ∧
    (getComponentId s k).1.entityToIndex = s.entityToIndex ∧
    (getComponentId s k).1.queryCache = s.queryCache ∧
    (getComponentId s k).1.batchInvalidation = s.batchInvalidation ∧
    (getComponentId s k).1.pendingCacheInvalidation = s.pendingCacheInvalidation := by
  unfold getComponentId
  cases h : s.componentClassToId k <;> simp

lemma getComponentId_counter_le (s : CMState K V) (k : K) :
    s.componentIdCounter ≤ (getComponentId s k).1.componentIdCounter := by
  unfold getComponentId
  cases h : s.componentClassToId k <;> simp

lemma getComponentId_id_lt (s : CMState K V) (k : K) (hs : WFcore s) :
    (getComponentId s k).2 < (getComponentId s k).1.componentIdCounter := by
  cases h : s.componentClassToId k with
  | none => simp [getComponentId, h]
  | some id =>
    simp only [getComponentId, h]
    exact hs.toId_lt k id h

lemma getComponentId_recycled_mono (s : CMState K V) (k : K) (hs : WFcore s) {id : Nat}
    {r : List V} (h : s.recycledComponents id = some r) :
    (getComponentId s k).1.recycledComponents id = some r := by
  unfold getComponentId
  cases hk : s.componentClassToId k with
  | some id' => simpa using h
  | none =>
    simp only
    by_cases hid : id = s.componentIdCounter
    · subst hid
      have hdom := (hs.pool_dom s.componentIdCounter).mp (by rw [h]; rfl)
      omega
    · simp [Function.update_noteq hid, h]

lemma wfcore_getComponentId (s : CMState K V) (k : K) (hs : WFcore s) :
    WFcore (getComponentId s k).1 := by
  unfold getComponentId
  cases hk : s.componentClassToId k with
  | some id => simpa using hs
  | none =>
    simp only
    constructor <;> dsimp only
    case toId_lt =>
      intro k' id' h'
      by_cases hkk : k' = k
      · subst hkk
        rw [Function.update_same] at h'
        cases h'
        omega
      · rw [Function.update_noteq hkk] at h'
        have := hs.toId_lt k' id' h'
        omega
    case toId_inj =>
      intro k₁ k₂ id' h₁ h₂
      by_cases h1 : k₁ = k <;> by_cases h2 : k₂ = k
      · rw [h1, h2]
      · subst h1
        rw [Function.update_same] at h₁
        rw [Function.update_noteq h2] at h₂
        cases h₁
        exact absurd (hs.toId_lt k₂ _ h₂) (by omega)
      · subst h2
        rw [Function.update_same] at h₂
        rw [Function.update_noteq h1] at h₁
        cases h₂
        exact absurd (hs.toId_lt k₁ _ h₁) (by omega)
      · rw [Function.update_noteq h1] at h₁
        rw [Function.update_noteq h2] at h₂
        exact hs.toId_inj k₁ k₂ id' h₁ h₂
    case index_dom =>
      intro id'
      by_cases hid : id' = s.componentIdCounter
      · subst hid
        rw [Function.update_same]
        simp
      · rw [Function.update_noteq hid]
        rw [hs.index_dom id']
        omega
    case pool_dom =>
      intro id'
      by_cases hid : id' = s.componentIdCounter
      · subst hid
        rw [Function.update_same]
        simp
      · rw [Function.update_noteq hid]
        rw [hs.pool_dom id']
        omega
    case arch_sig => exact hs.arch_sig
    case arch_sorted => exact hs.arch_sorted
    case arch_ids_lt =>
      intro key a ha id' hid
      have := hs.arch_ids_lt key a ha id' hid
      omega
    case cols_dom => exact hs.cols_dom
    case cols_len => exact hs.cols_len
    case loc => exact hs.loc
    case idx_loc => exact hs.idx_loc
    case row_loc => exact hs.row_loc
    case index_spec =>
      intro id' keys h'
      by_cases hid : id' = s.componentIdCounter
      · subst hid
        rw [Function.update_same] at h'
        cases h'
        constructor
        · intro key
          simp only [List.not_mem_nil, false_iff]
          rintro ⟨a, ha, hmem⟩
          exact absurd (hs.arch_ids_lt key a ha _ hmem) (by omega)
        · exact List.nodup_nil
      · rw [Function.update_noteq hid] at h'
        exact hs.index_spec id' keys h'
    case cache_sig => exact hs.cache_sig
    case cache_sorted => exact hs.cache_sorted
    case cache_ne => exact hs.cache_ne
    case cache_ids_lt =>
      intro key c hc id' hid
      have := hs.cache_ids_lt key c hc id' hid
      omega
    case pending_batch => exact hs.pending_batch

lemma cacheInv_getComponentId (s : CMState K V) (k : K) (hs : CacheInv s) :
    CacheInv (getComponentId s k).1 := by
  obtain ⟨ha, _, _, hq, _, hp⟩ := getComponentId_unchanged s k
  unfold CacheInv CacheAccurate MatchesQuery at *
  rw [ha, hq, hp]
  exact hs

/-- Cache coherence only depends on the archetype map, the cache map and the
pending flag. -/
lemma cacheInv_of_eq {s s' : CMState K V} (ha : s'.archetypes = s.archetypes)
    (hq : s'.queryCache = s.queryCache)
    (hp : s'.pendingCacheInvalidation = s.pendingCacheInvalidation)
    (h : CacheInv s) : CacheInv s' := by
  unfold CacheInv CacheAccurate MatchesQuery at *
  rw [ha, hq, hp]
  exact h

lemma invalidate_fields (s : CMState K V) :
    (invalidateQueryCaches s).componentIdCounter = s.componentIdCounter ∧
    (invalidateQueryCaches s).componentClassToId = s.componentClassToId ∧
    (invalidateQueryCaches s).archetypes = s.archetypes ∧
    (invalidateQueryCaches s).entityToArchetype = s.entityToArchetype ∧
    (invalidateQueryCaches s).entityToIndex = s.entityToIndex ∧
    (invalidateQueryCaches s).archetypesByComponentId = s.archetypesByComponentId ∧
    (invalidateQueryCaches s).recycledComponents = s.recycledComponents ∧
    (invalidateQueryCaches s).batchInvalidation = s.batchInvalidation ∧
    (invalidateQueryCaches s).pendingCacheInvalidation = s.pendingCacheInvalidation := by
  unfold invalidateQueryCaches
  exact ⟨rfl, rfl, rfl, rfl, rfl, rfl, rfl, rfl, rfl⟩

lemma invalidate_queryCache (s : CMState K V) (key : List Nat) :
    (invalidateQueryCaches s).queryCache key =
      (s.queryCache key).map (fun c => { c with needsUpdate := true }) := rfl

lemma wfcore_invalidate (s : CMState K V) (hs : WFcore s) :
    WFcore (invalidateQueryCaches s) := by
  have hcq : ∀ key c, (invalidateQueryCaches s).queryCache key = some c →
      ∃ c₀, s.queryCache key = some c₀ ∧ c.signature = c₀.signature := by
    intro key c hc
    rw [invalidate_queryCache] at hc
    obtain ⟨c₀, h₀, rfl⟩ := Option.map_eq_some'.mp hc
    exact ⟨c₀, h₀, rfl⟩
  constructor <;> dsimp only [invalidateQueryCaches]
  case toId_lt => exact hs.toId_lt
  case toId_inj => exact hs.toId_inj
  case index_dom => exact hs.index_dom
  case pool_dom => exact hs.pool_dom
  case arch_sig => exact hs.arch_sig
  case arch_sorted => exact hs.arch_sorted
  case arch_ids_lt => exact hs.arch_ids_lt
  case cols_dom => exact hs.cols_dom
  case cols_len => exact hs.cols_len
  case loc => exact hs.loc
  case idx_loc => exact hs.idx_loc
  case row_loc => exact hs.row_loc
  case index_spec => exact hs.index_spec
  case cache_sig =>
    intro key c hc
    obtain ⟨c₀, h₀, hsig⟩ := hcq key c hc
    rw [hsig]
    exact hs.cache_sig key c₀ h₀
  case cache_sorted =>
    intro key c hc
    obtain ⟨c₀, h₀, _⟩ := hcq key c hc
    exact hs.cache_sorted key c₀ h₀
  case cache_ne =>
    intro key c hc
    obtain ⟨c₀, h₀, _⟩ := hcq key c hc
    exact hs.cache_ne key c₀ h₀
  case cache_ids_lt =>
    intro key c hc
    obtain ⟨c₀, h₀, _⟩ := hcq key c hc
    exact hs.cache_ids_lt key c₀ h₀
  case pending_batch => exact hs.pending_batch

lemma schedule_fields (s : CMState K V) :
    (scheduleQueryCacheInvalidation s).componentIdCounter = s.componentIdCounter ∧
    (scheduleQueryCacheInvalidation s).componentClassToId = s.componentClassToId ∧
    (scheduleQueryCacheInvalidation s).archetypes = s.archetypes ∧
    (scheduleQueryCacheInvalidation s).entityToArchetype = s.entityToArchetype ∧
    (scheduleQueryCacheInvalidation s).entityToIndex = s.entityToIndex ∧
    (scheduleQueryCacheInvalidation s).archetypesByComponentId = s.archetypesByComponentId ∧
    (scheduleQueryCacheInvalidation s).recycledComponents = s.recycledComponents ∧
    (scheduleQueryCacheInvalidation s).batchInvalidation = s.batchInvalidation := by
  unfold scheduleQueryCacheInvalidation
  split
  · exact ⟨rfl, rfl, rfl, rfl, rfl, rfl, rfl, rfl⟩
  · obtain ⟨h1, h2, h3, h4, h5, h6, h7, h8, _⟩ := invalidate_fields s
    exact ⟨h1, h2, h3, h4, h5, h6, h7, h8⟩

lemma wfcore_schedule (s : CMState K V) (hs : WFcore s) :
    WFcore (scheduleQueryCacheInvalidation s) := by
  unfold scheduleQueryCacheInvalidation
  split
  · rename_i hb
    constructor <;> dsimp only
    case toId_lt => exact hs.toId_lt
    case toId_inj => exact hs.toId_inj
    case index_dom => exact hs.index_dom
    case pool_dom => exact hs.pool_dom
    case arch_sig => exact hs.arch_sig
    case arch_sorted => exact hs.arch_sorted
    case arch_ids_lt => exact hs.arch_ids_lt
    case cols_dom => exact hs.cols_dom
    case cols_len => exact hs.cols_len
    case loc => exact hs.loc
    case idx_loc => exact hs.idx_loc
    case row_loc => exact hs.row_loc
    case index_spec => exact hs.index_spec
    case cache_sig => exact hs.cache_sig
    case cache_sorted => exact hs.cache_sorted
    case cache_ne => exact hs.cache_ne
    case cache_ids_lt => exact hs.cache_ids_lt
    case pending_batch => exact fun _ => hb
  · exact wfcore_invalidate s hs

/-- Scheduling invalidation establishes cache coherence outright: either the
pending flag is raised, or every entry has just been marked dirty. -/
lemma cacheInv_schedule (s : CMState K V) :
    CacheInv (scheduleQueryCacheInvalidation s) := by
  unfold CacheInv scheduleQueryCacheInvalidation
  split
  · exact Or.inl rfl
  · refine Or.inr ?_
    intro key c hc hclean
    exfalso
    rw [invalidate_queryCache] at hc
    obtain ⟨c₀, _, rfl⟩ := Option.map_eq_some'.mp hc
    simp at hclean

lemma wfcore_startBatch (s : CMState K V) (hs : WFcore s) : WFcore (startBatch s) := by
  constructor <;> dsimp only [startBatch]
  case toId_lt => exact hs.toId_lt
  case toId_inj => exact hs.toId_inj
  case index_dom => exact hs.index_dom
  case pool_dom => exact hs.pool_dom
  case arch_sig => exact hs.arch_sig
  case arch_sorted => exact hs.arch_sorted
  case arch_ids_lt => exact hs.arch_ids_lt
  case cols_dom => exact hs.cols_dom
  case cols_len => exact hs.cols_len
  case loc => exact hs.loc
  case idx_loc => exact hs.idx_loc
  case row_loc => exact hs.row_loc
  case index_spec => exact hs.index_spec
  case cache_sig => exact hs.cache_sig
  case cache_sorted => exact hs.cache_sorted
  case cache_ne => exact hs.cache_ne
  case cache_ids_lt => exact hs.cache_ids_lt
  case pending_batch => exact fun _ => rfl

lemma cacheInv_startBatch (s : CMState K V) (hs : CacheInv s) : CacheInv (startBatch s) :=
  cacheInv_of_eq rfl rfl rfl hs

lemma wfcore_endBatch (s : CMState K V) (hs : WFcore s) : WFcore (endBatch s) := by
  unfold endBatch
  split
  · rename_i hp
    have hinv := wfcore_invalidate s hs
    constructor <;> dsimp only
    case toId_lt => exact hinv.toId_lt
    case toId_inj => exact hinv.toId_inj
    case index_dom => exact hinv.index_dom
    case pool_dom => exact hinv.pool_dom
    case arch_sig => exact hinv.arch_sig
    case arch_sorted => exact hinv.arch_sorted
    case arch_ids_lt => exact hinv.arch_ids_lt
    case cols_dom => exact hinv.cols_dom
    case cols_len => exact hinv.cols_len
    case loc => exact hinv.loc
    case idx_loc => exact hinv.idx_loc
    case row_loc => exact hinv.row_loc
    case index_spec => exact hinv.index_spec
    case cache_sig => exact hinv.cache_sig
    case cache_sorted => exact hinv.cache_sorted
    case cache_ne => exact hinv.cache_ne
    case cache_ids_lt => exact hinv.cache_ids_lt
    case pending_batch => intro h; exact absurd h (by simp)
  · constructor <;> dsimp only
    case toId_lt => exact hs.toId_lt
    case toId_inj => exact hs.toId_inj
    case index_dom => exact hs.index_dom
    case pool_dom => exact hs.pool_dom
    case arch_sig => exact hs.arch_sig
    case arch_sorted => exact hs.arch_sorted
    case arch_ids_lt => exact hs.arch_ids_lt
    case cols_dom => exact hs.cols_dom
    case cols_len => exact hs.cols_len
    case loc => exact hs.loc
    case idx_loc => exact hs.idx_loc
    case row_loc => exact hs.row_loc
    case index_spec => exact hs.index_spec
    case cache_sig => exact hs.cache_sig
    case cache_sorted => exact hs.cache_sorted
    case cache_ne => exact hs.cache_ne
    case cache_ids_lt => exact hs.cache_ids_lt
    case pending_batch => rename_i hp; intro h; exact absurd h (by simpa using hp)

/-- After `endBatch` the pending flag is always clear and cache coherence
holds (the invalidation pass, if pending, has just dirtied every entry). -/
lemma cacheInv_endBatch (s : CMState K V) (hs : CacheInv s) : CacheInv (endBatch s) := by
  unfold endBatch
  split
  · refine Or.inr ?_
    intro key c hc hclean
    exfalso
    rw [invalidate_queryCache] at hc
    obtain ⟨c₀, _, rfl⟩ := Option.map_eq_some'.mp hc
    simp at hclean
  · rename_i hp
    rcases hs with hpend | hacc
    · exact absurd hpend (by simpa using hp)
    · exact Or.inr hacc

lemma endBatch_pending (s : CMState K V) :
    (endBatch s).pendingCacheInvalidation = false := by
  unfold endBatch
  split
  · rfl
  · rename_i hp
    simpa using hp

lemma wfcore_clearQueryCache (s : CMState K V) (hs : WFcore s) :
    WFcore (clearQueryCache s) := by
  constructor <;> dsimp only [clearQueryCache]
  case toId_lt => exact hs.toId_lt
  case toId_inj => exact hs.toId_inj
  case index_dom => exact hs.index_dom
  case pool_dom => exact hs.pool_dom
  case arch_sig => exact hs.arch_sig
  case arch_sorted => exact hs.arch_sorted
  case arch_ids_lt => exact hs.arch_ids_lt
  case cols_dom => exact hs.cols_dom
  case cols_len => exact hs.cols_len
  case loc => exact hs.loc
  case idx_loc => exact hs.idx_loc
  case row_loc => exact hs.row_loc
  case index_spec => exact hs.index_spec
  case cache_sig => intro key c hc; exact absurd hc (by simp)
  case cache_sorted => intro key c hc; exact absurd hc (by simp)
  case cache_ne => intro key c hc; exact absurd hc (by simp)
  case cache_ids_lt => intro key c hc; exact absurd hc (by simp)
  case pending_batch => exact hs.pending_batch

lemma cacheInv_clearQueryCache (s : CMState K V) : CacheInv (clearQueryCache s) := by
  refine Or.inr ?_
  intro key c hc
  exact absurd hc (by simp [clearQueryCache])

/-! ### Effect and preservation lemmas: archetype creation -/

lemma getOrCreateArchetype_fields (s : CMState K V) (ids : List Nat) :
    (getOrCreateArchetype s ids).1.componentIdCounter = s.componentIdCounter ∧
    (getOrCreateArchetype s ids).1.componentClassToId = s.componentClassToId ∧
    (getOrCreateArchetype s ids).1.entityToArchetype = s.entityToArchetype ∧
    (getOrCreateArchetype s ids).1.entityToIndex = s.entityToIndex ∧
    (getOrCreateArchetype s ids).1.recycledComponents = s.recycledComponents ∧
    (getOrCreateArchetype s ids).1.batchInvalidation = s.batchInvalidation ∧
    (getOrCreateArchetype s ids).2 = ids := by
  unfold getOrCreateArchetype
  cases h : s.archetypes ids with
  | some a => exact ⟨rfl, rfl, rfl, rfl, rfl, rfl, rfl⟩
  | none =>
    obtain ⟨h1, h2, h3, h4, h5, h6, h7, h8⟩ := schedule_fields
      ({ s with
        archetypes := Function.update s.archetypes ids
          (some { signature := ids, entities := [],
                  componentArrays := fun id => if id ∈ ids then some [] else none })
        archetypesByComponentId := fun id =>
          if id ∈ ids then (s.archetypesByComponentId id).map (fun l => setAdd l ids)
          else s.archetypesByComponentId id } : CMState K V)
    exact ⟨h1, h2, h4, h5, h7, h8, rfl⟩

lemma getOrCreateArchetype_spec (s : CMState K V) (ids : List Nat) (hs : WFcore s)
    (hsorted : ids.Pairwise (· < ·)) (hlt : ∀ id ∈ ids, id < s.componentIdCounter) :
    WFcore (getOrCreateArchetype s ids).1 ∧
    (∃ a, (getOrCreateArchetype s ids).1.archetypes ids = some a ∧ a.signature = ids ∧
      (s.archetypes ids = some a ∨ (a.entities = [] ∧
        ∀ id, a.componentArrays id = if id ∈ ids then some [] else none))) ∧
    (∀ key, key ≠ ids → (getOrCreateArchetype s ids).1.archetypes key = s.archetypes key) := by
  unfold getOrCreateArchetype
  cases h : s.archetypes ids with
  | some a =>
    exact ⟨hs, ⟨a, h, hs.arch_sig ids a h, Or.inl rfl⟩, fun key _ => rfl⟩
  | none =>
    simp only
    set newA : ArchetypeData V :=
      { signature := ids, entities := [],
        componentArrays := fun id => if id ∈ ids then some [] else none } with hnewA
    set s1 : CMState K V :=
      { s with
        archetypes := Function.update s.archetypes ids (some newA)
        archetypesByComponentId := fun id =>
          if id ∈ ids then (s.archetypesByComponentId id).map (fun l => setAdd l ids)
          else s.archetypesByComponentId id } with hs1
    have harch1 : ∀ key, s1.archetypes key = Function.update s.archetypes ids (some newA) key :=
      fun _ => rfl
    have hwf1 : WFcore s1 := by
      constructor
      case toId_lt => exact hs.toId_lt
      case toId_inj => exact hs.toId_inj
      case index_dom =>
        intro id
        show (if id ∈ ids then (s.archetypesByComponentId id).map (fun l => setAdd l ids)
              else s.archetypesByComponentId id).isSome = true ↔ _
        split
        · rw [Option.isSome_map']
          exact hs.index_dom id
        · exact hs.index_dom id
      case pool_dom => exact hs.pool_dom
      case arch_sig =>
        intro key a ha
        rw [harch1] at ha
        by_cases hk : key = ids
        · subst hk
          rw [Function.update_same] at ha
          injection ha with ha
          subst ha
          rfl
        · rw [Function.update_noteq hk] at ha
          exact hs.arch_sig key a ha
      case arch_sorted =>
        intro key a ha
        rw [harch1] at ha
        by_cases hk : key = ids
        · subst hk
          exact hsorted
        · rw [Function.update_noteq hk] at ha
          exact hs.arch_sorted key a ha
      case arch_ids_lt =>
        intro key a ha
        rw [harch1] at ha
        by_cases hk : key = ids
        · subst hk
          exact hlt
        · rw [Function.update_noteq hk] at ha
          exact hs.arch_ids_lt key a ha
      case cols_dom =>
        intro key a id ha
        rw [harch1] at ha
        by_cases hk : key = ids
        · subst hk
          rw [Function.update_same] at ha
          injection ha with ha
          subst ha
          show (if id ∈ key then some ([] : List V) else none).isSome = true ↔ id ∈ key
          split <;> simp_all
        · rw [Function.update_noteq hk] at ha
          exact hs.cols_dom key a id ha
      case cols_len =>
        intro key a id col ha hcol
        rw [harch1] at ha
        by_cases hk : key = ids
        · subst hk
          rw [Function.update_same] at ha
          injection ha with ha
          subst ha
          show col.length = ([] : List Nat).length
          have : (if id ∈ key then some ([] : List V) else none) = some col := hcol
          split at this
          · cases this
            rfl
          · exact absurd this (by simp)
        · rw [Function.update_noteq hk] at ha
          exact hs.cols_len key a id col ha hcol
      case loc =>
        intro e key he
        obtain ⟨a, i, ha, hi, hrow⟩ := hs.loc e key he
        refine ⟨a, i, ?_, hi, hrow⟩
        rw [harch1, Function.update_noteq]
        · exact ha
        · intro hk
          rw [hk, h] at ha
          cases ha
      case idx_loc => exact hs.idx_loc
      case row_loc =>
        intro key a i e ha hrow
        rw [harch1] at ha
        by_cases hk : key = ids
        · subst hk
          rw [Function.update_same] at ha
          injection ha with ha
          subst ha
          exact absurd hrow (by simp)
        · rw [Function.update_noteq hk] at ha
          exact hs.row_loc key a i e ha hrow
      case index_spec =>
        intro id keys h'
        have h'' : (if id ∈ ids then (s.archetypesByComponentId id).map (fun l => setAdd l ids)
            else s.archetypesByComponentId id) = some keys := h'
        by_cases hid : id ∈ ids
        · rw [if_pos hid] at h''
          obtain ⟨keys₀, hk₀, rfl⟩ := Option.map_eq_some'.mp h''
          obtain ⟨hspec₀, hnd₀⟩ := hs.index_spec id keys₀ hk₀
          constructor
          · intro key
            rw [setAdd_mem]
            by_cases hk : key = ids
            · subst hk
              constructor
              · intro _
                exact ⟨newA, by rw [harch1, Function.update_same], hid⟩
              · intro _
                exact Or.inr rfl
            · constructor
              · rintro (hmem | hmem)
                · obtain ⟨a, ha, hida⟩ := (hspec₀ key).mp hmem
                  exact ⟨a, by rw [harch1, Function.update_noteq hk]; exact ha, hida⟩
                · exact absurd hmem hk
              · rintro ⟨a, ha, hida⟩
                rw [harch1, Function.update_noteq hk] at ha
                exact Or.inl ((hspec₀ key).mpr ⟨a, ha, hida⟩)
          · exact setAdd_nodup hnd₀
        · rw [if_neg hid] at h''
          obtain ⟨hspec₀, hnd₀⟩ := hs.index_spec id keys h''
          refine ⟨?_, hnd₀⟩
          intro key
          by_cases hk : key = ids
          · subst hk
            rw [hspec₀ key]
            constructor
            · rintro ⟨a, ha, hida⟩
              rw [h] at ha
              cases ha
            · rintro ⟨a, ha, hida⟩
              rw [harch1, Function.update_same] at ha
              cases ha
              exact absurd hida hid
          · rw [hspec₀ key]
            constructor
            · rintro ⟨a, ha, hida⟩
              exact ⟨a, by rw [harch1, Function.update_noteq hk]; exact ha, hida⟩
            · rintro ⟨a, ha, hida⟩
              rw [harch1, Function.update_noteq hk] at ha
              exact ⟨a, ha, hida⟩
      case cache_sig => exact hs.cache_sig
      case cache_sorted => exact hs.cache_sorted
      case cache_ne => exact hs.cache_ne
      case cache_ids_lt => exact hs.cache_ids_lt
      case pending_batch => exact hs.pending_batch
    have hws := wfcore_schedule s1 hwf1
    obtain ⟨_, _, harchS, _, _, _, _, _⟩ := schedule_fields s1
    refine ⟨hws, ⟨newA, ?_, rfl, Or.inr ⟨rfl, fun id => rfl⟩⟩, ?_⟩
    · rw [harchS, harch1, Function.update_same]
    · intro key hk
      rw [harchS, harch1, Function.update_noteq hk]

/-! ### Effect and preservation lemmas: swap-compaction and pooling -/

/-- Effect of one `recycleComponent` call on a pool (specification helper). -/
def poolAfter (o : Option (List V)) (v : V) : Option (List V) :=
  match o with
  | some r => if r.length < 1000 then some (r ++ [v]) else some r
  | none => none

lemma recycleComponent_fields (s : CMState K V) (id : Nat) (v : V) :
    (recycleComponent s id v).componentIdCounter = s.componentIdCounter ∧
    (recycleComponent s id v).componentClassToId = s.componentClassToId ∧
    (recycleComponent s id v).archetypes = s.archetypes ∧
    (recycleComponent s id v).entityToArchetype = s.entityToArchetype ∧
    (recycleComponent s id v).entityToIndex = s.entityToIndex ∧
    (recycleComponent s id v).queryCache = s.queryCache ∧
    (recycleComponent s id v).archetypesByComponentId = s.archetypesByComponentId ∧
    (recycleComponent s id v).batchInvalidation = s.batchInvalidation ∧
    (recycleComponent s id v).pendingCacheInvalidation = s.pendingCacheInvalidation := by
  unfold recycleComponent
  cases h : s.recycledComponents id
  · exact ⟨rfl, rfl, rfl, rfl, rfl, rfl, rfl, rfl, rfl⟩
  · dsimp only
    split <;> exact ⟨rfl, rfl, rfl, rfl, rfl, rfl, rfl, rfl, rfl⟩

lemma recycleComponent_recycled (s : CMState K V) (id : Nat) (v : V) (id' : Nat) :
    (recycleComponent s id v).recycledComponents id' =
      if id' = id then poolAfter (s.recycledComponents id) v
      else s.recycledComponents id' := by
  by_cases hid : id' = id
  · subst hid
    rw [if_pos rfl]
    cases h : s.recycledComponents id' with
    | none => simp only [recycleComponent, h, poolAfter]
    | some r =>
      simp only [recycleComponent, h, poolAfter]
      split
      · dsimp only
        rw [Function.update_same]
      · exact h
  · rw [if_neg hid]
    cases h : s.recycledComponents id with
    | none => simp only [recycleComponent, h]
    | some r =>
      simp only [recycleComponent, h]
      split
      · dsimp only
        rw [Function.update_noteq hid]
      · rfl

/-- The pool-refilling fold of `swapRemoveFromArchetype`, in the general
form used by its characterization. -/
lemma recycle_foldl_spec (f : Nat → Option V) (l : List Nat) (hl : l.Nodup)
    (s : CMState K V) :
    (l.foldl (fun acc id =>
        match f id with
        | some v => recycleComponent acc id v
        | none => acc) s).componentIdCounter = s.componentIdCounter ∧
    (l.foldl (fun acc id =>
        match f id with
        | some v => recycleComponent acc id v
        | none => acc) s).componentClassToId = s.componentClassToId ∧
    (l.foldl (fun acc id =>
        match f id with
        | some v => recycleComponent acc id v
        | none => acc) s).archetypes = s.archetypes ∧
    (l.foldl (fun acc id =>
        match f id with
        | some v => recycleComponent acc id v
        | none => acc) s).entityToArchetype = s.entityToArchetype ∧
    (l.foldl (fun acc id =>
        match f id with
        | some v => recycleComponent acc id v
        | none => acc) s).entityToIndex = s.entityToIndex ∧
    (l.foldl (fun acc id =>
        match f id with
        | some v => recycleComponent acc id v
        | none => acc) s).queryCache = s.queryCache ∧
    (l.foldl (fun acc id =>
        match f id with
        | some v => recycleComponent acc id v
        | none => acc) s).archetypesByComponentId = s.archetypesByComponentId ∧
    (l.foldl (fun acc id =>
        match f id with
        | some v => recycleComponent acc id v
        | none => acc) s).batchInvalidation = s.batchInvalidation ∧
    (l.foldl (fun acc id =>
        match f id with
        | some v => recycleComponent acc id v
        | none => acc) s).pendingCacheInvalidation = s.pendingCacheInvalidation ∧
    (∀ id, (l.foldl (fun acc id =>
        match f id with
        | some v => recycleComponent acc id v
        | none => acc) s).recycledComponents id =
      if id ∈ l then
        match f id with
        | some v => poolAfter (s.recycledComponents id) v
        | none => s.recycledComponents id
      else s.recycledComponents id) := by
  induction l generalizing s with
  | nil => simp
  | cons x xs ih =>
    rw [List.nodup_cons] at hl
    obtain ⟨hx, hxs⟩ := hl
    rw [List.foldl_cons]
    cases hfx : f x with
    | none =>
      simp only [hfx]
      obtain ⟨i1, i2, i3, i4, i5, i6, i7, i8, i9, i10⟩ := ih hxs s
      refine ⟨i1, i2, i3, i4, i5, i6, i7, i8, i9, ?_⟩
      intro id
      rw [i10 id]
      by_cases hid : id = x
      · subst hid
        simp [hx, hfx]
      · simp [hid]
    | some v =>
      simp only [hfx]
      obtain ⟨i1, i2, i3, i4, i5, i6, i7, i8, i9, i10⟩ := ih hxs (recycleComponent s x v)
      obtain ⟨f1, f2, f3, f4, f5, f6, f7, f8, f9⟩ := recycleComponent_fields s x v
      refine ⟨by rw [i1, f1], by rw [i2, f2], by rw [i3, f3], by rw [i4, f4],
        by rw [i5, f5], by rw [i6, f6], by rw [i7, f7], by rw [i8, f8], by rw [i9, f9], ?_⟩
      intro id
      rw [i10 id]
      by_cases hid : id = x
      · subst hid
        rw [if_neg hx, if_pos (by simp), hfx, recycleComponent_recycled, if_pos rfl]
      · by_cases hmem : id ∈ xs
        · rw [if_pos hmem, if_pos (by simp [hmem]), recycleComponent_recycled, if_neg hid]
        · rw [if_neg hmem, if_neg (by simp [hmem, hid]), recycleComponent_recycled, if_neg hid]

/-- Setting a non-final slot leaves the last element unchanged. -/
lemma getLast?_set_of_lt {α : Type} (l : List α) (i : Nat) (x : α) (h : i < l.length - 1) :
    (l.set i x).getLast? = l.getLast? := by
  rw [List.getLast?_eq_getElem?, List.getLast?_eq_getElem?, List.length_set,
    List.getElem?_set]
  rw [if_neg (by omega)]

/-- Full characterization of the pop-and-recycle tail. -/
lemma swapRemovePop_spec (s : CMState K V) (key : List Nat) (a1 : ArchetypeData V)
    (hnd : a1.signature.Nodup) :
    (∃ a2, (swapRemovePop s key a1).archetypes key = some a2 ∧
      a2.signature = a1.signature ∧
      a2.entities = a1.entities.dropLast ∧
      ∀ id, a2.componentArrays id = (a1.componentArrays id).map List.dropLast) ∧
    (∀ key', key' ≠ key → (swapRemovePop s key a1).archetypes key' = s.archetypes key') ∧
    (swapRemovePop s key a1).entityToArchetype = s.entityToArchetype ∧
    (swapRemovePop s key a1).entityToIndex = s.entityToIndex ∧
    (∀ id, (swapRemovePop s key a1).recycledComponents id =
      if id ∈ a1.signature then
        match (a1.componentArrays id).bind List.getLast? with
        | some v => poolAfter (s.recycledComponents id) v
        | none => s.recycledComponents id
      else s.recycledComponents id) ∧
    (swapRemovePop s key a1).componentIdCounter = s.componentIdCounter ∧
    (swapRemovePop s key a1).componentClassToId = s.componentClassToId ∧
    (swapRemovePop s key a1).queryCache = s.queryCache ∧
    (swapRemovePop s key a1).archetypesByComponentId = s.archetypesByComponentId ∧
    (swapRemovePop s key a1).batchInvalidation = s.batchInvalidation ∧
    (swapRemovePop s key a1).pendingCacheInvalidation = s.pendingCacheInvalidation := by
  obtain ⟨i1, i2, i3, i4, i5, i6, i7, i8, i9, i10⟩ :=
    recycle_foldl_spec (fun id => (a1.componentArrays id).bind List.getLast?)
      a1.signature hnd
      ({ s with archetypes := (Function.update s.archetypes key
          (some { a1 with
            entities := a1.entities.dropLast
            componentArrays := fun id => (a1.componentArrays id).map List.dropLast })) })
  refine ⟨⟨{ a1 with
      entities := a1.entities.dropLast
      componentArrays := fun id => (a1.componentArrays id).map List.dropLast },
    ?_, rfl, rfl, fun id => rfl⟩, ?_, i4, i5, ?_, i1, i2, i6, i7, i8, i9⟩
  · show (swapRemovePop s key a1).archetypes key = _
    unfold swapRemovePop
    rw [i3]
    dsimp only
    rw [Function.update_same]
  · intro key' hk
    show (swapRemovePop s key a1).archetypes key' = _
    unfold swapRemovePop
    rw [i3]
    dsimp only
    rw [Function.update_noteq hk]
  · intro id
    show (swapRemovePop s key a1).recycledComponents id = _
    unfold swapRemovePop
    rw [i10 id]

/-- `swapRemoveFromArchetype` at the last row performs no swap. -/
lemma swapRemove_eq_pop_last (s : CMState K V) (e : Nat) (key : List Nat)
    (i : Nat) {a : ArchetypeData V} (ha : s.archetypes key = some a)
    (hcase : i = a.entities.length - 1) :
    swapRemoveFromArchetype s e key i = swapRemovePop s key a := by
  unfold swapRemoveFromArchetype
  rw [ha]
  dsimp only
  rw [if_neg (not_not_intro hcase)]

/-- `swapRemoveFromArchetype` off the last row copies the last row (entity
and every column value) into row `i` and records the moved entity at `i`. -/
lemma swapRemove_eq_pop_swap (s : CMState K V) (e : Nat) (key : List Nat)
    (i : Nat) {a : ArchetypeData V} (ha : s.archetypes key = some a)
    (hcase : i ≠ a.entities.length - 1) :
    swapRemoveFromArchetype s e key i =
      swapRemovePop
        { s with entityToIndex := (Function.update s.entityToIndex
            (a.entities.getD (a.entities.length - 1) default) (some i)) }
        key
        { a with
          entities := a.entities.set i (a.entities.getD (a.entities.length - 1) default)
          componentArrays := fun id => (a.componentArrays id).map
            (fun col => col.set i (col.getD (a.entities.length - 1) default)) } := by
  unfold swapRemoveFromArchetype
  rw [ha]
  dsimp only
  rw [if_pos hcase]

/-- Full characterization of `moveEntity` between two distinct existing
archetypes, at an in-bounds source row with row-aligned source columns. -/
lemma moveEntity_spec (s : CMState K V) (e : Nat) (fromKey toKey : List Nat)
    {fromA toA : ArchetypeData V} {i : Nat}
    (hidx : s.entityToIndex e = some i)
    (hfrom : s.archetypes fromKey = some fromA)
    (hto : s.archetypes toKey = some toA)
    (hne : fromKey ≠ toKey)
    (hi : i < fromA.entities.length)
    (hnd : fromA.signature.Nodup)
    (hcl : ∀ id col, fromA.componentArrays id = some col →
      col.length = fromA.entities.length) :
    (∃ toA2, (moveEntity s e fromKey toKey).archetypes toKey = some toA2 ∧
      toA2.signature = toA.signature ∧
      toA2.entities = toA.entities ++ [e] ∧
      ∀ id, toA2.componentArrays id = (toA.componentArrays id).map
        (fun tgt => if id ∈ fromA.signature then
          tgt ++ [((fromA.componentArrays id).getD []).getD i default] else tgt)) ∧
    (∃ fromA2, (moveEntity s e fromKey toKey).archetypes fromKey = some fromA2 ∧
      fromA2.signature = fromA.signature ∧
      fromA2.entities = (if i = fromA.entities.length - 1 then fromA.entities
        else fromA.entities.set i
          (fromA.entities.getD (fromA.entities.length - 1) default)).dropLast ∧
      ∀ id, fromA2.componentArrays id = (fromA.componentArrays id).map
        (fun col => (if i = fromA.entities.length - 1 then col
          else col.set i (col.getD (fromA.entities.length - 1) default)).dropLast)) ∧
    (∀ key', key' ≠ fromKey → key' ≠ toKey →
      (moveEntity s e fromKey toKey).archetypes key' = s.archetypes key') ∧
    (moveEntity s e fromKey toKey).entityToArchetype =
      Function.update s.entityToArchetype e (some toKey) ∧
    (moveEntity s e fromKey toKey).entityToIndex =
      Function.update
        (if i = fromA.entities.length - 1 then s.entityToIndex
          else Function.update s.entityToIndex
            (fromA.entities.getD (fromA.entities.length - 1) default) (some i))
        e (some toA.entities.length) ∧
    (∀ id, (moveEntity s e fromKey toKey).recycledComponents id =
      if id ∈ fromA.signature then
        match (fromA.componentArrays id).bind List.getLast? with
        | some v => poolAfter (s.recycledComponents id) v
        | none => s.recycledComponents id
      else s.recycledComponents id) ∧
    (moveEntity s e fromKey toKey).componentIdCounter = s.componentIdCounter ∧
    (moveEntity s e fromKey toKey).componentClassToId = s.componentClassToId ∧
    (moveEntity s e fromKey toKey).queryCache = s.queryCache ∧
    (moveEntity s e fromKey toKey).archetypesByComponentId = s.archetypesByComponentId ∧
    (moveEntity s e fromKey toKey).batchInvalidation = s.batchInvalidation ∧
    (moveEntity s e fromKey toKey).pendingCacheInvalidation =
      s.pendingCacheInvalidation := by
  have hton : toKey ≠ fromKey := fun h => hne h.symm
  -- the state after pushing the sibling values onto the target's columns
  set toA1 : ArchetypeData V :=
    { toA with componentArrays := fun id =>
        match toA.componentArrays id with
        | none => none
        | some tgt =>
          if id ∈ fromA.signature then
            some (tgt ++ [((fromA.componentArrays id).getD []).getD i default])
          else some tgt } with htoA1
  set s1 : CMState K V :=
    { s with archetypes := Function.update s.archetypes toKey (some toA1) } with hs1
  have hmove : moveEntity s e fromKey toKey =
      (match (swapRemoveFromArchetype s1 e fromKey i).archetypes toKey with
       | none => swapRemoveFromArchetype s1 e fromKey i
       | some toA2 =>
         { swapRemoveFromArchetype s1 e fromKey i with
           archetypes := Function.update
             (swapRemoveFromArchetype s1 e fromKey i).archetypes toKey
             (some { toA2 with entities := toA2.entities ++ [e] })
           entityToArchetype := Function.update
             (swapRemoveFromArchetype s1 e fromKey i).entityToArchetype e (some toKey)
           entityToIndex := Function.update
             (swapRemoveFromArchetype s1 e fromKey i).entityToIndex e
             (some toA.entities.length) }) := by
    unfold moveEntity
    rw [hidx, hfrom, hto]
  have ha1from : s1.archetypes fromKey = some fromA := by
    rw [hs1]
    dsimp only
    rw [Function.update_noteq hne]
    exact hfrom
  have ha1to : s1.archetypes toKey = some toA1 := by
    rw [hs1]
    dsimp only
    rw [Function.update_same]
  by_cases hcase : i = fromA.entities.length - 1
  · rw [swapRemove_eq_pop_last s1 e fromKey i ha1from hcase] at hmove
    obtain ⟨⟨fromA2, hf2, hf2sig, hf2ents, hf2cols⟩, hother, hea, hei, hrec,
      hc1, hc2, hc3, hc4, hc5, hc6⟩ := swapRemovePop_spec s1 fromKey fromA hnd
    have hpopto : (swapRemovePop s1 fromKey fromA).archetypes toKey = some toA1 := by
      rw [hother toKey hton]
      exact ha1to
    rw [hpopto] at hmove
    refine ⟨⟨{ toA1 with entities := toA1.entities ++ [e] }, ?_, rfl, rfl, ?_⟩,
      ⟨fromA2, ?_, hf2sig, ?_, ?_⟩, ?_, ?_, ?_, ?_, ?_, ?_, ?_, ?_, ?_, ?_⟩
    · rw [hmove]
      dsimp only
      rw [Function.update_same]
    · intro id
      rw [htoA1]
      dsimp only
      cases toA.componentArrays id with
      | none => rfl
      | some tgt =>
        show (if id ∈ fromA.signature then
            some (tgt ++ [((fromA.componentArrays id).getD []).getD i default])
          else some tgt) = _
        rw [Option.map_some']
        split <;> rfl
    · rw [hmove]
      dsimp only
      rw [Function.update_noteq hne]
      exact hf2
    · rw [hf2ents, if_pos hcase]
    · intro id
      rw [hf2cols id]
      simp only [if_pos hcase]
    · intro key' hk1 hk2
      rw [hmove]
      dsimp only
      rw [Function.update_noteq hk2, hother key' hk1, hs1]
      dsimp only
      rw [Function.update_noteq hk2]
    · rw [hmove]
      dsimp only
      rw [hea, hs1]
    · rw [hmove]
      dsimp only
      rw [hei, hs1, if_pos hcase]
    · intro id
      rw [hmove]
      dsimp only
      rw [hrec id, hs1]
    · rw [hmove]; dsimp only; rw [hc1, hs1]
    · rw [hmove]; dsimp only; rw [hc2, hs1]
    · rw [hmove]; dsimp only; rw [hc3, hs1]
    · rw [hmove]; dsimp only; rw [hc4, hs1]
    · rw [hmove]; dsimp only; rw [hc5, hs1]
    · rw [hmove]; dsimp only; rw [hc6, hs1]
  · have hilt : i < fromA.entities.length - 1 := by omega
    set swA : ArchetypeData V :=
      { fromA with
        entities := fromA.entities.set i
          (fromA.entities.getD (fromA.entities.length - 1) default)
        componentArrays := fun id => (fromA.componentArrays id).map
          (fun col => col.set i (col.getD (fromA.entities.length - 1) default)) }
      with hswA
    set s1b : CMState K V :=
      { s1 with entityToIndex := (Function.update s1.entityToIndex (fromA.entities.getD (fromA.entities.length - 1) default) (some i)) }
      with hs1b
    have heq : swapRemoveFromArchetype s1 e fromKey i = swapRemovePop s1b fromKey swA := by
      rw [swapRemove_eq_pop_swap s1 e fromKey i ha1from hcase]
    rw [heq] at hmove
    have hndsw : swA.signature.Nodup := hnd
    obtain ⟨⟨fromA2, hf2, hf2sig, hf2ents, hf2cols⟩, hother, hea, hei, hrec,
      hc1, hc2, hc3, hc4, hc5, hc6⟩ := swapRemovePop_spec s1b fromKey swA hndsw
    have hpopto : (swapRemovePop s1b fromKey swA).archetypes toKey = some toA1 := by
      rw [hother toKey hton, hs1b]
      dsimp only
      exact ha1to
    rw [hpopto] at hmove
    refine ⟨⟨{ toA1 with entities := toA1.entities ++ [e] }, ?_, rfl, rfl, ?_⟩,
      ⟨fromA2, ?_, hf2sig, ?_, ?_⟩, ?_, ?_, ?_, ?_, ?_, ?_, ?_, ?_, ?_, ?_⟩
    · rw [hmove]
      dsimp only
      rw [Function.update_same]
    · intro id
      rw [htoA1]
      dsimp only
      cases toA.componentArrays id with
      | none => rfl
      | some tgt =>
        show (if id ∈ fromA.signature then
            some (tgt ++ [((fromA.componentArrays id).getD []).getD i default])
          else some tgt) = _
        rw [Option.map_some']
        split <;> rfl
    · rw [hmove]
      dsimp only
      rw [Function.update_noteq hne]
      exact hf2
    · rw [hf2ents, if_neg hcase, hswA]
    · intro id
      rw [hf2cols id]
      simp only [if_neg hcase]
      rw [Option.map_map]
      rfl
    · intro key' hk1 hk2
      rw [hmove]
      dsimp only
      rw [Function.update_noteq hk2, hother key' hk1, hs1b]
      dsimp only
      rw [Function.update_noteq hk2]
    · rw [hmove]
      dsimp only
      rw [hea, hs1b]
    · rw [hmove]
      dsimp only
      rw [hei, hs1b, if_neg hcase]
    · intro id
      rw [hmove]
      dsimp only
      rw [hrec id, hs1b]
      dsimp only
      by_cases hmem : id ∈ fromA.signature
      · rw [if_pos hmem, if_pos hmem]
        have heq2 : ((fromA.componentArrays id).map
              (fun col => col.set i (col.getD (fromA.entities.length - 1) default))).bind
            List.getLast? = (fromA.componentArrays id).bind List.getLast? := by
          cases hcol : fromA.componentArrays id with
          | none => rfl
          | some col =>
            dsimp only [Option.map_some', Option.some_bind]
            rw [getLast?_set_of_lt]
            rw [hcl id col hcol]
            omega
        rw [heq2]
      · rw [if_neg hmem, if_neg hmem]
    · rw [hmove]; dsimp only; rw [hc1, hs1b]
    · rw [hmove]; dsimp only; rw [hc2, hs1b]
    · rw [hmove]; dsimp only; rw [hc3, hs1b]
    · rw [hmove]; dsimp only; rw [hc4, hs1b]
    · rw [hmove]; dsimp only; rw [hc5, hs1b]
    · rw [hmove]; dsimp only; rw [hc6, hs1b]

lemma getElem?_getD_of_lt {α : Type} [Inhabited α] (l : List α) (j : Nat)
    (h : j < l.length) : l[j]? = some (l.getD j default) := by
  rw [List.getD_eq_getElem?_getD, List.getElem?_eq_getElem h]
  rfl

/-- Entities at distinct rows of one archetype are distinct. -/
lemma WFcore.row_ne {s : CMState K V} (hs : WFcore s) {key : List Nat}
    {a : ArchetypeData V} {i j : Nat} {e f : Nat}
    (ha : s.archetypes key = some a) (hi : a.entities[i]? = some e)
    (hj : a.entities[j]? = some f) (hij : i ≠ j) : e ≠ f := by
  intro hef
  subst hef
  have h1 := (hs.row_loc key a i e ha hi).2
  have h2 := (hs.row_loc key a j e ha hj).2
  rw [h1] at h2
  exact hij (Option.some_injective _ h2)

/-- Entities listed by distinct archetypes are distinct. -/
lemma WFcore.arch_row_ne {s : CMState K V} (hs : WFcore s) {k₁ k₂ : List Nat}
    {a₁ a₂ : ArchetypeData V} {i j : Nat} {e f : Nat}
    (h₁ : s.archetypes k₁ = some a₁) (h₂ : s.archetypes k₂ = some a₂)
    (hi : a₁.entities[i]? = some e) (hj : a₂.entities[j]? = some f)
    (hk : k₁ ≠ k₂) : e ≠ f := by
  intro hef
  subst hef
  have m1 := (hs.row_loc k₁ a₁ i e h₁ hi).1
  have m2 := (hs.row_loc k₂ a₂ j e h₂ hj).1
  rw [m1] at m2
  exact hk (Option.some_injective _ m2)

/-- The location cluster of the invariant (`loc`, `idx_loc`, `row_loc`)
after an entity migration: the conclusions only mention the entity lists and
location maps of the final state, so one lemma serves both `addComponent`
and `removeComponent` migrations, whatever happens to the columns. -/
lemma wf_loc_after_move (s : CMState K V) (hs : WFcore s) (e : Nat)
    (fromKey toKey : List Nat) {fromA toA : ArchetypeData V} {i : Nat}
    (hfrom : s.archetypes fromKey = some fromA)
    (hto : s.archetypes toKey = some toA)
    (hne : fromKey ≠ toKey)
    (hloce : s.entityToArchetype e = some fromKey)
    (hidx : s.entityToIndex e = some i)
    (hrow : fromA.entities[i]? = some e)
    (s' : CMState K V)
    (hTo : ∃ A, s'.archetypes toKey = some A ∧ A.entities = toA.entities ++ [e])
    (hFrom : ∃ F, s'.archetypes fromKey = some F ∧ F.entities =
      (if i = fromA.entities.length - 1 then fromA.entities
        else fromA.entities.set i
          (fromA.entities.getD (fromA.entities.length - 1) default)).dropLast)
    (hOther : ∀ key, key ≠ fromKey → key ≠ toKey →
      s'.archetypes key = s.archetypes key)
    (hE : s'.entityToArchetype = Function.update s.entityToArchetype e (some toKey))
    (hI : s'.entityToIndex = Function.update
      (if i = fromA.entities.length - 1 then s.entityToIndex
        else Function.update s.entityToIndex
          (fromA.entities.getD (fromA.entities.length - 1) default) (some i))
      e (some toA.entities.length)) :
    (∀ f key, s'.entityToArchetype f = some key →
      ∃ a j, s'.archetypes key = some a ∧ s'.entityToIndex f = some j ∧
        a.entities[j]? = some f) ∧
    (∀ f, (s'.entityToIndex f).isSome = true →
      (s'.entityToArchetype f).isSome = true) ∧
    (∀ key a j f, s'.archetypes key = some a → a.entities[j]? = some f →
      s'.entityToArchetype f = some key ∧ s'.entityToIndex f = some j) := by
  obtain ⟨A, hA, hAents⟩ := hTo
  obtain ⟨F, hF, hFents⟩ := hFrom
  have hi' : i < fromA.entities.length := (List.getElem?_eq_some.mp hrow).1
  have hlastrow : fromA.entities[fromA.entities.length - 1]? =
      some (fromA.entities.getD (fromA.entities.length - 1) default) :=
    getElem?_getD_of_lt _ _ (by omega)
  -- row lookup in the compacted source archetype
  have hFrow : ∀ (j : Nat), F.entities[j]? =
      if j < fromA.entities.length - 1 then
        (if i = fromA.entities.length - 1 then fromA.entities[j]?
          else if j = i then
            some (fromA.entities.getD (fromA.entities.length - 1) default)
          else fromA.entities[j]?)
      else none := by
    intro j
    rw [hFents]
    by_cases hcase : i = fromA.entities.length - 1
    · rw [if_pos hcase, getElem?_dropLast]
      by_cases hj : j < fromA.entities.length - 1
      · rw [if_pos hj, if_pos hj, if_pos hcase]
      · rw [if_neg hj, if_neg hj]
    · rw [if_neg hcase, getElem?_dropLast]
      simp only [List.length_set]
      by_cases hj : j < fromA.entities.length - 1
      · rw [if_pos hj, if_pos hj, if_neg hcase, List.getElem?_set]
        by_cases hji : i = j
        · rw [if_pos hji, if_pos (by omega), if_pos hji.symm]
        · rw [if_neg hji, if_neg (fun h => hji h.symm)]
      · rw [if_neg hj, if_neg hj]
  have hneq_to : toKey ≠ fromKey := fun h => hne h.symm
  -- e is not one of the target's current members
  have he_to : ∀ (j f : Nat), toA.entities[j]? = some f → f ≠ e := by
    intro j f hj hef
    subst hef
    exact hs.arch_row_ne hto hfrom hj hrow hneq_to rfl
  -- in the swap case, the moved last entity differs from e
  have he_last : i ≠ fromA.entities.length - 1 →
      fromA.entities.getD (fromA.entities.length - 1) default ≠ e := by
    intro hcase hef
    exact (hs.row_ne hfrom (hef ▸ hlastrow) hrow (fun h => hcase h.symm)) rfl
  refine ⟨?_, ?_, ?_⟩
  · -- loc
    intro f key h'
    rw [hE] at h'
    by_cases hfe : f = e
    · subst hfe
      rw [Function.update_same] at h'
      cases h'
      refine ⟨A, toA.entities.length, hA, ?_, ?_⟩
      · rw [hI, Function.update_same]
      · rw [hAents, List.getElem?_concat_length]
    · rw [Function.update_noteq hfe] at h'
      obtain ⟨a, j, ha, hj, hrowj⟩ := hs.loc f key h'
      by_cases hkf : key = fromKey
      · subst hkf
        rw [hfrom] at ha
        injection ha with ha
        subst ha
        have hij : j ≠ i := by
          intro h
          subst h
          rw [hrowj] at hrow
          exact hfe (Option.some_injective _ hrow)
        have hjn : j < fromA.entities.length := (List.getElem?_eq_some.mp hrowj).1
        by_cases hcase : i = fromA.entities.length - 1
        · refine ⟨F, j, hF, ?_, ?_⟩
          · rw [hI, Function.update_noteq hfe, if_pos hcase]
            exact hj
          · rw [hFrow j, if_pos (by omega), if_pos hcase]
            exact hrowj
        · by_cases hflast : f = fromA.entities.getD (fromA.entities.length - 1) default
          · refine ⟨F, i, hF, ?_, ?_⟩
            · rw [hI, Function.update_noteq hfe, if_neg hcase, ← hflast,
                Function.update_same]
            · rw [hFrow i, if_pos (by omega), if_neg hcase, if_pos rfl, hflast]
          · have hjlast : j ≠ fromA.entities.length - 1 := by
              intro h
              subst h
              rw [hrowj] at hlastrow
              exact hflast (Option.some_injective _ hlastrow)
            refine ⟨F, j, hF, ?_, ?_⟩
            · rw [hI, Function.update_noteq hfe, if_neg hcase,
                Function.update_noteq hflast]
              exact hj
            · rw [hFrow j, if_pos (by omega), if_neg hcase, if_neg hij]
              exact hrowj
      · by_cases hkt : key = toKey
        · subst hkt
          rw [hto] at ha
          injection ha with ha
          subst ha
          have hflast : i ≠ fromA.entities.length - 1 →
              f ≠ fromA.entities.getD (fromA.entities.length - 1) default := by
            intro hcase hef
            exact hs.arch_row_ne hto hfrom hrowj (hef ▸ hlastrow) hneq_to rfl
          refine ⟨A, j, hA, ?_, ?_⟩
          · rw [hI, Function.update_noteq hfe]
            by_cases hcase : i = fromA.entities.length - 1
            · rw [if_pos hcase]
              exact hj
            · rw [if_neg hcase, Function.update_noteq (hflast hcase)]
              exact hj
          · rw [hAents, getElem?_append_left']
            · exact hrowj
            · exact (List.getElem?_eq_some.mp hrowj).1
        · have hflast : i ≠ fromA.entities.length - 1 →
              f ≠ fromA.entities.getD (fromA.entities.length - 1) default := by
            intro hcase hef
            exact hs.arch_row_ne ha hfrom hrowj (hef ▸ hlastrow) hkf rfl
          refine ⟨a, j, ?_, ?_, hrowj⟩
          · rw [hOther key hkf hkt]
            exact ha
          · rw [hI, Function.update_noteq hfe]
            by_cases hcase : i = fromA.entities.length - 1
            · rw [if_pos hcase]
              exact hj
            · rw [if_neg hcase, Function.update_noteq (hflast hcase)]
              exact hj
  · -- idx_loc
    intro f hf
    rw [hE]
    by_cases hfe : f = e
    · subst hfe
      rw [Function.update_same]
      rfl
    · rw [Function.update_noteq hfe]
      rw [hI, Function.update_noteq hfe] at hf
      by_cases hcase : i = fromA.entities.length - 1
      · rw [if_pos hcase] at hf
        exact hs.idx_loc f hf
      · rw [if_neg hcase] at hf
        by_cases hflast : f = fromA.entities.getD (fromA.entities.length - 1) default
        · rw [hflast, (hs.row_loc fromKey fromA _ _ hfrom hlastrow).1]
          rfl
        · rw [Function.update_noteq hflast] at hf
          exact hs.idx_loc f hf
  · -- row_loc
    intro key a j f hka hrowj
    by_cases hkt : key = toKey
    · subst hkt
      rw [hA] at hka
      injection hka with hka
      subst hka
      rw [hAents] at hrowj
      by_cases hj : j < toA.entities.length
      · rw [getElem?_append_left' _ _ _ hj] at hrowj
        have hfe : f ≠ e := he_to j f hrowj
        have hold := hs.row_loc key toA j f hto hrowj
        constructor
        · rw [hE, Function.update_noteq hfe]
          exact hold.1
        · rw [hI, Function.update_noteq hfe]
          by_cases hcase : i = fromA.entities.length - 1
          · rw [if_pos hcase]
            exact hold.2
          · rw [if_neg hcase, Function.update_noteq]
            · exact hold.2
            · intro hef
              exact hs.arch_row_ne hto hfrom hrowj (hef ▸ hlastrow) hneq_to rfl
      · have hj' : j = toA.entities.length := by
          have := (List.getElem?_eq_some.mp hrowj).1
          simp at this
          omega
        subst hj'
        rw [List.getElem?_concat_length] at hrowj
        injection hrowj with hrowj
        subst hrowj
        constructor
        · rw [hE, Function.update_same]
        · rw [hI, Function.update_same]
    · by_cases hkf : key = fromKey
      · subst hkf
        rw [hF] at hka
        injection hka with hka
        subst hka
        rw [hFrow j] at hrowj
        by_cases hj : j < fromA.entities.length - 1
        · rw [if_pos hj] at hrowj
          by_cases hcase : i = fromA.entities.length - 1
          · rw [if_pos hcase] at hrowj
            have hfe : f ≠ e := hs.row_ne hfrom hrowj hrow (by omega)
            have hold := hs.row_loc key fromA j f hfrom hrowj
            exact ⟨by rw [hE, Function.update_noteq hfe]; exact hold.1,
              by rw [hI, Function.update_noteq hfe, if_pos hcase]; exact hold.2⟩
          · rw [if_neg hcase] at hrowj
            by_cases hji : j = i
            · subst hji
              rw [if_pos rfl] at hrowj
              injection hrowj with hrowj
              subst hrowj
              have hfe := he_last hcase
              constructor
              · rw [hE, Function.update_noteq hfe,
                  (hs.row_loc key fromA _ _ hfrom hlastrow).1]
              · rw [hI, Function.update_noteq hfe, if_neg hcase, Function.update_same]
            · rw [if_neg hji] at hrowj
              have hfe : f ≠ e := hs.row_ne hfrom hrowj hrow hji
              have hflast : f ≠ fromA.entities.getD (fromA.entities.length - 1) default :=
                hs.row_ne hfrom hrowj hlastrow (by omega)
              have hold := hs.row_loc key fromA j f hfrom hrowj
              exact ⟨by rw [hE, Function.update_noteq hfe]; exact hold.1,
                by rw [hI, Function.update_noteq hfe, if_neg hcase,
                  Function.update_noteq hflast]; exact hold.2⟩
        · rw [if_neg hj] at hrowj
          cases hrowj
      · rw [hOther key hkf hkt] at hka
        have hold := hs.row_loc key a j f hka hrowj
        have hfe : f ≠ e := by
          intro hef
          subst hef
          rw [hold.1] at hloce
          exact hkf (Option.some_injective _ hloce)
        have hflast : i ≠ fromA.entities.length - 1 →
            f ≠ fromA.entities.getD (fromA.entities.length - 1) default := by
          intro hcase hef
          exact hs.arch_row_ne hka hfrom hrowj (hef ▸ hlastrow) hkf rfl
        constructor
        · rw [hE, Function.update_noteq hfe]
          exact hold.1
        · rw [hI, Function.update_noteq hfe]
          by_cases hcase : i = fromA.entities.length - 1
          · rw [if_pos hcase]
            exact hold.2
          · rw [if_neg hcase, Function.update_noteq (hflast hcase)]
            exact hold.2

lemma mem_sortIds {id : Nat} {l : List Nat} : id ∈ sortIds l ↔ id ∈ l :=
  (sortIds_perm l).mem_iff

lemma poolAfter_isSome (o : Option (List V)) (v : V) :
    (poolAfter o v).isSome = o.isSome := by
  cases o with
  | none => rfl
  | some r =>
    show (if r.length < 1000 then some (r ++ [v]) else some r).isSome = true
    split <;> rfl

lemma addComponent_migrate_heq (s : CMState K V) (e : Nat) (k : K) (v : V)
    {curKey : List Nat} {cur : ArchetypeData V} {toA2 : ArchetypeData V}
    (hcur0 : (getComponentId s k).1.entityToArchetype e = some curKey)
    (hcura0 : (getComponentId s k).1.archetypes curKey = some cur)
    (hlacks : cur.componentArrays (getComponentId s k).2 = none)
    (hTo2 : (moveEntity (getOrCreateArchetype (getComponentId s k).1
        (sortIds (cur.signature ++ [(getComponentId s k).2]))).1 e curKey
        (sortIds (cur.signature ++ [(getComponentId s k).2]))).archetypes
        (sortIds (cur.signature ++ [(getComponentId s k).2])) = some toA2) :
    addComponent s e k v =
      scheduleQueryCacheInvalidation
        { moveEntity (getOrCreateArchetype (getComponentId s k).1
            (sortIds (cur.signature ++ [(getComponentId s k).2]))).1 e curKey
            (sortIds (cur.signature ++ [(getComponentId s k).2])) with
          archetypes := Function.update
            (moveEntity (getOrCreateArchetype (getComponentId s k).1
              (sortIds (cur.signature ++ [(getComponentId s k).2]))).1 e curKey
              (sortIds (cur.signature ++ [(getComponentId s k).2]))).archetypes
            (sortIds (cur.signature ++ [(getComponentId s k).2]))
            (some { toA2 with componentArrays := fun id =>
              if id = (getComponentId s k).2 then
                ((toA2.componentArrays id).map (fun col => arrSet col (toA2.entities.length - 1) v))
              else toA2.componentArrays id }) } := by
  simp only [addComponent]
  rw [hcur0]
  dsimp only
  rw [hcura0]
  dsimp only
  rw [hlacks]
  simp only [Option.isSome_none, Bool.false_eq_true, if_false]
  have hq2 : (getOrCreateArchetype (getComponentId s k).1
      (sortIds (cur.signature ++ [(getComponentId s k).2]))).2 =
      sortIds (cur.signature ++ [(getComponentId s k).2]) :=
    (getOrCreateArchetype_fields _ _).2.2.2.2.2.2
  rw [hq2, hTo2]

/-- Preservation and characterization of `addComponent` in the migration
case: the entity has an archetype that lacks the (registered) type. -/
lemma addComponent_migrate_spec (s : CMState K V) (e : Nat) (k : K) (v : V)
    (hs : WFcore s) {curKey : List Nat} {cur : ArchetypeData V} {i : Nat}
    (hcur : s.entityToArchetype e = some curKey)
    (hcura : s.archetypes curKey = some cur)
    (hidx : s.entityToIndex e = some i)
    (hrow : cur.entities[i]? = some e)
    (hlacks : cur.componentArrays (getComponentId s k).2 = none) :
    WFcore (addComponent s e k v) ∧
    CacheInv (addComponent s e k v) ∧
    (addComponent s e k v).entityToArchetype e =
      some (sortIds (curKey ++ [(getComponentId s k).2])) ∧
    (∃ A ni, (addComponent s e k v).archetypes
        (sortIds (curKey ++ [(getComponentId s k).2])) = some A ∧
      A.signature = sortIds (curKey ++ [(getComponentId s k).2]) ∧
      (addComponent s e k v).entityToIndex e = some ni ∧
      A.entities[ni]? = some e ∧
      (∃ col, A.componentArrays (getComponentId s k).2 = some col ∧
        col[ni]? = some v) ∧
      (∀ id col0, id ∈ curKey → cur.componentArrays id = some col0 →
        ∃ col, A.componentArrays id = some col ∧ col[ni]? = col0[i]?)) ∧
    (∃ F, (addComponent s e k v).archetypes curKey = some F ∧
      F.signature = curKey ∧
      F.entities = (if i = cur.entities.length - 1 then cur.entities
        else cur.entities.set i
          (cur.entities.getD (cur.entities.length - 1) default)).dropLast ∧
      ∀ id, F.componentArrays id = (cur.componentArrays id).map
        (fun col => (if i = cur.entities.length - 1 then col
          else col.set i (col.getD (cur.entities.length - 1) default)).dropLast)) ∧
    (∀ key, key ≠ curKey → key ≠ sortIds (curKey ++ [(getComponentId s k).2]) →
      (addComponent s e k v).archetypes key =
        (getOrCreateArchetype (getComponentId s k).1
          (sortIds (curKey ++ [(getComponentId s k).2]))).1.archetypes key) ∧
    (addComponent s e k v).componentClassToId =
      (getComponentId s k).1.componentClassToId ∧
    (∀ id col0 r, id ∈ curKey → cur.componentArrays id = some col0 →
      s.recycledComponents id = some r →
      (addComponent s e k v).recycledComponents id =
        some (if r.length < 1000 then
          r ++ [col0.getD (cur.entities.length - 1) default] else r)) ∧
    (s.batchInvalidation = false →
      ∀ key c, (addComponent s e k v).queryCache key = some c →
        c.needsUpdate = true) ∧
    (s.batchInvalidation = true →
      (addComponent s e k v).pendingCacheInvalidation = true) ∧
    (addComponent s e k v).batchInvalidation = s.batchInvalidation := by
  obtain ⟨g1, g2, g3, g4, g5, g6⟩ := getComponentId_unchanged s k
  have hs0 : WFcore (getComponentId s k).1 := wfcore_getComponentId s k hs
  have hcur0 : (getComponentId s k).1.entityToArchetype e = some curKey := by
    rw [g2]; exact hcur
  have hcura0 : (getComponentId s k).1.archetypes curKey = some cur := by
    rw [g1]; exact hcura
  have hidx0 : (getComponentId s k).1.entityToIndex e = some i := by
    rw [g3]; exact hidx
  have hcid : (getComponentId s k).2 < (getComponentId s k).1.componentIdCounter :=
    getComponentId_id_lt s k hs
  have hsig : cur.signature = curKey := hs.arch_sig _ _ hcura
  have hnotmem : (getComponentId s k).2 ∉ curKey := by
    intro hm
    have hdom := (hs0.cols_dom curKey cur (getComponentId s k).2 hcura0).mpr hm
    rw [hlacks] at hdom
    exact absurd hdom (by simp)
  have hnsig : sortIds (curKey ++ [(getComponentId s k).2]) =
      sortIds (cur.signature ++ [(getComponentId s k).2]) := by rw [hsig]
  rw [hnsig]
  have hmemn : ∀ id, id ∈ sortIds (cur.signature ++ [(getComponentId s k).2]) ↔
      id ∈ curKey ∨ id = (getComponentId s k).2 := by
    intro id
    rw [mem_sortIds, List.mem_append, List.mem_singleton, hsig]
  have hsorted : (sortIds (cur.signature ++ [(getComponentId s k).2])).Pairwise (· < ·) := by
    apply sortIds_pairwise_lt
    rw [hsig]
    refine List.Nodup.append ?_ (by simp) ?_
    · exact nodup_of_pairwise_lt (hs.arch_sorted curKey cur hcura)
    · intro x hx hx2
      rw [List.mem_singleton] at hx2
      subst hx2
      exact hnotmem hx
  have hlt : ∀ id ∈ sortIds (cur.signature ++ [(getComponentId s k).2]),
      id < (getComponentId s k).1.componentIdCounter := by
    intro id hid
    rcases (hmemn id).mp hid with hm | hm
    · have h1 := hs.arch_ids_lt curKey cur hcura id hm
      have h2 := getComponentId_counter_le s k
      omega
    · subst hm
      exact hcid
  obtain ⟨hs2, ⟨toA, htoA, htoAsig, _⟩, hqother⟩ :=
    getOrCreateArchetype_spec (getComponentId s k).1
      (sortIds (cur.signature ++ [(getComponentId s k).2])) hs0 hsorted hlt
  obtain ⟨q1, q2, q3, q4, q5, q6, q7⟩ :=
    getOrCreateArchetype_fields (getComponentId s k).1
      (sortIds (cur.signature ++ [(getComponentId s k).2]))
  have hkeyne : curKey ≠ sortIds (cur.signature ++ [(getComponentId s k).2]) := by
    intro h
    exact hnotmem (h ▸ ((hmemn _).mpr (Or.inr rfl)))
  have hcur2 : (getOrCreateArchetype (getComponentId s k).1
      (sortIds (cur.signature ++ [(getComponentId s k).2]))).1.entityToArchetype e =
      some curKey := by rw [q3]; exact hcur0
  have hidx2 : (getOrCreateArchetype (getComponentId s k).1
      (sortIds (cur.signature ++ [(getComponentId s k).2]))).1.entityToIndex e =
      some i := by rw [q4]; exact hidx0
  have hcura2 : (getOrCreateArchetype (getComponentId s k).1
      (sortIds (cur.signature ++ [(getComponentId s k).2]))).1.archetypes curKey =
      some cur := by rw [hqother curKey hkeyne]; exact hcura0
  have hi : i < cur.entities.length := (List.getElem?_eq_some.mp hrow).1
  have hnd : cur.signature.Nodup := by
    rw [hsig]
    exact nodup_of_pairwise_lt (hs.arch_sorted curKey cur hcura)
  have hcl : ∀ id col, cur.componentArrays id = some col →
      col.length = cur.entities.length :=
    fun id col hc => hs2.cols_len curKey cur id col hcura2 hc
  obtain ⟨⟨toA2, hTo2, hTo2sig, hTo2ents, hTo2cols⟩,
    ⟨fromA2, hF2, hF2sig, hF2ents, hF2cols⟩, hMothers, hME, hMI, hMrec,
    hm1, hm2, hm3, hm4, hm5, hm6⟩ :=
    moveEntity_spec (getOrCreateArchetype (getComponentId s k).1
        (sortIds (cur.signature ++ [(getComponentId s k).2]))).1 e curKey
      (sortIds (cur.signature ++ [(getComponentId s k).2]))
      hidx2 hcura2 htoA hkeyne hi hnd hcl
  have heq := addComponent_migrate_heq s e k v hcur0 hcura0 hlacks hTo2
  rw [heq]
  set nsig := sortIds (cur.signature ++ [(getComponentId s k).2]) with hnsigdef
  set S2 := (getOrCreateArchetype (getComponentId s k).1 nsig).1 with hS2def
  set M := moveEntity S2 e curKey nsig with hMdef
  set newA1 : ArchetypeData V := { toA2 with componentArrays := fun id =>
    (if id = (getComponentId s k).2 then
      ((toA2.componentArrays id).map (fun col => arrSet col (toA2.entities.length - 1) v))
    else toA2.componentArrays id) } with hnewA1
  set s4 : CMState K V := { M with
    archetypes := Function.update M.archetypes nsig (some newA1) } with hs4def
  -- handy equalities about s4
  have e1 : s4.componentIdCounter = S2.componentIdCounter := hm1
  have e2 : s4.componentClassToId = S2.componentClassToId := hm2
  have e3 : s4.queryCache = S2.queryCache := hm3
  have e4 : s4.archetypesByComponentId = S2.archetypesByComponentId := hm4
  have e5 : s4.batchInvalidation = S2.batchInvalidation := hm5
  have e6 : s4.pendingCacheInvalidation = S2.pendingCacheInvalidation := hm6
  have e7 : ∀ id, s4.recycledComponents id =
      if id ∈ cur.signature then
        match (cur.componentArrays id).bind List.getLast? with
        | some w => poolAfter (S2.recycledComponents id) w
        | none => S2.recycledComponents id
      else S2.recycledComponents id := hMrec
  have harch4 : ∀ key, s4.archetypes key = Function.update M.archetypes nsig (some newA1) key :=
    fun _ => rfl
  have h4nsig : s4.archetypes nsig = some newA1 := by
    rw [harch4, Function.update_same]
  have h4cur : s4.archetypes curKey = some fromA2 := by
    rw [harch4, Function.update_noteq hkeyne]
    exact hF2
  have h4other : ∀ key, key ≠ curKey → key ≠ nsig → s4.archetypes key = S2.archetypes key := by
    intro key hk1 hk2
    rw [harch4, Function.update_noteq hk2]
    exact hMothers key hk1 hk2
  have hE4 : s4.entityToArchetype = Function.update S2.entityToArchetype e (some nsig) := hME
  have hI4 : s4.entityToIndex = Function.update
      (if i = cur.entities.length - 1 then S2.entityToIndex
        else Function.update S2.entityToIndex
          (cur.entities.getD (cur.entities.length - 1) default) (some i))
      e (some toA.entities.length) := hMI
  have hnewA1ents : newA1.entities = toA.entities ++ [e] := by
    rw [hnewA1]
    exact hTo2ents
  have hnewA1sig : newA1.signature = nsig := by
    rw [hnewA1]
    show toA2.signature = nsig
    rw [hTo2sig, htoAsig]
  have hcidnsig : (getComponentId s k).2 ∈ nsig := (hmemn _).mpr (Or.inr rfl)
  -- column presence and lengths in the target
  have htoAlen : ∀ id col, toA.componentArrays id = some col →
      col.length = toA.entities.length :=
    fun id col hc => hs2.cols_len nsig toA id col htoA hc
  have hnewA1cols : ∀ id, newA1.componentArrays id =
      if id = (getComponentId s k).2 then
        ((toA2.componentArrays id).map (fun col => arrSet col (toA2.entities.length - 1) v))
      else toA2.componentArrays id := fun _ => rfl
  have htoA2len : toA2.entities.length = toA.entities.length + 1 := by
    rw [hTo2ents]
    simp
  -- the fixed-up cid column
  have hcidcol : ∃ tgt, toA.componentArrays (getComponentId s k).2 = some tgt ∧
      toA2.componentArrays (getComponentId s k).2 = some tgt ∧
      tgt.length = toA.entities.length := by
    have hdom := (hs2.cols_dom nsig toA (getComponentId s k).2 htoA).mpr hcidnsig
    obtain ⟨tgt, htgt⟩ := Option.isSome_iff_exists.mp hdom
    refine ⟨tgt, htgt, ?_, htoAlen _ _ htgt⟩
    rw [hTo2cols, htgt, Option.map_some', if_neg]
    rw [hsig]
    exact hnotmem
  -- sibling columns in the target after the push
  have hsibcol : ∀ id, id ∈ curKey → ∀ col0, cur.componentArrays id = some col0 →
      ∃ tgt, toA.componentArrays id = some tgt ∧
        tgt.length = toA.entities.length ∧
        toA2.componentArrays id = some (tgt ++ [col0.getD i default]) := by
    intro id hidmem col0 hcol0
    have hdom := (hs2.cols_dom nsig toA id htoA).mpr ((hmemn id).mpr (Or.inl hidmem))
    obtain ⟨tgt, htgt⟩ := Option.isSome_iff_exists.mp hdom
    refine ⟨tgt, htgt, htoAlen _ _ htgt, ?_⟩
    rw [hTo2cols, htgt, Option.map_some', if_pos (by rw [hsig]; exact hidmem), hcol0]
    rfl
  -- WFcore of the pre-invalidation state
  obtain ⟨Lloc, Lidx, Lrow⟩ := wf_loc_after_move S2 hs2 e curKey nsig hcura2 htoA
    hkeyne hcur2 hidx2 hrow s4
    ⟨newA1, h4nsig, hnewA1ents⟩
    ⟨fromA2, h4cur, hF2ents⟩
    h4other hE4 hI4
  have hwf4 : WFcore s4 := by
    constructor
    case toId_lt =>
      intro k' id' h'
      rw [e2] at h'
      rw [e1]
      exact hs2.toId_lt k' id' h'
    case toId_inj =>
      intro k1 k2 id' h1 h2
      rw [e2] at h1 h2
      exact hs2.toId_inj k1 k2 id' h1 h2
    case index_dom =>
      intro id'
      rw [e4, e1]
      exact hs2.index_dom id'
    case pool_dom =>
      intro id'
      rw [e7 id', e1]
      split
      · cases hb : (cur.componentArrays id').bind List.getLast? with
        | none => exact hs2.pool_dom id'
        | some w =>
          rw [poolAfter_isSome]
          exact hs2.pool_dom id'
      · exact hs2.pool_dom id'
    case arch_sig =>
      intro key a ha
      by_cases hk2 : key = nsig
      · subst hk2
        rw [h4nsig] at ha
        injection ha with ha
        rw [← ha]
        exact hnewA1sig
      · by_cases hk1 : key = curKey
        · subst hk1
          rw [h4cur] at ha
          injection ha with ha
          rw [← ha, hF2sig, hsig]
        · rw [h4other key hk1 hk2] at ha
          exact hs2.arch_sig key a ha
    case arch_sorted =>
      intro key a ha
      by_cases hk2 : key = nsig
      · subst hk2
        exact hsorted
      · by_cases hk1 : key = curKey
        · subst hk1
          exact hs2.arch_sorted _ cur hcura2
        · rw [h4other key hk1 hk2] at ha
          exact hs2.arch_sorted key a ha
    case arch_ids_lt =>
      intro key a ha id' hid'
      rw [e1]
      by_cases hk2 : key = nsig
      · subst hk2
        rw [q1]
        exact hlt id' hid'
      · by_cases hk1 : key = curKey
        · subst hk1
          exact hs2.arch_ids_lt _ cur hcura2 id' hid'
        · rw [h4other key hk1 hk2] at ha
          exact hs2.arch_ids_lt key a ha id' hid'
    case cols_dom =>
      intro key a id' ha
      by_cases hk2 : key = nsig
      · subst hk2
        rw [h4nsig] at ha
        injection ha with ha
        rw [← ha]
        rw [hnewA1cols id']
        by_cases hc : id' = (getComponentId s k).2
        · subst hc
          rw [if_pos rfl, Option.isSome_map']
          rw [hTo2cols, Option.isSome_map']
          rw [hs2.cols_dom nsig toA _ htoA]
        · rw [if_neg hc, hTo2cols, Option.isSome_map']
          rw [hs2.cols_dom nsig toA id' htoA]
      · by_cases hk1 : key = curKey
        · subst hk1
          rw [h4cur] at ha
          injection ha with ha
          rw [← ha, hF2cols id', Option.isSome_map']
          exact hs2.cols_dom _ cur id' hcura2
        · rw [h4other key hk1 hk2] at ha
          exact hs2.cols_dom key a id' ha
    case cols_len =>
      intro key a id' col ha hcol
      by_cases hk2 : key = nsig
      · subst hk2
        rw [h4nsig] at ha
        injection ha with ha
        rw [← ha] at hcol ⊢
        rw [hnewA1cols id'] at hcol
        rw [hnewA1ents]
        by_cases hc : id' = (getComponentId s k).2
        · rw [if_pos hc] at hcol
          obtain ⟨tgt, h1, h2, h3⟩ := hcidcol
          rw [hc] at hcol
          rw [h2, Option.map_some'] at hcol
          injection hcol with hcol
          subst hcol
          rw [arrSet_length]
          · rw [if_pos (by omega), h3]
            simp
          · omega
        · rw [if_neg hc, hTo2cols] at hcol
          obtain ⟨tgt, htgt, rfl⟩ := Option.map_eq_some'.mp hcol
          have hlen := htoAlen id' tgt htgt
          by_cases hmem : id' ∈ cur.signature
          · rw [if_pos hmem]
            simp [hlen]
          · -- impossible: a column of the new archetype outside the old
            -- signature can only be the added type's column
            exfalso
            have hdom : (toA.componentArrays id').isSome = true := by
              rw [htgt]; rfl
            have hidn := (hs2.cols_dom nsig toA id' htoA).mp hdom
            rcases (hmemn id').mp hidn with hm | hm
            · exact hmem (by rw [hsig]; exact hm)
            · exact hc hm
      · by_cases hk1 : key = curKey
        · subst hk1
          rw [h4cur] at ha
          injection ha with ha
          rw [← ha] at hcol ⊢
          rw [hF2cols id'] at hcol
          obtain ⟨col0, hcol0, rfl⟩ := Option.map_eq_some'.mp hcol
          have hlen := hcl id' col0 hcol0
          rw [hF2ents]
          split <;> simp [hlen]
        · rw [h4other key hk1 hk2] at ha
          exact hs2.cols_len key a id' col ha hcol
    case loc => exact Lloc
    case idx_loc => exact Lidx
    case row_loc => exact Lrow
    case index_spec =>
      intro id' keys h'
      rw [e4] at h'
      obtain ⟨hspec, hnd'⟩ := hs2.index_spec id' keys h'
      refine ⟨?_, hnd'⟩
      intro key
      rw [hspec key]
      by_cases hk2 : key = nsig
      · subst hk2
        constructor
        · rintro ⟨a, _, hmem⟩
          exact ⟨newA1, h4nsig, hmem⟩
        · rintro ⟨a, _, hmem⟩
          exact ⟨toA, htoA, hmem⟩
      · by_cases hk1 : key = curKey
        · subst hk1
          constructor
          · rintro ⟨a, _, hmem⟩
            exact ⟨fromA2, h4cur, hmem⟩
          · rintro ⟨a, _, hmem⟩
            exact ⟨cur, hcura2, hmem⟩
        · rw [h4other key hk1 hk2]
    case cache_sig =>
      intro key c hc
      rw [e3] at hc
      exact hs2.cache_sig key c hc
    case cache_sorted =>
      intro key c hc
      rw [e3] at hc
      exact hs2.cache_sorted key c hc
    case cache_ne =>
      intro key c hc
      rw [e3] at hc
      exact hs2.cache_ne key c hc
    case cache_ids_lt =>
      intro key c hc
      rw [e3] at hc
      rw [e1]
      exact hs2.cache_ids_lt key c hc
    case pending_batch =>
      rw [e5, e6]
      exact hs2.pending_batch
  -- assemble the conclusions about `scheduleQueryCacheInvalidation s4`
  obtain ⟨f1, f2, f3, f4, f5, f6, f7, f8⟩ := schedule_fields s4
  have hbatch4 : s4.batchInvalidation = s.batchInvalidation := by
    rw [e5, q6, g5]
  refine ⟨wfcore_schedule s4 hwf4, cacheInv_schedule s4, ?_, ?_, ?_, ?_, ?_, ?_, ?_, ?_, ?_⟩
  · rw [f4, hE4, Function.update_same]
  · refine ⟨newA1, toA.entities.length, ?_, ?_, ?_, ?_, ?_, ?_⟩
    · rw [f3]
      exact h4nsig
    · rw [hnewA1sig]
    · rw [f5, hI4, Function.update_same]
    · rw [hnewA1ents, List.getElem?_concat_length]
    · obtain ⟨tgt, h1, h2, h3⟩ := hcidcol
      refine ⟨arrSet tgt (toA2.entities.length - 1) v, ?_, ?_⟩
      · rw [hnewA1cols, if_pos rfl, h2, Option.map_some']
      · rw [arrSet_getElem?]
        · rw [if_pos (by omega)]
        · omega
    · intro id col0 hidmem hcol0
      obtain ⟨tgt, htgt, hlen, htoA2id⟩ := hsibcol id hidmem col0 hcol0
      have hidne : id ≠ (getComponentId s k).2 := fun h => hnotmem (h ▸ hidmem)
      refine ⟨tgt ++ [col0.getD i default], ?_, ?_⟩
      · rw [hnewA1cols, if_neg hidne]
        exact htoA2id
      · rw [← hlen, List.getElem?_concat_length]
        rw [getElem?_getD_of_lt]
        rw [hcl id col0 hcol0]
        exact hi
  · refine ⟨fromA2, ?_, ?_, hF2ents, hF2cols⟩
    · rw [f3]
      exact h4cur
    · rw [hF2sig, hsig]
  · intro key hk1 hk2
    rw [f3]
    exact h4other key hk1 hk2
  · rw [f2, e2, q2]
  · intro id col0 r hidmem hcol0 hr
    have hrec := e7 id
    rw [if_pos (by rw [hsig]; exact hidmem), hcol0] at hrec
    have hlast : col0.getLast? = some (col0.getD (cur.entities.length - 1) default) := by
      rw [List.getLast?_eq_getElem?, hcl id col0 hcol0]
      exact getElem?_getD_of_lt _ _ (by rw [hcl id col0 hcol0]; omega)
    rw [f7, hrec]
    show (match col0.getLast? with
      | some w => poolAfter (S2.recycledComponents id) w
      | none => S2.recycledComponents id) = _
    rw [hlast]
    have hS2r : S2.recycledComponents id = some r := by
      rw [q5]
      exact getComponentId_recycled_mono s k hs hr
    show poolAfter (S2.recycledComponents id) _ = _
    rw [hS2r]
    show (if r.length < 1000 then some (r ++ [_]) else some r) = _
    split <;> rfl
  · intro hb key c hc
    unfold scheduleQueryCacheInvalidation at hc
    rw [if_neg (by rw [hbatch4, hb]; simp)] at hc
    rw [invalidate_queryCache] at hc
    obtain ⟨c0, _, rfl⟩ := Option.map_eq_some'.mp hc
    rfl
  · intro hb
    unfold scheduleQueryCacheInvalidation
    rw [if_pos (by rw [hbatch4]; exact hb)]
  · rw [f8]
    exact hbatch4

lemma addComponent_overwrite_heq (s : CMState K V) (e : Nat) (k : K) (v : V)
    {curKey : List Nat} {cur : ArchetypeData V}
    (hcur0 : (getComponentId s k).1.entityToArchetype e = some curKey)
    (hcura0 : (getComponentId s k).1.archetypes curKey = some cur)
    (hhas : (cur.componentArrays (getComponentId s k).2).isSome = true) :
    addComponent s e k v =
      { (getComponentId s k).1 with
        archetypes := Function.update
          (getComponentId s k).1.archetypes curKey
          (some { cur with componentArrays := fun id =>
            if id = (getComponentId s k).2 then
              ((cur.componentArrays id).map (fun col =>
                arrSet col (((getComponentId s k).1.entityToIndex e).getD 0) v))
            else cur.componentArrays id }) } := by
  simp only [addComponent]
  rw [hcur0]
  dsimp only
  rw [hcura0]
  dsimp only
  rw [if_pos hhas]

/-- Preservation and characterization of `addComponent` in the overwrite
case: the entity's archetype already holds the (registered) type, so the
slot is replaced in place and no invalidation is scheduled. -/
lemma addComponent_overwrite_spec (s : CMState K V) (e : Nat) (k : K) (v : V)
    (hs : WFcore s) {curKey : List Nat} {cur : ArchetypeData V}
    (hcur : s.entityToArchetype e = some curKey)
    (hcura : s.archetypes curKey = some cur)
    (hhas : (cur.componentArrays (getComponentId s k).2).isSome = true) :
    WFcore (addComponent s e k v) ∧
    (CacheInv s → CacheInv (addComponent s e k v)) ∧
    (addComponent s e k v).queryCache = s.queryCache ∧
    (addComponent s e k v).pendingCacheInvalidation = s.pendingCacheInvalidation ∧
    (addComponent s e k v).batchInvalidation = s.batchInvalidation ∧
    (addComponent s e k v).componentClassToId =
      (getComponentId s k).1.componentClassToId ∧
    (addComponent s e k v).entityToArchetype = s.entityToArchetype ∧
    (addComponent s e k v).entityToIndex = s.entityToIndex ∧
    (∀ key, key ≠ curKey → (addComponent s e k v).archetypes key =
      s.archetypes key) ∧
    (∃ A, (addComponent s e k v).archetypes curKey = some A ∧
      A.signature = cur.signature ∧
      A.entities = cur.entities ∧
      (∀ id, id ≠ (getComponentId s k).2 →
        A.componentArrays id = cur.componentArrays id) ∧
      (∀ i, s.entityToIndex e = some i →
        ∃ col col1, cur.componentArrays (getComponentId s k).2 = some col ∧
          A.componentArrays (getComponentId s k).2 = some col1 ∧
          col1[i]? = some v ∧
          (∀ j, j ≠ i → col1[j]? = col[j]?))) := by
  obtain ⟨g1, g2, g3, g4, g5, g6⟩ := getComponentId_unchanged s k
  have hs0 : WFcore (getComponentId s k).1 := wfcore_getComponentId s k hs
  have hcur0 : (getComponentId s k).1.entityToArchetype e = some curKey := by
    rw [g2]; exact hcur
  have hcura0 : (getComponentId s k).1.archetypes curKey = some cur := by
    rw [g1]; exact hcura
  obtain ⟨a', i, ha', hidx', hrow'⟩ := hs.loc e curKey hcur
  have haeq : a' = cur := by
    rw [hcura] at ha'
    exact (Option.some_injective _ ha').symm
  rw [haeq] at hrow'
  have hidx0 : (getComponentId s k).1.entityToIndex e = some i := by
    rw [g3]; exact hidx'
  have hi : i < cur.entities.length := (List.getElem?_eq_some.mp hrow').1
  obtain ⟨col, hcol⟩ := Option.isSome_iff_exists.mp hhas
  have hcollen : col.length = cur.entities.length :=
    hs.cols_len curKey cur _ col hcura hcol
  have hile : i ≤ col.length := by omega
  have heq := addComponent_overwrite_heq s e k v hcur0 hcura0 hhas
  set cid := (getComponentId s k).2 with hcid
  set p1 := (getComponentId s k).1 with hp1
  set cur1 : ArchetypeData V := { cur with componentArrays := fun id =>
    (if id = cid then
      ((cur.componentArrays id).map (fun c =>
        arrSet c ((p1.entityToIndex e).getD 0) v))
    else cur.componentArrays id) } with hcur1
  set s3 : CMState K V := { p1 with
    archetypes := Function.update p1.archetypes curKey (some cur1) } with hs3
  have heq3 : addComponent s e k v = s3 := heq
  rw [heq3]
  have harchcur : s3.archetypes curKey = some cur1 := Function.update_same _ _ _
  have harchoth : ∀ key, key ≠ curKey →
      s3.archetypes key = p1.archetypes key := by
    intro key hk
    exact Function.update_noteq hk _ _
  have hcur1sig : cur1.signature = cur.signature := rfl
  have hcur1ents : cur1.entities = cur.entities := rfl
  have hcur1cols : ∀ id, cur1.componentArrays id =
      (if id = cid then
        ((cur.componentArrays id).map (fun c =>
          arrSet c ((p1.entityToIndex e).getD 0) v))
      else cur.componentArrays id) := fun _ => rfl
  have hgd : (p1.entityToIndex e).getD 0 = i := by
    rw [hidx0]
    rfl
  have hcur1some : ∀ id, (cur1.componentArrays id).isSome =
      (cur.componentArrays id).isSome := by
    intro id
    rw [hcur1cols id]
    by_cases hc : id = cid
    · rw [if_pos hc, Option.isSome_map']
    · rw [if_neg hc]
  have hwf3 : WFcore s3 := by
    constructor
    case toId_lt => exact hs0.toId_lt
    case toId_inj => exact hs0.toId_inj
    case index_dom => exact hs0.index_dom
    case pool_dom => exact hs0.pool_dom
    case arch_sig =>
      intro key a ha
      by_cases hk : key = curKey
      · subst hk
        rw [harchcur] at ha
        injection ha with ha
        rw [← ha, hcur1sig]
        exact hs0.arch_sig key cur hcura0
      · rw [harchoth key hk] at ha
        exact hs0.arch_sig key a ha
    case arch_sorted =>
      intro key a ha
      by_cases hk : key = curKey
      · subst hk
        exact hs0.arch_sorted key cur hcura0
      · rw [harchoth key hk] at ha
        exact hs0.arch_sorted key a ha
    case arch_ids_lt =>
      intro key a ha
      by_cases hk : key = curKey
      · subst hk
        exact hs0.arch_ids_lt key cur hcura0
      · rw [harchoth key hk] at ha
        exact hs0.arch_ids_lt key a ha
    case cols_dom =>
      intro key a id ha
      by_cases hk : key = curKey
      · subst hk
        rw [harchcur] at ha
        injection ha with ha
        rw [← ha, hcur1some id]
        exact hs0.cols_dom key cur id hcura0
      · rw [harchoth key hk] at ha
        exact hs0.cols_dom key a id ha
    case cols_len =>
      intro key a id c ha hc
      by_cases hk : key = curKey
      · subst hk
        rw [harchcur] at ha
        injection ha with ha
        rw [← ha] at hc ⊢
        rw [hcur1cols id] at hc
        rw [hcur1ents]
        by_cases hid : id = cid
        · rw [if_pos hid, hid, hcol, Option.map_some'] at hc
          injection hc with hc
          rw [← hc, hgd, arrSet_length col i v hile]
          rw [if_neg (by omega)]
          exact hcollen
        · rw [if_neg hid] at hc
          exact hs0.cols_len key cur id c hcura0 hc
      · rw [harchoth key hk] at ha
        exact hs0.cols_len key a id c ha hc
    case loc =>
      intro e' key h'
      obtain ⟨a, j, ha, hj, hr⟩ := hs0.loc e' key h'
      by_cases hk : key = curKey
      · subst hk
        refine ⟨cur1, j, harchcur, hj, ?_⟩
        rw [hcur1ents]
        rw [hcura0] at ha
        injection ha with ha
        rw [ha]
        exact hr
      · exact ⟨a, j, by rw [harchoth key hk]; exact ha, hj, hr⟩
    case idx_loc => exact hs0.idx_loc
    case row_loc =>
      intro key a j e' ha hr
      by_cases hk : key = curKey
      · subst hk
        rw [harchcur] at ha
        injection ha with ha
        rw [← ha, hcur1ents] at hr
        exact hs0.row_loc key cur j e' hcura0 hr
      · rw [harchoth key hk] at ha
        exact hs0.row_loc key a j e' ha hr
    case index_spec =>
      intro id keys hkeys
      obtain ⟨hmem, hnd⟩ := hs0.index_spec id keys hkeys
      refine ⟨?_, hnd⟩
      intro key
      rw [hmem key]
      by_cases hk : key = curKey
      · subst hk
        constructor
        · rintro ⟨a, ha, hid⟩
          rw [hcura0] at ha
          injection ha with ha
          exact ⟨cur1, harchcur, hid⟩
        · rintro ⟨a, ha, hid⟩
          exact ⟨cur, hcura0, hid⟩
      · rw [harchoth key hk]
    case cache_sig => exact hs0.cache_sig
    case cache_sorted => exact hs0.cache_sorted
    case cache_ne => exact hs0.cache_ne
    case cache_ids_lt => exact hs0.cache_ids_lt
    case pending_batch => exact hs0.pending_batch
  have hmatch : ∀ qids e', MatchesQuery s3 qids e' ↔ MatchesQuery s qids e' := by
    intro qids e'
    constructor
    · rintro ⟨key, a, ha, hsub, hmem⟩
      by_cases hk : key = curKey
      · subst hk
        rw [harchcur] at ha
        injection ha with ha
        rw [← ha, hcur1ents] at hmem
        exact ⟨_, cur, hcura, hsub, hmem⟩
      · rw [harchoth key hk, g1] at ha
        exact ⟨key, a, ha, hsub, hmem⟩
    · rintro ⟨key, a, ha, hsub, hmem⟩
      by_cases hk : key = curKey
      · subst hk
        rw [hcura] at ha
        injection ha with ha
        refine ⟨_, cur1, harchcur, hsub, ?_⟩
        rw [hcur1ents, ha]
        exact hmem
      · refine ⟨key, a, ?_, hsub, hmem⟩
        rw [harchoth key hk, g1]
        exact ha
  refine ⟨hwf3, ?_, g4, g6, g5, rfl, g2, g3, ?_, ?_⟩
  · intro hci
    rcases hci with hp | hacc
    · exact Or.inl (by rw [show s3.pendingCacheInvalidation =
        s.pendingCacheInvalidation from g6]; exact hp)
    · refine Or.inr ?_
      intro key c hc hclean
      have hc' : s.queryCache key = some c := by
        rw [show s3.queryCache = s.queryCache from g4] at hc
        exact hc
      obtain ⟨hacc1, hacc2⟩ := hacc key c hc' hclean
      refine ⟨?_, hacc2⟩
      intro e'
      rw [hacc1 e', hmatch c.signature e']
  · intro key hk
    rw [harchoth key hk, g1]
  · refine ⟨cur1, harchcur, hcur1sig, hcur1ents, ?_, ?_⟩
    · intro id hid
      rw [hcur1cols id, if_neg hid]
    · intro j hj
      have hji : j = i := by
        rw [hj] at hidx'
        exact Option.some_injective _ hidx'
      rw [hji]
      refine ⟨col, arrSet col i v, hcol, ?_, ?_, ?_⟩
      · rw [hcur1cols cid, if_pos rfl, hcol, Option.map_some', hgd]
      · rw [arrSet_getElem? col i v i hile, if_pos rfl]
      · intro j' hj'
        rw [arrSet_getElem? col i v j' hile, if_neg hj']

lemma addComponent_fresh_heq (s : CMState K V) (e : Nat) (k : K) (v : V)
    {newA : ArchetypeData V}
    (hcur0 : (getComponentId s k).1.entityToArchetype e = none)
    (hnewA : (getOrCreateArchetype (getComponentId s k).1
        [(getComponentId s k).2]).1.archetypes [(getComponentId s k).2] =
        some newA) :
    addComponent s e k v =
      scheduleQueryCacheInvalidation
        { (getOrCreateArchetype (getComponentId s k).1 [(getComponentId s k).2]).1 with
          archetypes := Function.update
            (getOrCreateArchetype (getComponentId s k).1
              [(getComponentId s k).2]).1.archetypes
            [(getComponentId s k).2]
            (some { newA with
              entities := newA.entities ++ [e]
              componentArrays := fun id =>
                (if id = (getComponentId s k).2 then
                  ((newA.componentArrays id).map (fun col => col ++ [v]))
                else newA.componentArrays id) })
          entityToArchetype := Function.update
            (getOrCreateArchetype (getComponentId s k).1
              [(getComponentId s k).2]).1.entityToArchetype
            e (some [(getComponentId s k).2])
          entityToIndex := Function.update
            (getOrCreateArchetype (getComponentId s k).1
              [(getComponentId s k).2]).1.entityToIndex
            e (some newA.entities.length) } := by
  simp only [addComponent]
  rw [hcur0]
  dsimp only
  have hq2 : (getOrCreateArchetype (getComponentId s k).1
      [(getComponentId s k).2]).2 = [(getComponentId s k).2] :=
    (getOrCreateArchetype_fields _ _).2.2.2.2.2.2
  rw [hq2, hnewA]

/-- Preservation and characterization of `addComponent` for an entity with
no archetype: it is seeded into the single-type archetype and invalidation
is scheduled. -/
lemma addComponent_fresh_spec (s : CMState K V) (e : Nat) (k : K) (v : V)
    (hs : WFcore s)
    (hcur : s.entityToArchetype e = none) :
    WFcore (addComponent s e k v) ∧
    CacheInv (addComponent s e k v) ∧
    (addComponent s e k v).entityToArchetype e = some [(getComponentId s k).2] ∧
    (∃ A ni, (addComponent s e k v).archetypes [(getComponentId s k).2] = some A ∧
      A.signature = [(getComponentId s k).2] ∧
      (addComponent s e k v).entityToIndex e = some ni ∧
      A.entities[ni]? = some e ∧
      (∃ col, A.componentArrays (getComponentId s k).2 = some col ∧
        col[ni]? = some v)) ∧
    (addComponent s e k v).componentClassToId =
      (getComponentId s k).1.componentClassToId ∧
    (s.batchInvalidation = false →
      ∀ key c, (addComponent s e k v).queryCache key = some c →
        c.needsUpdate = true) ∧
    (s.batchInvalidation = true →
      (addComponent s e k v).pendingCacheInvalidation = true) ∧
    (addComponent s e k v).batchInvalidation = s.batchInvalidation := by
  obtain ⟨g1, g2, g3, g4, g5, g6⟩ := getComponentId_unchanged s k
  have hs0 : WFcore (getComponentId s k).1 := wfcore_getComponentId s k hs
  have hcur0 : (getComponentId s k).1.entityToArchetype e = none := by
    rw [g2]; exact hcur
  have hcid : (getComponentId s k).2 < (getComponentId s k).1.componentIdCounter :=
    getComponentId_id_lt s k hs
  have hsorted : ([(getComponentId s k).2] : List Nat).Pairwise (· < ·) := by simp
  have hlt : ∀ id ∈ ([(getComponentId s k).2] : List Nat),
      id < (getComponentId s k).1.componentIdCounter := by
    intro id hid
    rw [List.mem_singleton] at hid
    rw [hid]
    exact hcid
  obtain ⟨hs2, ⟨newA, htoA, htoAsig, _⟩, hqother⟩ :=
    getOrCreateArchetype_spec (getComponentId s k).1 [(getComponentId s k).2]
      hs0 hsorted hlt
  obtain ⟨q1, q2, q3, q4, q5, q6, q7⟩ :=
    getOrCreateArchetype_fields (getComponentId s k).1 [(getComponentId s k).2]
  have heq := addComponent_fresh_heq s e k v hcur0 htoA
  set cid := (getComponentId s k).2 with hcidd
  set S2 := (getOrCreateArchetype (getComponentId s k).1 [cid]).1 with hS2
  have hcur2 : S2.entityToArchetype e = none := by
    rw [q3]; exact hcur0
  have hidx2 : S2.entityToIndex e = none := by
    cases h : S2.entityToIndex e with
    | none => rfl
    | some j =>
      have := hs2.idx_loc e (by rw [h]; rfl)
      rw [hcur2] at this
      exact absurd this (by simp)
  have henotin : ∀ key a, S2.archetypes key = some a → e ∉ a.entities := by
    intro key a ha hmem
    obtain ⟨j, hj⟩ := List.get_of_mem hmem
    have hr : a.entities[j.1]? = some e := by
      rw [List.getElem?_eq_getElem j.2, ← List.get_eq_getElem, hj]
    have := (hs2.row_loc key a j.1 e ha hr).1
    rw [hcur2] at this
    exact absurd this (by simp)
  set newA1 : ArchetypeData V := { newA with
    entities := newA.entities ++ [e]
    componentArrays := fun id =>
      (if id = cid then
        ((newA.componentArrays id).map (fun col => col ++ [v]))
      else newA.componentArrays id) } with hnewA1
  set s1 : CMState K V := { S2 with
    archetypes := Function.update S2.archetypes [cid] (some newA1)
    entityToArchetype := Function.update S2.entityToArchetype e (some [cid])
    entityToIndex := Function.update S2.entityToIndex e
      (some newA.entities.length) } with hs1def
  have heq1 : addComponent s e k v = scheduleQueryCacheInvalidation s1 := heq
  rw [heq1]
  have harchcid : s1.archetypes [cid] = some newA1 := Function.update_same _ _ _
  have harchoth : ∀ key, key ≠ [cid] → s1.archetypes key = S2.archetypes key := by
    intro key hk
    exact Function.update_noteq hk _ _
  have hE1 : s1.entityToArchetype e = some [cid] := Function.update_same _ _ _
  have hEoth : ∀ f, f ≠ e → s1.entityToArchetype f = S2.entityToArchetype f := by
    intro f hf
    exact Function.update_noteq hf _ _
  have hI1 : s1.entityToIndex e = some newA.entities.length :=
    Function.update_same _ _ _
  have hIoth : ∀ f, f ≠ e → s1.entityToIndex f = S2.entityToIndex f := by
    intro f hf
    exact Function.update_noteq hf _ _
  have hnewA1sig : newA1.signature = [cid] := htoAsig
  have hnewA1ents : newA1.entities = newA.entities ++ [e] := rfl
  have hnewA1cols : ∀ id, newA1.componentArrays id =
      (if id = cid then
        ((newA.componentArrays id).map (fun col => col ++ [v]))
      else newA.componentArrays id) := fun _ => rfl
  have hwf1 : WFcore s1 := by
    constructor
    case toId_lt => exact hs2.toId_lt
    case toId_inj => exact hs2.toId_inj
    case index_dom => exact hs2.index_dom
    case pool_dom => exact hs2.pool_dom
    case arch_sig =>
      intro key a ha
      by_cases hk : key = [cid]
      · subst hk
        rw [harchcid] at ha
        injection ha with ha
        rw [← ha]
        exact hnewA1sig
      · rw [harchoth key hk] at ha
        exact hs2.arch_sig key a ha
    case arch_sorted =>
      intro key a ha
      by_cases hk : key = [cid]
      · subst hk
        exact hs2.arch_sorted _ newA htoA
      · rw [harchoth key hk] at ha
        exact hs2.arch_sorted key a ha
    case arch_ids_lt =>
      intro key a ha
      by_cases hk : key = [cid]
      · subst hk
        exact hs2.arch_ids_lt _ newA htoA
      · rw [harchoth key hk] at ha
        exact hs2.arch_ids_lt key a ha
    case cols_dom =>
      intro key a id ha
      by_cases hk : key = [cid]
      · subst hk
        rw [harchcid] at ha
        injection ha with ha
        rw [← ha, hnewA1cols id]
        by_cases hc : id = cid
        · rw [if_pos hc, Option.isSome_map']
          exact hs2.cols_dom _ newA id htoA
        · rw [if_neg hc]
          exact hs2.cols_dom _ newA id htoA
      · rw [harchoth key hk] at ha
        exact hs2.cols_dom key a id ha
    case cols_len =>
      intro key a id col ha hcol
      by_cases hk : key = [cid]
      · subst hk
        rw [harchcid] at ha
        injection ha with ha
        rw [← ha] at hcol ⊢
        rw [hnewA1cols id] at hcol
        rw [hnewA1ents]
        by_cases hc : id = cid
        · rw [if_pos hc] at hcol
          obtain ⟨col0, hcol0, rfl⟩ := Option.map_eq_some'.mp hcol
          have hlen := hs2.cols_len _ newA id col0 htoA hcol0
          simp [hlen]
        · rw [if_neg hc] at hcol
          exfalso
          have hdom : (newA.componentArrays id).isSome = true := by
            rw [hcol]; rfl
          have := (hs2.cols_dom _ newA id htoA).mp hdom
          rw [List.mem_singleton] at this
          exact hc this
      · rw [harchoth key hk] at ha
        exact hs2.cols_len key a id col ha hcol
    case loc =>
      intro f key h'
      by_cases hf : f = e
      · subst hf
        rw [hE1] at h'
        injection h' with h'
        rw [← h']
        refine ⟨newA1, newA.entities.length, harchcid, hI1, ?_⟩
        rw [hnewA1ents, List.getElem?_concat_length]
      · rw [hEoth f hf] at h'
        obtain ⟨a, j, ha, hj, hr⟩ := hs2.loc f key h'
        by_cases hk : key = [cid]
        · subst hk
          rw [htoA] at ha
          injection ha with ha
          refine ⟨newA1, j, harchcid, by rw [hIoth f hf]; exact hj, ?_⟩
          rw [hnewA1ents]
          rw [← ha] at hr
          have hjlt : j < newA.entities.length := (List.getElem?_eq_some.mp hr).1
          rw [getElem?_append_left' _ _ _ hjlt]
          exact hr
        · refine ⟨a, j, ?_, by rw [hIoth f hf]; exact hj, hr⟩
          rw [harchoth key hk]
          exact ha
    case idx_loc =>
      intro f h'
      by_cases hf : f = e
      · subst hf
        rw [hE1]
        rfl
      · rw [hIoth f hf] at h'
        rw [hEoth f hf]
        exact hs2.idx_loc f h'
    case row_loc =>
      intro key a j f ha hr
      by_cases hk : key = [cid]
      · subst hk
        rw [harchcid] at ha
        injection ha with ha
        rw [← ha, hnewA1ents] at hr
        by_cases hj : j < newA.entities.length
        · rw [getElem?_append_left' _ _ _ hj] at hr
          obtain ⟨hloc, hidx⟩ := hs2.row_loc _ newA j f htoA hr
          have hf : f ≠ e := by
            intro hfe
            rw [hfe, hcur2] at hloc
            exact absurd hloc (by simp)
          rw [hEoth f hf, hIoth f hf]
          exact ⟨hloc, hidx⟩
        · by_cases hj2 : j = newA.entities.length
          · rw [hj2, List.getElem?_concat_length] at hr
            injection hr with hr
            rw [← hr, hE1, hI1, hj2]
            exact ⟨rfl, rfl⟩
          · exfalso
            have : (newA.entities ++ [e])[j]? = none := by
              rw [List.getElem?_eq_none]
              simp only [List.length_append, List.length_singleton]
              omega
            rw [this] at hr
            exact absurd hr (by simp)
      · rw [harchoth key hk] at ha
        obtain ⟨hloc, hidx⟩ := hs2.row_loc key a j f ha hr
        have hf : f ≠ e := by
          intro hfe
          rw [hfe, hcur2] at hloc
          exact absurd hloc (by simp)
        rw [hEoth f hf, hIoth f hf]
        exact ⟨hloc, hidx⟩
    case index_spec =>
      intro id keys h'
      obtain ⟨hspec, hnd⟩ := hs2.index_spec id keys h'
      refine ⟨?_, hnd⟩
      intro key
      rw [hspec key]
      by_cases hk : key = [cid]
      · subst hk
        constructor
        · rintro ⟨a, _, hmem⟩
          exact ⟨newA1, harchcid, hmem⟩
        · rintro ⟨a, _, hmem⟩
          exact ⟨newA, htoA, hmem⟩
      · rw [harchoth key hk]
    case cache_sig => exact hs2.cache_sig
    case cache_sorted => exact hs2.cache_sorted
    case cache_ne => exact hs2.cache_ne
    case cache_ids_lt => exact hs2.cache_ids_lt
    case pending_batch => exact hs2.pending_batch
  obtain ⟨f1, f2, f3, f4, f5, f6, f7, f8⟩ := schedule_fields s1
  have hbatch1 : s1.batchInvalidation = s.batchInvalidation := by
    show S2.batchInvalidation = s.batchInvalidation
    rw [q6, g5]
  refine ⟨wfcore_schedule s1 hwf1, cacheInv_schedule s1, ?_, ?_, ?_, ?_, ?_, ?_⟩
  · rw [f4]
    exact hE1
  · refine ⟨newA1, newA.entities.length, ?_, hnewA1sig, ?_, ?_, ?_⟩
    · rw [f3]
      exact harchcid
    · rw [f5]
      exact hI1
    · rw [hnewA1ents, List.getElem?_concat_length]
    · have hdom : (newA.componentArrays cid).isSome = true :=
        (hs2.cols_dom _ newA cid htoA).mpr (List.mem_singleton.mpr rfl)
      obtain ⟨col0, hcol0⟩ := Option.isSome_iff_exists.mp hdom
      refine ⟨col0 ++ [v], ?_, ?_⟩
      · rw [hnewA1cols cid, if_pos rfl, hcol0, Option.map_some']
      · have hlen := hs2.cols_len _ newA cid col0 htoA hcol0
        rw [← hlen, List.getElem?_concat_length]
  · rw [f2]
    show S2.componentClassToId = _
    rw [q2]
  · intro hb key c hc
    unfold scheduleQueryCacheInvalidation at hc
    rw [if_neg (by rw [hbatch1, hb]; simp)] at hc
    rw [invalidate_queryCache] at hc
    obtain ⟨c0, _, rfl⟩ := Option.map_eq_some'.mp hc
    rfl
  · intro hb
    unfold scheduleQueryCacheInvalidation
    rw [if_pos (by rw [hbatch1]; exact hb)]
  · rw [f8]
    exact hbatch1

lemma getComponentId_registers (s : CMState K V) (k : K) :
    (getComponentId s k).1.componentClassToId k = some (getComponentId s k).2 := by
  unfold getComponentId
  cases h : s.componentClassToId k with
  | some id => exact h
  | none =>
    dsimp only
    rw [Function.update_same]

lemma isSome_eq_false_iff {α : Type} (o : Option α) :
    o.isSome = false ↔ o = none := by
  cases o <;> simp

/-- `addComponent` preserves the full invariant on any well-formed state. -/
lemma wf_addComponent (s : CMState K V) (e : Nat) (k : K) (v : V) (hs : WF s) :
    WF (addComponent s e k v) := by
  obtain ⟨hc, hci⟩ := hs
  cases hcur : s.entityToArchetype e with
  | none =>
    obtain ⟨h1, h2, _⟩ := addComponent_fresh_spec s e k v hc hcur
    exact ⟨h1, h2⟩
  | some curKey =>
    obtain ⟨cur, i, hcura, hidx, hrow⟩ : ∃ cur i, s.archetypes curKey = some cur ∧
        s.entityToIndex e = some i ∧ cur.entities[i]? = some e := by
      obtain ⟨a, i, ha, hi, hr⟩ := hc.loc e curKey hcur
      exact ⟨a, i, ha, hi, hr⟩
    cases hhas : (cur.componentArrays (getComponentId s k).2).isSome with
    | true =>
      obtain ⟨h1, h2, _⟩ := addComponent_overwrite_spec s e k v hc hcur hcura hhas
      exact ⟨h1, h2 hci⟩
    | false =>
      have hlacks : cur.componentArrays (getComponentId s k).2 = none :=
        (isSome_eq_false_iff _).mp hhas
      obtain ⟨h1, h2, _⟩ :=
        addComponent_migrate_spec s e k v hc hcur hcura hidx hrow hlacks
      exact ⟨h1, h2⟩

/-- The add/get round trip on any well-formed state. -/
lemma addComponent_get (s : CMState K V) (e : Nat) (k : K) (v : V) (hs : WF s) :
    (getComponent (addComponent s e k v) e k).2 = some v := by
  obtain ⟨hc, _⟩ := hs
  cases hcur : s.entityToArchetype e with
  | none =>
    obtain ⟨_, _, hE, ⟨A, ni, hA, hAsig, hI, hrowA, col, hcol, hv⟩, hcls, _⟩ :=
      addComponent_fresh_spec s e k v hc hcur
    have hreg : (addComponent s e k v).componentClassToId k =
        some (getComponentId s k).2 := by
      rw [hcls]
      exact getComponentId_registers s k
    have hgc : getComponentId (addComponent s e k v) k =
        (addComponent s e k v, (getComponentId s k).2) := by
      unfold getComponentId
      rw [hreg]
      rfl
    simp only [getComponent]
    rw [hE]
    dsimp only
    rw [hA]
    dsimp only
    rw [hgc]
    dsimp only
    rw [hcol]
    dsimp only
    rw [hI]
    exact hv
  | some curKey =>
    obtain ⟨cur, i, hcura, hidx, hrow⟩ : ∃ cur i, s.archetypes curKey = some cur ∧
        s.entityToIndex e = some i ∧ cur.entities[i]? = some e := by
      obtain ⟨a, i, ha, hi, hr⟩ := hc.loc e curKey hcur
      exact ⟨a, i, ha, hi, hr⟩
    cases hhas : (cur.componentArrays (getComponentId s k).2).isSome with
    | true =>
      obtain ⟨_, _, _, _, _, hcls, hE, hI, _, A, hA, hAsig, hAents, _, hover⟩ :=
        addComponent_overwrite_spec s e k v hc hcur hcura hhas
      obtain ⟨col, col1, hcol, hcol1, hv, _⟩ := hover i hidx
      have hreg : (addComponent s e k v).componentClassToId k =
          some (getComponentId s k).2 := by
        rw [hcls]
        exact getComponentId_registers s k
      have hgc : getComponentId (addComponent s e k v) k =
          (addComponent s e k v, (getComponentId s k).2) := by
        unfold getComponentId
        rw [hreg]
        rfl
      simp only [getComponent]
      rw [hE, hcur]
      dsimp only
      rw [hA]
      dsimp only
      rw [hgc]
      dsimp only
      rw [hcol1]
      dsimp only
      rw [hI, hidx]
      exact hv
    | false =>
      have hlacks : cur.componentArrays (getComponentId s k).2 = none :=
        (isSome_eq_false_iff _).mp hhas
      obtain ⟨_, _, hE, ⟨A, ni, hA, hAsig, hI, hrowA, ⟨col, hcol, hv⟩, _⟩,
          _, _, hcls, _⟩ :=
        addComponent_migrate_spec s e k v hc hcur hcura hidx hrow hlacks
      have hreg : (addComponent s e k v).componentClassToId k =
          some (getComponentId s k).2 := by
        rw [hcls]
        exact getComponentId_registers s k
      have hgc : getComponentId (addComponent s e k v) k =
          (addComponent s e k v, (getComponentId s k).2) := by
        unfold getComponentId
        rw [hreg]
        rfl
      simp only [getComponent]
      rw [hE]
      dsimp only
      rw [hA]
      dsimp only
      rw [hgc]
      dsimp only
      rw [hcol]
      dsimp only
      rw [hI]
      exact hv

/-- Location bookkeeping after an entity is swap-compacted out of its
archetype and its location cleared. -/
lemma wf_loc_after_remove (s : CMState K V) (hs : WFcore s) (e : Nat)
    (key0 : List Nat) {a0 : ArchetypeData V} {i : Nat}
    (ha0 : s.archetypes key0 = some a0)
    (hloce : s.entityToArchetype e = some key0)
    (hidx : s.entityToIndex e = some i)
    (hrow : a0.entities[i]? = some e)
    (s' : CMState K V)
    (hF : ∃ F, s'.archetypes key0 = some F ∧ F.entities =
      (if i = a0.entities.length - 1 then a0.entities
        else a0.entities.set i
          (a0.entities.getD (a0.entities.length - 1) default)).dropLast)
    (hOther : ∀ key', key' ≠ key0 → s'.archetypes key' = s.archetypes key')
    (hE : s'.entityToArchetype = Function.update s.entityToArchetype e none)
    (hI : s'.entityToIndex = Function.update
      (if i = a0.entities.length - 1 then s.entityToIndex
        else Function.update s.entityToIndex
          (a0.entities.getD (a0.entities.length - 1) default) (some i))
      e none) :
    (∀ f key, s'.entityToArchetype f = some key →
      ∃ a j, s'.archetypes key = some a ∧ s'.entityToIndex f = some j ∧
        a.entities[j]? = some f) ∧
    (∀ f, (s'.entityToIndex f).isSome = true →
      (s'.entityToArchetype f).isSome = true) ∧
    (∀ key a j f, s'.archetypes key = some a → a.entities[j]? = some f →
      s'.entityToArchetype f = some key ∧ s'.entityToIndex f = some j) := by
  obtain ⟨F, hFa, hFents⟩ := hF
  have hi' : i < a0.entities.length := (List.getElem?_eq_some.mp hrow).1
  have hlastrow : a0.entities[a0.entities.length - 1]? =
      some (a0.entities.getD (a0.entities.length - 1) default) :=
    getElem?_getD_of_lt _ _ (by omega)
  have hFrow : ∀ (j : Nat), F.entities[j]? =
      if j < a0.entities.length - 1 then
        (if i = a0.entities.length - 1 then a0.entities[j]?
          else if j = i then
            some (a0.entities.getD (a0.entities.length - 1) default)
          else a0.entities[j]?)
      else none := by
    intro j
    rw [hFents]
    by_cases hcase : i = a0.entities.length - 1
    · rw [if_pos hcase, getElem?_dropLast]
      by_cases hj : j < a0.entities.length - 1
      · rw [if_pos hj, if_pos hj, if_pos hcase]
      · rw [if_neg hj, if_neg hj]
    · rw [if_neg hcase, getElem?_dropLast]
      simp only [List.length_set]
      by_cases hj : j < a0.entities.length - 1
      · rw [if_pos hj, if_pos hj, if_neg hcase, List.getElem?_set]
        by_cases hji : i = j
        · rw [if_pos hji, if_pos (by omega), if_pos hji.symm]
        · rw [if_neg hji, if_neg (fun h => hji h.symm)]
      · rw [if_neg hj, if_neg hj]
  have he_last : i ≠ a0.entities.length - 1 →
      a0.entities.getD (a0.entities.length - 1) default ≠ e := by
    intro hcase hef
    exact (hs.row_ne ha0 (hef ▸ hlastrow) hrow (fun h => hcase h.symm)) rfl
  refine ⟨?_, ?_, ?_⟩
  · -- loc
    intro f key h'
    rw [hE] at h'
    by_cases hfe : f = e
    · subst hfe
      rw [Function.update_same] at h'
      exact absurd h' (by simp)
    · rw [Function.update_noteq hfe] at h'
      obtain ⟨a, j, ha, hj, hrowj⟩ := hs.loc f key h'
      by_cases hk0 : key = key0
      · subst hk0
        rw [ha0] at ha
        injection ha with ha
        subst ha
        have hij : j ≠ i := by
          intro h
          subst h
          rw [hrowj] at hrow
          exact hfe (Option.some_injective _ hrow)
        have hjn : j < a0.entities.length := (List.getElem?_eq_some.mp hrowj).1
        by_cases hcase : i = a0.entities.length - 1
        · refine ⟨F, j, hFa, ?_, ?_⟩
          · rw [hI, Function.update_noteq hfe, if_pos hcase]
            exact hj
          · rw [hFrow j, if_pos (by omega), if_pos hcase]
            exact hrowj
        · by_cases hflast : f = a0.entities.getD (a0.entities.length - 1) default
          · refine ⟨F, i, hFa, ?_, ?_⟩
            · rw [hI, Function.update_noteq hfe, if_neg hcase, ← hflast,
                Function.update_same]
            · rw [hFrow i, if_pos (by omega), if_neg hcase, if_pos rfl, hflast]
          · have hjlast : j ≠ a0.entities.length - 1 := by
              intro h
              subst h
              rw [hrowj] at hlastrow
              exact hflast (Option.some_injective _ hlastrow)
            refine ⟨F, j, hFa, ?_, ?_⟩
            · rw [hI, Function.update_noteq hfe, if_neg hcase,
                Function.update_noteq hflast]
              exact hj
            · rw [hFrow j, if_pos (by omega), if_neg hcase, if_neg hij]
              exact hrowj
      · have hflast : i ≠ a0.entities.length - 1 →
            f ≠ a0.entities.getD (a0.entities.length - 1) default := by
          intro hcase hef
          exact hs.arch_row_ne ha ha0 hrowj (hef ▸ hlastrow) hk0 rfl
        refine ⟨a, j, ?_, ?_, hrowj⟩
        · rw [hOther key hk0]
          exact ha
        · rw [hI, Function.update_noteq hfe]
          by_cases hcase : i = a0.entities.length - 1
          · rw [if_pos hcase]
            exact hj
          · rw [if_neg hcase, Function.update_noteq (hflast hcase)]
            exact hj
  · -- idx_loc
    intro f hf
    rw [hE]
    by_cases hfe : f = e
    · subst hfe
      rw [hI, Function.update_same] at hf
      exact absurd hf (by simp)
    · rw [Function.update_noteq hfe]
      rw [hI, Function.update_noteq hfe] at hf
      by_cases hcase : i = a0.entities.length - 1
      · rw [if_pos hcase] at hf
        exact hs.idx_loc f hf
      · rw [if_neg hcase] at hf
        by_cases hflast : f = a0.entities.getD (a0.entities.length - 1) default
        · rw [hflast, (hs.row_loc key0 a0 _ _ ha0 hlastrow).1]
          rfl
        · rw [Function.update_noteq hflast] at hf
          exact hs.idx_loc f hf
  · -- row_loc
    intro key a j f hka hrowj
    by_cases hk0 : key = key0
    · subst hk0
      rw [hFa] at hka
      injection hka with hka
      subst hka
      rw [hFrow j] at hrowj
      by_cases hj : j < a0.entities.length - 1
      · rw [if_pos hj] at hrowj
        by_cases hcase : i = a0.entities.length - 1
        · rw [if_pos hcase] at hrowj
          have hfe : f ≠ e := hs.row_ne ha0 hrowj hrow (by omega)
          have hold := hs.row_loc key a0 j f ha0 hrowj
          exact ⟨by rw [hE, Function.update_noteq hfe]; exact hold.1,
            by rw [hI, Function.update_noteq hfe, if_pos hcase]; exact hold.2⟩
        · rw [if_neg hcase] at hrowj
          by_cases hji : j = i
          · subst hji
            rw [if_pos rfl] at hrowj
            injection hrowj with hrowj
            subst hrowj
            have hfe := he_last hcase
            constructor
            · rw [hE, Function.update_noteq hfe,
                (hs.row_loc key a0 _ _ ha0 hlastrow).1]
            · rw [hI, Function.update_noteq hfe, if_neg hcase, Function.update_same]
          · rw [if_neg hji] at hrowj
            have hfe : f ≠ e := hs.row_ne ha0 hrowj hrow hji
            have hflast : f ≠ a0.entities.getD (a0.entities.length - 1) default :=
              hs.row_ne ha0 hrowj hlastrow (by omega)
            have hold := hs.row_loc key a0 j f ha0 hrowj
            exact ⟨by rw [hE, Function.update_noteq hfe]; exact hold.1,
              by rw [hI, Function.update_noteq hfe, if_neg hcase,
                Function.update_noteq hflast]; exact hold.2⟩
      · rw [if_neg hj] at hrowj
        cases hrowj
    · rw [hOther key hk0] at hka
      have hold := hs.row_loc key a j f hka hrowj
      have hfe : f ≠ e := by
        intro hef
        subst hef
        rw [hold.1] at hloce
        exact hk0 (Option.some_injective _ hloce)
      have hflast : i ≠ a0.entities.length - 1 →
          f ≠ a0.entities.getD (a0.entities.length - 1) default := by
        intro hcase hef
        exact hs.arch_row_ne hka ha0 hrowj (hef ▸ hlastrow) hk0 rfl
      constructor
      · rw [hE, Function.update_noteq hfe]
        exact hold.1
      · rw [hI, Function.update_noteq hfe]
        by_cases hcase : i = a0.entities.length - 1
        · rw [if_pos hcase]
          exact hold.2
        · rw [if_neg hcase, Function.update_noteq (hflast hcase)]
          exact hold.2

lemma mem_iff_getElem?' {α : Type} {x : α} {l : List α} :
    x ∈ l ↔ ∃ j : Nat, l[j]? = some x := by
  constructor
  · intro h
    obtain ⟨j, hj, hx⟩ := List.getElem_of_mem h
    exact ⟨j, by rw [List.getElem?_eq_getElem hj, hx]⟩
  · rintro ⟨j, hj⟩
    obtain ⟨h1, h2⟩ := List.getElem?_eq_some.mp hj
    exact h2 ▸ List.getElem_mem h1

/-- Row lookup in a swap-compacted list. -/
lemma compact_getElem? {α : Type} [Inhabited α] (l : List α) (i n : Nat)
    (hn : l.length = n) (j : Nat) :
    ((if i = n - 1 then l
      else l.set i (l.getD (n - 1) default)).dropLast)[j]? =
      (if j < n - 1 then
        (if i = n - 1 then l[j]?
          else if j = i then some (l.getD (n - 1) default)
          else l[j]?)
      else none) := by
  subst hn
  by_cases hcase : i = l.length - 1
  · rw [if_pos hcase, getElem?_dropLast]
    by_cases hj : j < l.length - 1
    · rw [if_pos hj, if_pos hj, if_pos hcase]
    · rw [if_neg hj, if_neg hj]
  · rw [if_neg hcase, getElem?_dropLast]
    simp only [List.length_set]
    by_cases hj : j < l.length - 1
    · rw [if_pos hj, if_pos hj, if_neg hcase, List.getElem?_set]
      by_cases hji : i = j
      · rw [if_pos hji, if_pos (by omega), if_pos hji.symm]
      · rw [if_neg hji, if_neg (fun h => hji h.symm)]
    · rw [if_neg hj, if_neg hj]

/-- Combined characterization of `swapRemoveFromArchetype` (swap and
last-row cases). -/
lemma swapRemove_spec (s : CMState K V) (e : Nat) (key : List Nat) (i : Nat)
    {a : ArchetypeData V}
    (ha : s.archetypes key = some a)
    (hnd : a.signature.Nodup) :
    (∃ F, (swapRemoveFromArchetype s e key i).archetypes key = some F ∧
      F.signature = a.signature ∧
      F.entities = (if i = a.entities.length - 1 then a.entities
        else a.entities.set i
          (a.entities.getD (a.entities.length - 1) default)).dropLast ∧
      (∀ id, F.componentArrays id = (a.componentArrays id).map
        (fun col => (if i = a.entities.length - 1 then col
          else col.set i (col.getD (a.entities.length - 1) default)).dropLast))) ∧
    (∀ key', key' ≠ key → (swapRemoveFromArchetype s e key i).archetypes key' =
      s.archetypes key') ∧
    (swapRemoveFromArchetype s e key i).entityToArchetype = s.entityToArchetype ∧
    (swapRemoveFromArchetype s e key i).entityToIndex =
      (if i = a.entities.length - 1 then s.entityToIndex
        else Function.update s.entityToIndex
          (a.entities.getD (a.entities.length - 1) default) (some i)) ∧
    (∀ id, ((swapRemoveFromArchetype s e key i).recycledComponents id).isSome =
      (s.recycledComponents id).isSome) ∧
    (swapRemoveFromArchetype s e key i).componentIdCounter = s.componentIdCounter ∧
    (swapRemoveFromArchetype s e key i).componentClassToId = s.componentClassToId ∧
    (swapRemoveFromArchetype s e key i).queryCache = s.queryCache ∧
    (swapRemoveFromArchetype s e key i).archetypesByComponentId =
      s.archetypesByComponentId ∧
    (swapRemoveFromArchetype s e key i).batchInvalidation = s.batchInvalidation ∧
    (swapRemoveFromArchetype s e key i).pendingCacheInvalidation =
      s.pendingCacheInvalidation := by
  by_cases hcase : i = a.entities.length - 1
  · rw [swapRemove_eq_pop_last s e key i ha hcase]
    obtain ⟨⟨a2, ha2, hsig, hents, hcols⟩, hoth, hE, hI, hrec, hc1, hc2, hqc,
      habc, hb, hp⟩ := swapRemovePop_spec s key a hnd
    refine ⟨⟨a2, ha2, hsig, ?_, ?_⟩, hoth, hE, ?_, ?_, hc1, hc2, hqc, habc,
      hb, hp⟩
    · rw [hents, if_pos hcase]
    · intro id
      rw [hcols id]
      simp only [if_pos hcase]
    · rw [hI, if_pos hcase]
    · intro id
      rw [hrec id]
      split
      · cases hv : (a.componentArrays id).bind List.getLast? with
        | none => rfl
        | some v => rw [poolAfter_isSome]
      · rfl
  · rw [swapRemove_eq_pop_swap s e key i ha hcase]
    obtain ⟨⟨a2, ha2, hsig, hents, hcols⟩, hoth, hE, hI, hrec, hc1, hc2, hqc,
      habc, hb, hp⟩ := swapRemovePop_spec
        { s with entityToIndex := (Function.update s.entityToIndex
            (a.entities.getD (a.entities.length - 1) default) (some i)) }
        key
        { a with
          entities := a.entities.set i
            (a.entities.getD (a.entities.length - 1) default)
          componentArrays := fun id => (a.componentArrays id).map
            (fun col => col.set i (col.getD (a.entities.length - 1) default)) }
        hnd
    refine ⟨⟨a2, ha2, hsig, ?_, ?_⟩, hoth, hE, ?_, ?_, hc1, hc2, hqc, habc,
      hb, hp⟩
    · rw [hents, if_neg hcase]
    · intro id
      rw [hcols id]
      show ((a.componentArrays id).map _).map _ = _
      rw [Option.map_map]
      simp only [if_neg hcase]
      rfl
    · rw [hI, if_neg hcase]
    · intro id
      rw [hrec id]
      split
      · cases hv : (((a.componentArrays id).map
          (fun col => col.set i
            (col.getD (a.entities.length - 1) default))).bind List.getLast?) with
        | none => rfl
        | some v => rw [poolAfter_isSome]
      · rfl

lemma removeAllComponents_heq (s : CMState K V) (e : Nat)
    {key : List Nat} {i : Nat}
    (hcur : s.entityToArchetype e = some key)
    (hidx : s.entityToIndex e = some i) :
    removeAllComponents s e =
      scheduleQueryCacheInvalidation
        { swapRemoveFromArchetype s e key i with
          entityToArchetype := Function.update
            (swapRemoveFromArchetype s e key i).entityToArchetype e none
          entityToIndex := Function.update
            (swapRemoveFromArchetype s e key i).entityToIndex e none } := by
  unfold removeAllComponents
  rw [hcur]
  dsimp only
  rw [hidx]

/-- Preservation and characterization of `removeAllComponents` for a located
entity. -/
lemma removeAllComponents_spec (s : CMState K V) (e : Nat) (hs : WFcore s)
    {key : List Nat} {a : ArchetypeData V} {i : Nat}
    (hcur : s.entityToArchetype e = some key)
    (hcura : s.archetypes key = some a)
    (hidx : s.entityToIndex e = some i)
    (hrow : a.entities[i]? = some e) :
    WFcore (removeAllComponents s e) ∧
    CacheInv (removeAllComponents s e) ∧
    (removeAllComponents s e).entityToArchetype e = none ∧
    (removeAllComponents s e).entityToIndex e = none ∧
    (∃ F, (removeAllComponents s e).archetypes key = some F ∧
      F.signature = key ∧
      F.entities = (if i = a.entities.length - 1 then a.entities
        else a.entities.set i
          (a.entities.getD (a.entities.length - 1) default)).dropLast ∧
      (∀ id, F.componentArrays id = (a.componentArrays id).map
        (fun col => (if i = a.entities.length - 1 then col
          else col.set i (col.getD (a.entities.length - 1) default)).dropLast)) ∧
      (∀ f, f ∈ F.entities ↔ (f ∈ a.entities ∧ f ≠ e)) ∧
      (∀ (f : Nat) (j : Nat), f ≠ e → a.entities[j]? = some f →
        ∃ j' : Nat, (removeAllComponents s e).entityToIndex f = some j' ∧
          F.entities[j']? = some f ∧
          (∀ id col colF, a.componentArrays id = some col →
            F.componentArrays id = some colF → colF[j']? = col[j]?))) ∧
    (∀ key', key' ≠ key → (removeAllComponents s e).archetypes key' =
      s.archetypes key') ∧
    (∀ f, f ≠ e → (removeAllComponents s e).entityToArchetype f =
      s.entityToArchetype f) ∧
    (∀ f key2, f ≠ e → s.entityToArchetype f = some key2 → key2 ≠ key →
      (removeAllComponents s e).entityToIndex f = s.entityToIndex f) ∧
    (removeAllComponents s e).componentClassToId = s.componentClassToId ∧
    (removeAllComponents s e).componentIdCounter = s.componentIdCounter ∧
    (s.batchInvalidation = false →
      ∀ key' c, (removeAllComponents s e).queryCache key' = some c →
        c.needsUpdate = true) ∧
    (s.batchInvalidation = true →
      (removeAllComponents s e).pendingCacheInvalidation = true) ∧
    (removeAllComponents s e).batchInvalidation = s.batchInvalidation := by
  have hi' : i < a.entities.length := (List.getElem?_eq_some.mp hrow).1
  have hnd : a.signature.Nodup :=
    nodup_of_pairwise_lt (hs.arch_sig key a hcura ▸ hs.arch_sorted key a hcura)
  have hsig : a.signature = key := hs.arch_sig key a hcura
  obtain ⟨⟨F, hFa, hFsig, hFents, hFcols⟩, hoth, hE1, hI1, hrec, hc1, hc2,
    hqc, habc, hb, hp⟩ := swapRemove_spec s e key i hcura hnd
  have heq := removeAllComponents_heq s e hcur hidx
  set s1 := swapRemoveFromArchetype s e key i with hs1d
  set s2 : CMState K V := { s1 with
    entityToArchetype := Function.update s1.entityToArchetype e none
    entityToIndex := Function.update s1.entityToIndex e none } with hs2d
  have heq2 : removeAllComponents s e = scheduleQueryCacheInvalidation s2 := heq
  rw [heq2]
  have hE2 : s2.entityToArchetype = Function.update s.entityToArchetype e none := by
    show Function.update s1.entityToArchetype e none = _
    rw [hE1]
  have hI2 : s2.entityToIndex = Function.update
      (if i = a.entities.length - 1 then s.entityToIndex
        else Function.update s.entityToIndex
          (a.entities.getD (a.entities.length - 1) default) (some i))
      e none := by
    show Function.update s1.entityToIndex e none = _
    rw [hI1]
  have hlastrow : a.entities[a.entities.length - 1]? =
      some (a.entities.getD (a.entities.length - 1) default) :=
    getElem?_getD_of_lt _ _ (by omega)
  have he_last : i ≠ a.entities.length - 1 →
      a.entities.getD (a.entities.length - 1) default ≠ e := by
    intro hcase hef
    exact (hs.row_ne hcura (hef ▸ hlastrow) hrow (fun h => hcase h.symm)) rfl
  have hFrow : ∀ (j : Nat), F.entities[j]? =
      (if j < a.entities.length - 1 then
        (if i = a.entities.length - 1 then a.entities[j]?
          else if j = i then
            some (a.entities.getD (a.entities.length - 1) default)
          else a.entities[j]?)
      else none) := by
    intro j
    rw [hFents]
    exact compact_getElem? a.entities i a.entities.length rfl j
  obtain ⟨Lloc, Lidx, Lrow⟩ := wf_loc_after_remove s hs e key hcura hcur hidx
    hrow s2 ⟨F, hFa, hFents⟩ hoth hE2 hI2
  have hwf2 : WFcore s2 := by
    constructor
    case toId_lt =>
      intro k' id' h'
      rw [show s2.componentClassToId = s.componentClassToId from hc2] at h'
      rw [show s2.componentIdCounter = s.componentIdCounter from hc1]
      exact hs.toId_lt k' id' h'
    case toId_inj =>
      intro k₁ k₂ id' h₁ h₂
      rw [show s2.componentClassToId = s.componentClassToId from hc2] at h₁ h₂
      exact hs.toId_inj k₁ k₂ id' h₁ h₂
    case index_dom =>
      intro id'
      rw [show s2.archetypesByComponentId = s.archetypesByComponentId from habc]
      rw [show s2.componentIdCounter = s.componentIdCounter from hc1]
      exact hs.index_dom id'
    case pool_dom =>
      intro id'
      rw [show s2.recycledComponents id' = s1.recycledComponents id' from rfl]
      rw [show s2.componentIdCounter = s.componentIdCounter from hc1]
      rw [← hs.pool_dom id', hrec id']
    case arch_sig =>
      intro key' a' ha'
      by_cases hk : key' = key
      · subst hk
        rw [show s2.archetypes key' = s1.archetypes key' from rfl, hFa] at ha'
        injection ha' with ha'
        rw [← ha', hFsig, hsig]
      · rw [show s2.archetypes key' = s1.archetypes key' from rfl,
          hoth key' hk] at ha'
        exact hs.arch_sig key' a' ha'
    case arch_sorted =>
      intro key' a' ha'
      by_cases hk : key' = key
      · subst hk
        exact hs.arch_sorted key' a hcura
      · rw [show s2.archetypes key' = s1.archetypes key' from rfl,
          hoth key' hk] at ha'
        exact hs.arch_sorted key' a' ha'
    case arch_ids_lt =>
      intro key' a' ha'
      rw [show s2.componentIdCounter = s.componentIdCounter from hc1]
      by_cases hk : key' = key
      · subst hk
        exact hs.arch_ids_lt key' a hcura
      · rw [show s2.archetypes key' = s1.archetypes key' from rfl,
          hoth key' hk] at ha'
        exact hs.arch_ids_lt key' a' ha'
    case cols_dom =>
      intro key' a' id' ha'
      by_cases hk : key' = key
      · subst hk
        rw [show s2.archetypes key' = s1.archetypes key' from rfl, hFa] at ha'
        injection ha' with ha'
        rw [← ha', hFcols id', Option.isSome_map']
        exact hs.cols_dom key' a id' hcura
      · rw [show s2.archetypes key' = s1.archetypes key' from rfl,
          hoth key' hk] at ha'
        exact hs.cols_dom key' a' id' ha'
    case cols_len =>
      intro key' a' id' col ha' hcol
      by_cases hk : key' = key
      · subst hk
        rw [show s2.archetypes key' = s1.archetypes key' from rfl, hFa] at ha'
        injection ha' with ha'
        rw [← ha'] at hcol ⊢
        rw [hFcols id'] at hcol
        obtain ⟨col0, hcol0, rfl⟩ := Option.map_eq_some'.mp hcol
        have hlen := hs.cols_len key' a id' col0 hcura hcol0
        rw [hFents]
        split <;> simp [hlen]
      · rw [show s2.archetypes key' = s1.archetypes key' from rfl,
          hoth key' hk] at ha'
        exact hs.cols_len key' a' id' col ha' hcol
    case loc => exact Lloc
    case idx_loc => exact Lidx
    case row_loc => exact Lrow
    case index_spec =>
      intro id' keys h'
      rw [show s2.archetypesByComponentId = s.archetypesByComponentId from habc] at h'
      obtain ⟨hspec, hnd'⟩ := hs.index_spec id' keys h'
      refine ⟨?_, hnd'⟩
      intro key'
      rw [hspec key']
      by_cases hk : key' = key
      · subst hk
        constructor
        · rintro ⟨a', _, hmem⟩
          exact ⟨F, hFa, hmem⟩
        · rintro ⟨a', _, hmem⟩
          exact ⟨a, hcura, hmem⟩
      · rw [show s2.archetypes key' = s1.archetypes key' from rfl, hoth key' hk]
    case cache_sig =>
      intro key' c hc
      rw [show s2.queryCache = s.queryCache from hqc] at hc
      exact hs.cache_sig key' c hc
    case cache_sorted =>
      intro key' c hc
      rw [show s2.queryCache = s.queryCache from hqc] at hc
      exact hs.cache_sorted key' c hc
    case cache_ne =>
      intro key' c hc
      rw [show s2.queryCache = s.queryCache from hqc] at hc
      exact hs.cache_ne key' c hc
    case cache_ids_lt =>
      intro key' c hc
      rw [show s2.queryCache = s.queryCache from hqc] at hc
      rw [show s2.componentIdCounter = s.componentIdCounter from hc1]
      exact hs.cache_ids_lt key' c hc
    case pending_batch =>
      rw [show s2.pendingCacheInvalidation = s.pendingCacheInvalidation from hp]
      rw [show s2.batchInvalidation = s.batchInvalidation from hb]
      exact hs.pending_batch
  obtain ⟨f1, f2, f3, f4, f5, f6, f7, f8⟩ := schedule_fields s2
  have hbatch2 : s2.batchInvalidation = s.batchInvalidation := hb
  refine ⟨wfcore_schedule s2 hwf2, cacheInv_schedule s2, ?_, ?_, ?_, ?_, ?_,
    ?_, ?_, ?_, ?_, ?_, ?_⟩
  · rw [f4, hE2, Function.update_same]
  · rw [f5, hI2, Function.update_same]
  · refine ⟨F, ?_, by rw [hFsig, hsig], hFents, hFcols, ?_, ?_⟩
    · rw [f3]
      exact hFa
    · intro f
      constructor
      · intro hm
        obtain ⟨j, hj⟩ := mem_iff_getElem?'.mp hm
        rw [hFrow j] at hj
        by_cases hjlt : j < a.entities.length - 1
        · rw [if_pos hjlt] at hj
          by_cases hcase : i = a.entities.length - 1
          · rw [if_pos hcase] at hj
            refine ⟨mem_iff_getElem?'.mpr ⟨j, hj⟩, ?_⟩
            exact hs.row_ne hcura hj hrow (by omega)
          · rw [if_neg hcase] at hj
            by_cases hji : j = i
            · rw [if_pos hji] at hj
              injection hj with hj
              refine ⟨?_, by rw [← hj]; exact he_last hcase⟩
              rw [← hj]
              exact mem_iff_getElem?'.mpr ⟨a.entities.length - 1, hlastrow⟩
            · rw [if_neg hji] at hj
              exact ⟨mem_iff_getElem?'.mpr ⟨j, hj⟩, hs.row_ne hcura hj hrow hji⟩
        · rw [if_neg hjlt] at hj
          cases hj
      · rintro ⟨hm, hfe⟩
        obtain ⟨j, hj⟩ := mem_iff_getElem?'.mp hm
        have hji : j ≠ i := by
          intro h
          subst h
          rw [hj] at hrow
          exact hfe (Option.some_injective _ hrow)
        have hjn : j < a.entities.length := (List.getElem?_eq_some.mp hj).1
        by_cases hcase : i = a.entities.length - 1
        · refine mem_iff_getElem?'.mpr ⟨j, ?_⟩
          rw [hFrow j, if_pos (by omega), if_pos hcase]
          exact hj
        · by_cases hjlast : j = a.entities.length - 1
          · refine mem_iff_getElem?'.mpr ⟨i, ?_⟩
            rw [hFrow i, if_pos (by omega), if_neg hcase, if_pos rfl]
            rw [hjlast] at hj
            rw [hlastrow] at hj
            exact hj
          · refine mem_iff_getElem?'.mpr ⟨j, ?_⟩
            rw [hFrow j, if_pos (by omega), if_neg hcase, if_neg hji]
            exact hj
    · intro f j hfe hj
      have hji : j ≠ i := by
        intro h
        subst h
        rw [hj] at hrow
        exact hfe (Option.some_injective _ hrow)
      have hjn : j < a.entities.length := (List.getElem?_eq_some.mp hj).1
      have hIf : ∀ x, (removeAllComponents s e).entityToIndex f = x ↔
          s2.entityToIndex f = x := by
        intro x
        rw [heq2, f5]
      by_cases hcase : i = a.entities.length - 1
      · refine ⟨j, ?_, ?_, ?_⟩
        · rw [f5, hI2, Function.update_noteq hfe, if_pos hcase]
          exact (hs.row_loc key a j f hcura hj).2
        · rw [hFrow j, if_pos (by omega), if_pos hcase]
          exact hj
        · intro id col colF hcol hcolF
          rw [hFcols id, hcol, Option.map_some'] at hcolF
          injection hcolF with hcolF
          rw [← hcolF, if_pos hcase, getElem?_dropLast,
            if_pos (by rw [hs.cols_len key a id col hcura hcol]; omega)]
      · by_cases hjlast : j = a.entities.length - 1
        · have hflast : f = a.entities.getD (a.entities.length - 1) default := by
            rw [hjlast] at hj
            rw [hlastrow] at hj
            exact (Option.some_injective _ hj).symm
          refine ⟨i, ?_, ?_, ?_⟩
          · rw [f5, hI2, Function.update_noteq hfe, if_neg hcase,
              ← hflast, Function.update_same]
          · rw [hFrow i, if_pos (by omega), if_neg hcase, if_pos rfl, hflast]
          · intro id col colF hcol hcolF
            rw [hFcols id, hcol, Option.map_some'] at hcolF
            injection hcolF with hcolF
            have hclen := hs.cols_len key a id col hcura hcol
            rw [← hcolF, if_neg hcase, getElem?_dropLast]
            rw [if_pos (by simp only [List.length_set]; omega)]
            rw [List.getElem?_set, if_pos rfl]
            rw [if_pos (by omega), hjlast]
            rw [getElem?_getD_of_lt _ _ (by omega)]
        · have hflast : f ≠ a.entities.getD (a.entities.length - 1) default :=
            hs.row_ne hcura hj hlastrow hjlast
          refine ⟨j, ?_, ?_, ?_⟩
          · rw [f5, hI2, Function.update_noteq hfe, if_neg hcase,
              Function.update_noteq hflast]
            exact (hs.row_loc key a j f hcura hj).2
          · rw [hFrow j, if_pos (by omega), if_neg hcase, if_neg hji]
            exact hj
          · intro id col colF hcol hcolF
            rw [hFcols id, hcol, Option.map_some'] at hcolF
            injection hcolF with hcolF
            have hclen := hs.cols_len key a id col hcura hcol
            rw [← hcolF, if_neg hcase, getElem?_dropLast]
            rw [if_pos (by simp only [List.length_set]; omega)]
            rw [List.getElem?_set, if_neg (fun h => hji h.symm)]
  · intro key' hk
    rw [f3]
    rw [show s2.archetypes key' = s1.archetypes key' from rfl]
    exact hoth key' hk
  · intro f hf
    rw [f4, hE2, Function.update_noteq hf]
  · intro f key2 hf hfk2 hk2
    have hflast : f ≠ a.entities.getD (a.entities.length - 1) default := by
      intro hef
      have hloclast := (hs.row_loc key a _ _ hcura hlastrow).1
      rw [← hef, hfk2] at hloclast
      injection hloclast with h
      exact hk2 h
    rw [f5, hI2, Function.update_noteq hf]
    split
    · rfl
    · rw [Function.update_noteq hflast]
  · rw [f2]
    exact hc2
  · rw [f1]
    exact hc1
  · intro hbf key' c hc
    unfold scheduleQueryCacheInvalidation at hc
    rw [if_neg (by rw [hbatch2, hbf]; simp)] at hc
    rw [invalidate_queryCache] at hc
    obtain ⟨c0, _, rfl⟩ := Option.map_eq_some'.mp hc
    rfl
  · intro hbt
    unfold scheduleQueryCacheInvalidation
    rw [if_pos (by rw [hbatch2]; exact hbt)]
  · rw [f8]
    exact hbatch2

lemma removeAllComponents_noloc (s : CMState K V) (e : Nat)
    (hcur : s.entityToArchetype e = none) :
    removeAllComponents s e = s := by
  unfold removeAllComponents
  rw [hcur]

lemma removeAllComponents_noidx (s : CMState K V) (e : Nat) {key : List Nat}
    (hcur : s.entityToArchetype e = some key)
    (hidx : s.entityToIndex e = none) :
    removeAllComponents s e = s := by
  unfold removeAllComponents
  rw [hcur]
  dsimp only
  rw [hidx]

/-- `removeAllComponents` preserves the full invariant. -/
lemma wf_removeAllComponents (s : CMState K V) (e : Nat) (hs : WF s) :
    WF (removeAllComponents s e) := by
  obtain ⟨hc, hci⟩ := hs
  cases hcur : s.entityToArchetype e with
  | none => rw [removeAllComponents_noloc s e hcur]; exact ⟨hc, hci⟩
  | some key =>
    obtain ⟨a, i, ha, hi, hr⟩ := hc.loc e key hcur
    obtain ⟨h1, h2, _⟩ := removeAllComponents_spec s e hc hcur ha hi hr
    exact ⟨h1, h2⟩

lemma removeComponent_noarch (s : CMState K V) (e : Nat) (k : K)
    (hcur : s.entityToArchetype e = none) :
    removeComponent s e k = (s, false) := by
  unfold removeComponent
  rw [hcur]

lemma removeComponent_noarchetype (s : CMState K V) (e : Nat) (k : K)
    {curKey : List Nat}
    (hcur : s.entityToArchetype e = some curKey)
    (hcura0 : (getComponentId s k).1.archetypes curKey = none) :
    removeComponent s e k = ((getComponentId s k).1, false) := by
  unfold removeComponent
  rw [hcur]
  dsimp only
  rw [hcura0]

lemma removeComponent_lacks (s : CMState K V) (e : Nat) (k : K)
    {curKey : List Nat} {cur : ArchetypeData V}
    (hcur : s.entityToArchetype e = some curKey)
    (hcura0 : (getComponentId s k).1.archetypes curKey = some cur)
    (hlacks : cur.componentArrays (getComponentId s k).2 = none) :
    removeComponent s e k = ((getComponentId s k).1, false) := by
  unfold removeComponent
  rw [hcur]
  dsimp only
  rw [hcura0]
  dsimp only
  rw [hlacks]
  simp only [Option.isSome_none, Bool.false_eq_true, if_false]

lemma removeComponent_empty_heq (s : CMState K V) (e : Nat) (k : K)
    {curKey : List Nat} {cur : ArchetypeData V}
    (hcur : s.entityToArchetype e = some curKey)
    (hcura0 : (getComponentId s k).1.archetypes curKey = some cur)
    (hhas : (cur.componentArrays (getComponentId s k).2).isSome = true)
    (hempty : (cur.signature.filter
      (fun id => id ≠ (getComponentId s k).2)).length = 0) :
    removeComponent s e k =
      (scheduleQueryCacheInvalidation
        (removeAllComponents (getComponentId s k).1 e), true) := by
  unfold removeComponent
  rw [hcur]
  dsimp only
  rw [hcura0]
  dsimp only
  rw [if_pos hhas, if_pos hempty]

lemma removeComponent_mig_heq (s : CMState K V) (e : Nat) (k : K)
    {curKey : List Nat} {cur : ArchetypeData V}
    (hcur : s.entityToArchetype e = some curKey)
    (hcura0 : (getComponentId s k).1.archetypes curKey = some cur)
    (hhas : (cur.componentArrays (getComponentId s k).2).isSome = true)
    (hne : ¬ ((cur.signature.filter
      (fun id => id ≠ (getComponentId s k).2)).length = 0)) :
    removeComponent s e k =
      (scheduleQueryCacheInvalidation
        (moveEntity (getOrCreateArchetype (getComponentId s k).1
            (cur.signature.filter (fun id => id ≠ (getComponentId s k).2))).1
          e curKey
          (cur.signature.filter (fun id => id ≠ (getComponentId s k).2))),
       true) := by
  unfold removeComponent
  rw [hcur]
  dsimp only
  rw [hcura0]
  dsimp only
  rw [if_pos hhas, if_neg hne]
  have hq2 : (getOrCreateArchetype (getComponentId s k).1
      (cur.signature.filter (fun id => id ≠ (getComponentId s k).2))).2 =
      cur.signature.filter (fun id => id ≠ (getComponentId s k).2) :=
    (getOrCreateArchetype_fields _ _).2.2.2.2.2.2
  rw [hq2]

lemma getOrCreateArchetype_existing (s : CMState K V) (ids : List Nat)
    {a : ArchetypeData V} (h : s.archetypes ids = some a) :
    getOrCreateArchetype s ids = (s, ids) := by
  unfold getOrCreateArchetype
  rw [h]

/-- Preservation and characterization of `removeComponent` in the migration
case: the entity's archetype holds the (necessarily registered) type and
other types remain after dropping it. -/
lemma removeComponent_migrate_spec (s : CMState K V) (e : Nat) (k : K)
    (hs : WFcore s) {curKey : List Nat} {cur : ArchetypeData V} {i : Nat}
    (hcur : s.entityToArchetype e = some curKey)
    (hcura : s.archetypes curKey = some cur)
    (hidx : s.entityToIndex e = some i)
    (hrow : cur.entities[i]? = some e)
    (hhas : (cur.componentArrays (getComponentId s k).2).isSome = true)
    (hne : ¬ ((cur.signature.filter
      (fun id => id ≠ (getComponentId s k).2)).length = 0)) :
    WFcore (removeComponent s e k).1 ∧
    CacheInv (removeComponent s e k).1 ∧
    (removeComponent s e k).2 = true ∧
    (removeComponent s e k).1.entityToArchetype e =
      some (cur.signature.filter (fun id => id ≠ (getComponentId s k).2)) ∧
    (∃ A ni, (removeComponent s e k).1.archetypes
        (cur.signature.filter (fun id => id ≠ (getComponentId s k).2)) =
        some A ∧
      (removeComponent s e k).1.entityToIndex e = some ni ∧
      A.entities[ni]? = some e ∧
      A.componentArrays (getComponentId s k).2 = none ∧
      (∀ id col0, id ∈ cur.signature → id ≠ (getComponentId s k).2 →
        cur.componentArrays id = some col0 →
        ∃ col, A.componentArrays id = some col ∧ col[ni]? = col0[i]?)) ∧
    (∀ id col0 r, id ∈ cur.signature → cur.componentArrays id = some col0 →
      s.recycledComponents id = some r →
      (removeComponent s e k).1.recycledComponents id =
        some (if r.length < 1000 then
          r ++ [col0.getD (cur.entities.length - 1) default] else r)) ∧
    (s.batchInvalidation = false →
      ∀ key c, (removeComponent s e k).1.queryCache key = some c →
        c.needsUpdate = true) ∧
    (s.batchInvalidation = true →
      (removeComponent s e k).1.pendingCacheInvalidation = true) ∧
    (∃ F, (removeComponent s e k).1.archetypes curKey = some F ∧
      F.signature = curKey ∧
      F.entities = (if i = cur.entities.length - 1 then cur.entities
        else cur.entities.set i
          (cur.entities.getD (cur.entities.length - 1) default)).dropLast ∧
      (∀ id, F.componentArrays id = (cur.componentArrays id).map
        (fun col => (if i = cur.entities.length - 1 then col
          else col.set i (col.getD (cur.entities.length - 1) default)).dropLast)) ∧
      (∀ f, f ∈ F.entities ↔ (f ∈ cur.entities ∧ f ≠ e))) ∧
    (∀ (f : Nat) (key2 : List Nat), f ≠ e → s.entityToArchetype f = some key2 →
      (removeComponent s e k).1.entityToArchetype f = some key2 ∧
      ∃ a2 a2' j j', s.archetypes key2 = some a2 ∧
        (removeComponent s e k).1.archetypes key2 = some a2' ∧
        s.entityToIndex f = some j ∧
        (removeComponent s e k).1.entityToIndex f = some j' ∧
        (∀ id, (a2'.componentArrays id).isSome =
          (a2.componentArrays id).isSome) ∧
        (∀ id col col', a2.componentArrays id = some col →
          a2'.componentArrays id = some col' → col'[j']? = col[j]?)) ∧
    (removeComponent s e k).1.batchInvalidation = s.batchInvalidation ∧
    (removeComponent s e k).1.componentClassToId = s.componentClassToId ∧
    (removeComponent s e k).1.componentIdCounter = s.componentIdCounter ∧
    (∀ f, f ≠ e → (removeComponent s e k).1.entityToArchetype f =
      s.entityToArchetype f) := by
  obtain ⟨g1, g2, g3, g4, g5, g6⟩ := getComponentId_unchanged s k
  have hs0 : WFcore (getComponentId s k).1 := wfcore_getComponentId s k hs
  have hcur0 : (getComponentId s k).1.entityToArchetype e = some curKey := by
    rw [g2]; exact hcur
  have hcura0 : (getComponentId s k).1.archetypes curKey = some cur := by
    rw [g1]; exact hcura
  have hidx0 : (getComponentId s k).1.entityToIndex e = some i := by
    rw [g3]; exact hidx
  have hsig : cur.signature = curKey := hs.arch_sig _ _ hcura
  have hcid_mem : (getComponentId s k).2 ∈ curKey :=
    (hs0.cols_dom curKey cur (getComponentId s k).2 hcura0).mp hhas
  have hsub : ∀ id, id ∈ cur.signature.filter
      (fun id => id ≠ (getComponentId s k).2) → id ∈ curKey := by
    intro id hid
    rw [← hsig]
    exact (List.mem_filter.mp hid).1
  have hnotc : (getComponentId s k).2 ∉ cur.signature.filter
      (fun id => id ≠ (getComponentId s k).2) := by
    intro h
    have h2 := (List.mem_filter.mp h).2
    simp at h2
  have hsorted : (cur.signature.filter
      (fun id => id ≠ (getComponentId s k).2)).Pairwise (· < ·) := by
    apply List.Pairwise.filter
    rw [hsig]
    exact hs.arch_sorted curKey cur hcura
  have hlt : ∀ id ∈ cur.signature.filter
      (fun id => id ≠ (getComponentId s k).2),
      id < (getComponentId s k).1.componentIdCounter := by
    intro id hid
    have h1 := hs.arch_ids_lt curKey cur hcura id (hsub id hid)
    have h2 := getComponentId_counter_le s k
    omega
  obtain ⟨hs2, ⟨toA, htoA, htoAsig, _⟩, hqother⟩ :=
    getOrCreateArchetype_spec (getComponentId s k).1
      (cur.signature.filter (fun id => id ≠ (getComponentId s k).2))
      hs0 hsorted hlt
  obtain ⟨q1, q2, q3, q4, q5, q6, q7⟩ :=
    getOrCreateArchetype_fields (getComponentId s k).1
      (cur.signature.filter (fun id => id ≠ (getComponentId s k).2))
  have hkeyne : curKey ≠ cur.signature.filter
      (fun id => id ≠ (getComponentId s k).2) :=
    fun h => hnotc (h ▸ hcid_mem)
  have hcur2 : (getOrCreateArchetype (getComponentId s k).1
      (cur.signature.filter (fun id => id ≠ (getComponentId s k).2))).1.entityToArchetype e =
      some curKey := by rw [q3]; exact hcur0
  have hidx2 : (getOrCreateArchetype (getComponentId s k).1
      (cur.signature.filter (fun id => id ≠ (getComponentId s k).2))).1.entityToIndex e =
      some i := by rw [q4]; exact hidx0
  have hcura2 : (getOrCreateArchetype (getComponentId s k).1
      (cur.signature.filter (fun id => id ≠ (getComponentId s k).2))).1.archetypes curKey =
      some cur := by
    rw [hqother curKey hkeyne]; exact hcura0
  have hi : i < cur.entities.length := (List.getElem?_eq_some.mp hrow).1
  have hnd : cur.signature.Nodup := by
    rw [hsig]
    exact nodup_of_pairwise_lt (hs.arch_sorted curKey cur hcura)
  have hcl : ∀ id col, cur.componentArrays id = some col →
      col.length = cur.entities.length :=
    fun id col hc => hs2.cols_len curKey cur id col hcura2 hc
  obtain ⟨⟨toA2, hTo2, hTo2sig, hTo2ents, hTo2cols⟩,
    ⟨fromA2, hF2, hF2sig, hF2ents, hF2cols⟩, hMothers, hME, hMI, hMrec,
    hm1, hm2, hm3, hm4, hm5, hm6⟩ :=
    moveEntity_spec (getOrCreateArchetype (getComponentId s k).1
        (cur.signature.filter (fun id => id ≠ (getComponentId s k).2))).1
      e curKey (cur.signature.filter (fun id => id ≠ (getComponentId s k).2))
      hidx2 hcura2 htoA hkeyne hi hnd hcl
  have heq := removeComponent_mig_heq s e k hcur hcura0 hhas hne
  rw [heq]
  dsimp only
  set nsig := cur.signature.filter (fun id => id ≠ (getComponentId s k).2)
    with hnsigdef
  set S2 := (getOrCreateArchetype (getComponentId s k).1 nsig).1 with hS2def
  set s1 := moveEntity S2 e curKey nsig with hs1def
  have hsubn : ∀ id, id ∈ nsig → id ∈ cur.signature := by
    intro id hid
    rw [hsig]
    exact hsub id hid
  obtain ⟨Lloc, Lidx, Lrow⟩ := wf_loc_after_move S2 hs2 e curKey nsig hcura2
    htoA hkeyne hcur2 hidx2 hrow s1
    ⟨toA2, hTo2, hTo2ents⟩
    ⟨fromA2, hF2, hF2ents⟩
    hMothers hME hMI
  have hwf1 : WFcore s1 := by
    constructor
    case toId_lt =>
      intro k' id' h'
      rw [hm2] at h'
      rw [hm1]
      exact hs2.toId_lt k' id' h'
    case toId_inj =>
      intro k₁ k₂ id' h₁ h₂
      rw [hm2] at h₁ h₂
      exact hs2.toId_inj k₁ k₂ id' h₁ h₂
    case index_dom =>
      intro id'
      rw [hm4, hm1]
      exact hs2.index_dom id'
    case pool_dom =>
      intro id'
      rw [hm1, ← hs2.pool_dom id', hMrec id']
      split
      · cases hv : (cur.componentArrays id').bind List.getLast? with
        | none => rfl
        | some v => rw [poolAfter_isSome]
      · rfl
    case arch_sig =>
      intro key a ha
      by_cases hk2 : key = nsig
      · subst hk2
        rw [hTo2] at ha
        injection ha with ha
        rw [← ha, hTo2sig, htoAsig]
      · by_cases hk1 : key = curKey
        · subst hk1
          rw [hF2] at ha
          injection ha with ha
          rw [← ha, hF2sig, hsig]
        · rw [hMothers key hk1 hk2] at ha
          exact hs2.arch_sig key a ha
    case arch_sorted =>
      intro key a ha
      by_cases hk2 : key = nsig
      · subst hk2
        exact hsorted
      · by_cases hk1 : key = curKey
        · subst hk1
          exact hs2.arch_sorted _ cur hcura2
        · rw [hMothers key hk1 hk2] at ha
          exact hs2.arch_sorted key a ha
    case arch_ids_lt =>
      intro key a ha id' hid'
      rw [hm1]
      by_cases hk2 : key = nsig
      · subst hk2
        rw [q1]
        exact hlt id' hid'
      · by_cases hk1 : key = curKey
        · subst hk1
          exact hs2.arch_ids_lt _ cur hcura2 id' hid'
        · rw [hMothers key hk1 hk2] at ha
          exact hs2.arch_ids_lt key a ha id' hid'
    case cols_dom =>
      intro key a id' ha
      by_cases hk2 : key = nsig
      · subst hk2
        rw [hTo2] at ha
        injection ha with ha
        rw [← ha, hTo2cols id', Option.isSome_map']
        exact hs2.cols_dom nsig toA id' htoA
      · by_cases hk1 : key = curKey
        · subst hk1
          rw [hF2] at ha
          injection ha with ha
          rw [← ha, hF2cols id', Option.isSome_map']
          exact hs2.cols_dom _ cur id' hcura2
        · rw [hMothers key hk1 hk2] at ha
          exact hs2.cols_dom key a id' ha
    case cols_len =>
      intro key a id' col ha hcol
      by_cases hk2 : key = nsig
      · subst hk2
        rw [hTo2] at ha
        injection ha with ha
        rw [← ha] at hcol ⊢
        rw [hTo2cols id'] at hcol
        obtain ⟨tgt, htgt, rfl⟩ := Option.map_eq_some'.mp hcol
        have hlen := hs2.cols_len nsig toA id' tgt htoA htgt
        have hdom : (toA.componentArrays id').isSome = true := by
          rw [htgt]; rfl
        have hidn : id' ∈ nsig := (hs2.cols_dom nsig toA id' htoA).mp hdom
        rw [hTo2ents]
        rw [if_pos (hsubn id' hidn)]
        simp [hlen]
      · by_cases hk1 : key = curKey
        · subst hk1
          rw [hF2] at ha
          injection ha with ha
          rw [← ha] at hcol ⊢
          rw [hF2cols id'] at hcol
          obtain ⟨col0, hcol0, rfl⟩ := Option.map_eq_some'.mp hcol
          have hlen := hcl id' col0 hcol0
          rw [hF2ents]
          split <;> simp [hlen]
        · rw [hMothers key hk1 hk2] at ha
          exact hs2.cols_len key a id' col ha hcol
    case loc => exact Lloc
    case idx_loc => exact Lidx
    case row_loc => exact Lrow
    case index_spec =>
      intro id' keys h'
      rw [hm4] at h'
      obtain ⟨hspec, hnd'⟩ := hs2.index_spec id' keys h'
      refine ⟨?_, hnd'⟩
      intro key
      rw [hspec key]
      by_cases hk2 : key = nsig
      · subst hk2
        constructor
        · rintro ⟨a, _, hmem⟩
          exact ⟨toA2, hTo2, hmem⟩
        · rintro ⟨a, _, hmem⟩
          exact ⟨toA, htoA, hmem⟩
      · by_cases hk1 : key = curKey
        · subst hk1
          constructor
          · rintro ⟨a, _, hmem⟩
            exact ⟨fromA2, hF2, hmem⟩
          · rintro ⟨a, _, hmem⟩
            exact ⟨cur, hcura2, hmem⟩
        · rw [hMothers key hk1 hk2]
    case cache_sig =>
      intro key c hc
      rw [hm3] at hc
      exact hs2.cache_sig key c hc
    case cache_sorted =>
      intro key c hc
      rw [hm3] at hc
      exact hs2.cache_sorted key c hc
    case cache_ne =>
      intro key c hc
      rw [hm3] at hc
      exact hs2.cache_ne key c hc
    case cache_ids_lt =>
      intro key c hc
      rw [hm3] at hc
      rw [hm1]
      exact hs2.cache_ids_lt key c hc
    case pending_batch =>
      rw [hm5, hm6]
      exact hs2.pending_batch
  obtain ⟨f1, f2, f3, f4, f5, f6, f7, f8⟩ := schedule_fields s1
  have hbatch1 : s1.batchInvalidation = s.batchInvalidation := by
    rw [hm5, q6, g5]
  have hlt_s : (getComponentId s k).2 < s.componentIdCounter :=
    hs.arch_ids_lt curKey cur hcura _ hcid_mem
  obtain ⟨id0, hid0⟩ : ∃ id0, s.componentClassToId k = some id0 := by
    cases h : s.componentClassToId k with
    | some id0 => exact ⟨id0, rfl⟩
    | none =>
      exfalso
      have hcnt : (getComponentId s k).2 = s.componentIdCounter := by
        unfold getComponentId
        rw [h]
      omega
  have hs0eq : (getComponentId s k).1 = s := by
    unfold getComponentId
    rw [hid0]
  have hlastrow : cur.entities[cur.entities.length - 1]? =
      some (cur.entities.getD (cur.entities.length - 1) default) :=
    getElem?_getD_of_lt _ _ (by omega)
  have hlastloc : s.entityToArchetype
      (cur.entities.getD (cur.entities.length - 1) default) = some curKey :=
    (hs.row_loc curKey cur _ _ hcura hlastrow).1
  have he_last : i ≠ cur.entities.length - 1 →
      cur.entities.getD (cur.entities.length - 1) default ≠ e := by
    intro hcase hef
    exact (hs.row_ne hcura (hef ▸ hlastrow) hrow (fun h => hcase h.symm)) rfl
  have hF2row : ∀ (j : Nat), fromA2.entities[j]? =
      (if j < cur.entities.length - 1 then
        (if i = cur.entities.length - 1 then cur.entities[j]?
          else if j = i then
            some (cur.entities.getD (cur.entities.length - 1) default)
          else cur.entities[j]?)
      else none) := by
    intro j
    rw [hF2ents]
    exact compact_getElem? cur.entities i cur.entities.length rfl j
  refine ⟨wfcore_schedule s1 hwf1, cacheInv_schedule s1, rfl, ?_, ?_, ?_,
    ?_, ?_, ?_, ?_, ?_, ?_, ?_, ?_⟩
  · rw [f4, hME, Function.update_same]
  · refine ⟨toA2, toA.entities.length, ?_, ?_, ?_, ?_, ?_⟩
    · rw [f3]
      exact hTo2
    · rw [f5, hMI, Function.update_same]
    · rw [hTo2ents, List.getElem?_concat_length]
    · rw [hTo2cols]
      have hdom : (toA.componentArrays (getComponentId s k).2).isSome ≠ true :=
        fun h => hnotc ((hs2.cols_dom nsig toA (getComponentId s k).2 htoA).mp h)
      cases hc : toA.componentArrays (getComponentId s k).2 with
      | none => rfl
      | some tgt =>
        rw [hc] at hdom
        exact absurd rfl hdom
    · intro id col0 hidmem hidne hcol0
      have hidn : id ∈ nsig := by
        rw [hnsigdef]
        refine List.mem_filter.mpr ⟨hidmem, ?_⟩
        simp [hidne]
      have hdom : (toA.componentArrays id).isSome = true :=
        (hs2.cols_dom nsig toA id htoA).mpr hidn
      obtain ⟨tgt, htgt⟩ := Option.isSome_iff_exists.mp hdom
      have hlen := hs2.cols_len nsig toA id tgt htoA htgt
      refine ⟨tgt ++ [((cur.componentArrays id).getD []).getD i default], ?_, ?_⟩
      · rw [hTo2cols id, htgt, Option.map_some',
          if_pos (hsubn id hidn)]
      · rw [← hlen, List.getElem?_concat_length, hcol0]
        show some (col0.getD i default) = _
        rw [getElem?_getD_of_lt col0 i (by rw [hcl id col0 hcol0]; omega)]
  · intro id col0 r hidmem hcol0 hr
    have hrec := hMrec id
    rw [if_pos hidmem, hcol0] at hrec
    have hlast : col0.getLast? = some (col0.getD (cur.entities.length - 1) default) := by
      rw [List.getLast?_eq_getElem?, hcl id col0 hcol0]
      exact getElem?_getD_of_lt _ _ (by rw [hcl id col0 hcol0]; omega)
    rw [f7, hrec]
    show (match col0.getLast? with
      | some w => poolAfter (S2.recycledComponents id) w
      | none => S2.recycledComponents id) = _
    rw [hlast]
    have hS2r : S2.recycledComponents id = some r := by
      rw [q5]
      exact getComponentId_recycled_mono s k hs hr
    show poolAfter (S2.recycledComponents id) _ = _
    rw [hS2r]
    show (if r.length < 1000 then some (r ++ [_]) else some r) = _
    split <;> rfl
  · intro hb key c hc
    unfold scheduleQueryCacheInvalidation at hc
    rw [if_neg (by rw [hbatch1, hb]; simp)] at hc
    rw [invalidate_queryCache] at hc
    obtain ⟨c0, _, rfl⟩ := Option.map_eq_some'.mp hc
    rfl
  · intro hb
    unfold scheduleQueryCacheInvalidation
    rw [if_pos (by rw [hbatch1]; exact hb)]
  · refine ⟨fromA2, ?_, ?_, hF2ents, hF2cols, ?_⟩
    · rw [f3]
      exact hF2
    · rw [hF2sig, hsig]
    · intro f
      constructor
      · intro hm
        obtain ⟨j, hj⟩ := mem_iff_getElem?'.mp hm
        rw [hF2row j] at hj
        by_cases hjlt : j < cur.entities.length - 1
        · rw [if_pos hjlt] at hj
          by_cases hcase : i = cur.entities.length - 1
          · rw [if_pos hcase] at hj
            exact ⟨mem_iff_getElem?'.mpr ⟨j, hj⟩,
              hs.row_ne hcura hj hrow (by omega)⟩
          · rw [if_neg hcase] at hj
            by_cases hji : j = i
            · rw [if_pos hji] at hj
              injection hj with hj
              refine ⟨?_, by rw [← hj]; exact he_last hcase⟩
              rw [← hj]
              exact mem_iff_getElem?'.mpr ⟨cur.entities.length - 1, hlastrow⟩
            · rw [if_neg hji] at hj
              exact ⟨mem_iff_getElem?'.mpr ⟨j, hj⟩,
                hs.row_ne hcura hj hrow hji⟩
        · rw [if_neg hjlt] at hj
          cases hj
      · rintro ⟨hm, hfe⟩
        obtain ⟨j, hj⟩ := mem_iff_getElem?'.mp hm
        have hji : j ≠ i := by
          intro h
          subst h
          rw [hj] at hrow
          exact hfe (Option.some_injective _ hrow)
        have hjn : j < cur.entities.length := (List.getElem?_eq_some.mp hj).1
        by_cases hcase : i = cur.entities.length - 1
        · refine mem_iff_getElem?'.mpr ⟨j, ?_⟩
          rw [hF2row j, if_pos (by omega), if_pos hcase]
          exact hj
        · by_cases hjlast : j = cur.entities.length - 1
          · refine mem_iff_getElem?'.mpr ⟨i, ?_⟩
            rw [hF2row i, if_pos (by omega), if_neg hcase, if_pos rfl]
            rw [hjlast, hlastrow] at hj
            exact hj
          · refine mem_iff_getElem?'.mpr ⟨j, ?_⟩
            rw [hF2row j, if_pos (by omega), if_neg hcase, if_neg hji]
            exact hj
  · intro f key2 hfe hfk2
    obtain ⟨a2, j, ha2, hj, hrowj⟩ := hs.loc f key2 hfk2
    have hE' : (scheduleQueryCacheInvalidation s1).entityToArchetype f =
        some key2 := by
      rw [f4, hME, Function.update_noteq hfe, q3, g2]
      exact hfk2
    refine ⟨hE', ?_⟩
    by_cases hk1 : key2 = curKey
    · subst hk1
      have haeq : a2 = cur :=
        Option.some_injective _ (ha2.symm.trans hcura)
      rw [haeq] at hrowj
      have hij : j ≠ i := by
        intro h
        subst h
        rw [hrowj] at hrow
        exact hfe (Option.some_injective _ hrow)
      have hjn : j < cur.entities.length := (List.getElem?_eq_some.mp hrowj).1
      have ha2' : (scheduleQueryCacheInvalidation s1).archetypes key2 =
          some fromA2 := by
        rw [f3]
        exact hF2
      by_cases hcase : i = cur.entities.length - 1
      · refine ⟨a2, fromA2, j, j, ha2, ha2', hj, ?_, ?_, ?_⟩
        · rw [f5, hMI, Function.update_noteq hfe, if_pos hcase, q4, g3]
          exact hj
        · intro id
          rw [hF2cols id, haeq, Option.isSome_map']
        · intro id col col' hcol hcol'
          have hcolc : cur.componentArrays id = some col := by
            rw [← haeq]
            exact hcol
          rw [hF2cols id, hcolc, Option.map_some'] at hcol'
          injection hcol' with hcol'
          have hclen := hs.cols_len key2 a2 id col ha2 hcol
          rw [haeq] at hclen
          rw [← hcol', if_pos hcase, getElem?_dropLast, if_pos (by omega)]
      · by_cases hjlast : j = cur.entities.length - 1
        · have hflast : f = cur.entities.getD (cur.entities.length - 1)
              default := by
            rw [hjlast, hlastrow] at hrowj
            exact (Option.some_injective _ hrowj).symm
          refine ⟨a2, fromA2, j, i, ha2, ha2', hj, ?_, ?_, ?_⟩
          · rw [f5, hMI, Function.update_noteq hfe, if_neg hcase, ← hflast,
              Function.update_same]
          · intro id
            rw [hF2cols id, haeq, Option.isSome_map']
          · intro id col col' hcol hcol'
            have hcolc : cur.componentArrays id = some col := by
              rw [← haeq]
              exact hcol
            rw [hF2cols id, hcolc, Option.map_some'] at hcol'
            injection hcol' with hcol'
            have hclen := hs.cols_len key2 a2 id col ha2 hcol
            rw [haeq] at hclen
            rw [← hcol', if_neg hcase, getElem?_dropLast]
            rw [if_pos (by simp only [List.length_set]; omega)]
            rw [List.getElem?_set, if_pos rfl]
            rw [if_pos (by omega), hjlast]
            rw [getElem?_getD_of_lt _ _ (by omega)]
        · have hflast : f ≠ cur.entities.getD (cur.entities.length - 1)
              default :=
            hs.row_ne hcura hrowj hlastrow hjlast
          refine ⟨a2, fromA2, j, j, ha2, ha2', hj, ?_, ?_, ?_⟩
          · rw [f5, hMI, Function.update_noteq hfe, if_neg hcase,
              Function.update_noteq hflast, q4, g3]
            exact hj
          · intro id
            rw [hF2cols id, haeq, Option.isSome_map']
          · intro id col col' hcol hcol'
            have hcolc : cur.componentArrays id = some col := by
              rw [← haeq]
              exact hcol
            rw [hF2cols id, hcolc, Option.map_some'] at hcol'
            injection hcol' with hcol'
            have hclen := hs.cols_len key2 a2 id col ha2 hcol
            rw [haeq] at hclen
            rw [← hcol', if_neg hcase, getElem?_dropLast]
            rw [if_pos (by simp only [List.length_set]; omega)]
            rw [List.getElem?_set, if_neg (fun h => hij h.symm)]
    · have hflast : f ≠ cur.entities.getD (cur.entities.length - 1) default := by
        intro hef
        rw [← hef] at hlastloc
        rw [hfk2] at hlastloc
        injection hlastloc with h
        exact hk1 h
      have hIeq : (scheduleQueryCacheInvalidation s1).entityToIndex f =
          s.entityToIndex f := by
        rw [f5, hMI, Function.update_noteq hfe]
        by_cases hcase : i = cur.entities.length - 1
        · rw [if_pos hcase, q4, g3]
        · rw [if_neg hcase, Function.update_noteq hflast, q4, g3]
      by_cases hk2 : key2 = nsig
      · have haN : s.archetypes nsig = some a2 := by
          rw [← hk2]
          exact ha2
        have hS2eq : getOrCreateArchetype (getComponentId s k).1 nsig =
            ((getComponentId s k).1, nsig) :=
          getOrCreateArchetype_existing _ _ (by rw [g1]; exact haN)
        have htoAeq : toA = a2 := by
          have h1 : S2.archetypes nsig = some a2 := by
            rw [hS2def, hS2eq]
            show (getComponentId s k).1.archetypes nsig = some a2
            rw [g1]
            exact haN
          rw [htoA] at h1
          exact Option.some_injective _ h1
        have ha2' : (scheduleQueryCacheInvalidation s1).archetypes key2 =
            some toA2 := by
          rw [hk2, f3]
          exact hTo2
        have hjn : j < a2.entities.length := (List.getElem?_eq_some.mp hrowj).1
        refine ⟨a2, toA2, j, j, ha2, ha2', hj, ?_, ?_, ?_⟩
        · rw [hIeq]
          exact hj
        · intro id
          rw [hTo2cols id, htoAeq, Option.isSome_map']
        · intro id col col' hcol hcol'
          have hcolc : toA.componentArrays id = some col := by
            rw [htoAeq]
            exact hcol
          rw [hTo2cols id, hcolc, Option.map_some'] at hcol'
          injection hcol' with hcol'
          have hclen := hs.cols_len key2 a2 id col ha2 hcol
          rw [← hcol']
          split
          · rw [getElem?_append_left' _ _ _ (by omega)]
          · rfl
      · have ha2' : (scheduleQueryCacheInvalidation s1).archetypes key2 =
            some a2 := by
          rw [f3, hMothers key2 hk1 hk2, hqother key2 hk2, g1]
          exact ha2
        refine ⟨a2, a2, j, j, ha2, ha2', hj, ?_, fun id => rfl, ?_⟩
        · rw [hIeq]
          exact hj
        · intro id col col' hcol hcol'
          rw [hcol] at hcol'
          injection hcol' with hcol'
          rw [hcol']
  · rw [f8]
    exact hbatch1
  · rw [f2, hm2, q2, hs0eq]
  · rw [f1, hm1, q1, hs0eq]
  · intro f hfe
    rw [f4, hME, Function.update_noteq hfe, q3, g2]

lemma wf_getComponentId (s : CMState K V) (k : K) (hs : WF s) :
    WF (getComponentId s k).1 :=
  ⟨wfcore_getComponentId s k hs.1, cacheInv_getComponentId s k hs.2⟩

/-- `removeComponent` preserves the full invariant. -/
lemma wf_removeComponent (s : CMState K V) (e : Nat) (k : K) (hs : WF s) :
    WF (removeComponent s e k).1 := by
  obtain ⟨hc, hci⟩ := hs
  cases hcur : s.entityToArchetype e with
  | none =>
    rw [removeComponent_noarch s e k hcur]
    exact ⟨hc, hci⟩
  | some curKey =>
    obtain ⟨cur, i, hcura, hidx, hrow⟩ : ∃ cur i,
        s.archetypes curKey = some cur ∧ s.entityToIndex e = some i ∧
        cur.entities[i]? = some e := by
      obtain ⟨a, i, ha, hi, hr⟩ := hc.loc e curKey hcur
      exact ⟨a, i, ha, hi, hr⟩
    have hcura0 : (getComponentId s k).1.archetypes curKey = some cur := by
      rw [(getComponentId_unchanged s k).1]
      exact hcura
    cases hhas : (cur.componentArrays (getComponentId s k).2).isSome with
    | false =>
      have hlacks := (isSome_eq_false_iff _).mp hhas
      rw [removeComponent_lacks s e k hcur hcura0 hlacks]
      exact wf_getComponentId s k ⟨hc, hci⟩
    | true =>
      by_cases hemp : (cur.signature.filter
          (fun id => id ≠ (getComponentId s k).2)).length = 0
      · rw [removeComponent_empty_heq s e k hcur hcura0 hhas hemp]
        dsimp only
        have h1 := wf_removeAllComponents (getComponentId s k).1 e
          (wf_getComponentId s k ⟨hc, hci⟩)
        exact ⟨wfcore_schedule _ h1.1, cacheInv_schedule _⟩
      · obtain ⟨h1, h2, _⟩ :=
          removeComponent_migrate_spec s e k hc hcur hcura hidx hrow hhas hemp
        exact ⟨h1, h2⟩

lemma getComponent_state (s : CMState K V) (e : Nat) (k : K) :
    (getComponent s e k).1 = s ∨
    (getComponent s e k).1 = (getComponentId s k).1 := by
  unfold getComponent
  cases hcur : s.entityToArchetype e with
  | none => exact Or.inl rfl
  | some key =>
    dsimp only
    cases ha : s.archetypes key with
    | none => exact Or.inl rfl
    | some a =>
      dsimp only
      cases hcol : a.componentArrays (getComponentId s k).2 with
      | none => exact Or.inr rfl
      | some col =>
        dsimp only
        cases hidx : (getComponentId s k).1.entityToIndex e with
        | none => exact Or.inr rfl
        | some i => exact Or.inr rfl

lemma wf_getComponent (s : CMState K V) (e : Nat) (k : K) (hs : WF s) :
    WF (getComponent s e k).1 := by
  rcases getComponent_state s e k with h | h <;> rw [h]
  · exact hs
  · exact wf_getComponentId s k hs

lemma hasComponent_state (s : CMState K V) (e : Nat) (k : K) :
    (hasComponent s e k).1 = s ∨
    (hasComponent s e k).1 = (getComponentId s k).1 := by
  unfold hasComponent
  cases hcur : s.entityToArchetype e with
  | none => exact Or.inl rfl
  | some key =>
    dsimp only
    cases ha : s.archetypes key with
    | none => exact Or.inl rfl
    | some a => exact Or.inr rfl

lemma wf_hasComponent (s : CMState K V) (e : Nat) (k : K) (hs : WF s) :
    WF (hasComponent s e k).1 := by
  rcases hasComponent_state s e k with h | h <;> rw [h]
  · exact hs
  · exact wf_getComponentId s k hs

lemma getEntitiesWithComponent_state (s : CMState K V) (k : K) :
    (getEntitiesWithComponent s k).1 = (getComponentId s k).1 := by
  simp only [getEntitiesWithComponent]
  cases h : (getComponentId s k).1.archetypesByComponentId (getComponentId s k).2 with
  | none => rfl
  | some keys =>
    dsimp only
    split <;> rfl

lemma wf_getEntitiesWithComponent (s : CMState K V) (k : K) (hs : WF s) :
    WF (getEntitiesWithComponent s k).1 := by
  rw [getEntitiesWithComponent_state]
  exact wf_getComponentId s k hs

lemma wf_startBatch (s : CMState K V) (hs : WF s) : WF (startBatch s) :=
  ⟨wfcore_startBatch s hs.1, cacheInv_startBatch s hs.2⟩

lemma wf_endBatch (s : CMState K V) (hs : WF s) : WF (endBatch s) :=
  ⟨wfcore_endBatch s hs.1, cacheInv_endBatch s hs.2⟩

lemma wf_clearQueryCache (s : CMState K V) (hs : WF s) : WF (clearQueryCache s) :=
  ⟨wfcore_clearQueryCache s hs.1, cacheInv_clearQueryCache s⟩

/-! ### Query recomputation -/

lemma ufold_sig (s : CMState K V) (keys : List (List Nat)) (c : QueryCacheData) :
    (keys.foldl (fun c key =>
      match s.archetypes key with
      | none => c
      | some a =>
        if c.signature.all (fun id => (a.componentArrays id).isSome) then
          { c with
            archetypes := setAdd c.archetypes key
            entities := c.entities ++ a.entities }
        else c) c).signature = c.signature := by
  induction keys generalizing c with
  | nil => rfl
  | cons key keys ih =>
    rw [List.foldl_cons, ih]
    cases s.archetypes key with
    | none => rfl
    | some a =>
      dsimp only
      split <;> rfl

lemma ufold_mem (s : CMState K V) (keys : List (List Nat)) (c : QueryCacheData)
    (f : Nat) :
    f ∈ (keys.foldl (fun c key =>
      match s.archetypes key with
      | none => c
      | some a =>
        if c.signature.all (fun id => (a.componentArrays id).isSome) then
          { c with
            archetypes := setAdd c.archetypes key
            entities := c.entities ++ a.entities }
        else c) c).entities ↔
    (f ∈ c.entities ∨ ∃ key a, key ∈ keys ∧ s.archetypes key = some a ∧
      c.signature.all (fun id => (a.componentArrays id).isSome) = true ∧
      f ∈ a.entities) := by
  induction keys generalizing c with
  | nil => simp
  | cons key keys ih =>
    rw [List.foldl_cons]
    cases ha : s.archetypes key with
    | none =>
      show f ∈ (keys.foldl _ c).entities ↔ _
      rw [ih c]
      constructor
      · rintro (h | ⟨key', a', hk', ha', hall', hf'⟩)
        · exact Or.inl h
        · exact Or.inr ⟨key', a', List.mem_cons_of_mem key hk', ha', hall', hf'⟩
      · rintro (h | ⟨key', a', hk', ha', hall', hf'⟩)
        · exact Or.inl h
        · rcases List.mem_cons.mp hk' with rfl | hk2
          · rw [ha] at ha'
            cases ha'
          · exact Or.inr ⟨key', a', hk2, ha', hall', hf'⟩
    | some a =>
      dsimp only
      by_cases hall : c.signature.all (fun id => (a.componentArrays id).isSome) = true
      · rw [if_pos hall, ih]
        constructor
        · rintro (h | ⟨key', a', hk', ha', hall', hf'⟩)
          · rcases List.mem_append.mp h with h1 | h2
            · exact Or.inl h1
            · exact Or.inr ⟨key, a, List.mem_cons_self key keys, ha, hall, h2⟩
          · exact Or.inr ⟨key', a', List.mem_cons_of_mem key hk',
              ha', by rw [← hall'], hf'⟩
        · rintro (h | ⟨key', a', hk', ha', hall', hf'⟩)
          · exact Or.inl (List.mem_append.mpr (Or.inl h))
          · rcases List.mem_cons.mp hk' with rfl | hk2
            · rw [ha] at ha'
              injection ha' with ha'
              subst ha'
              exact Or.inl (List.mem_append.mpr (Or.inr hf'))
            · exact Or.inr ⟨key', a', hk2, ha', by rw [← hall'], hf'⟩
      · rw [if_neg hall, ih]
        constructor
        · rintro (h | ⟨key', a', hk', ha', hall', hf'⟩)
          · exact Or.inl h
          · exact Or.inr ⟨key', a', List.mem_cons_of_mem key hk', ha', hall', hf'⟩
        · rintro (h | ⟨key', a', hk', ha', hall', hf'⟩)
          · exact Or.inl h
          · rcases List.mem_cons.mp hk' with rfl | hk2
            · rw [ha] at ha'
              injection ha' with ha'
              subst ha'
              exact absurd hall' hall
            · exact Or.inr ⟨key', a', hk2, ha', hall', hf'⟩

lemma ufold_nodup (s : CMState K V) (hs : WFcore s) (keys : List (List Nat))
    (c : QueryCacheData) (hknd : keys.Nodup) (hcnd : c.entities.Nodup)
    (hdisj : ∀ key a f, key ∈ keys → s.archetypes key = some a →
      f ∈ a.entities → f ∉ c.entities) :
    (keys.foldl (fun c key =>
      match s.archetypes key with
      | none => c
      | some a =>
        if c.signature.all (fun id => (a.componentArrays id).isSome) then
          { c with
            archetypes := setAdd c.archetypes key
            entities := c.entities ++ a.entities }
        else c) c).entities.Nodup := by
  induction keys generalizing c with
  | nil => exact hcnd
  | cons key keys ih =>
    rw [List.foldl_cons]
    have hknd2 : keys.Nodup := (List.nodup_cons.mp hknd).2
    have hknotin : key ∉ keys := (List.nodup_cons.mp hknd).1
    cases ha : s.archetypes key with
    | none =>
      exact ih c hknd2 hcnd
        (fun key' a' f hk' ha' hf' => hdisj key' a' f
          (List.mem_cons_of_mem key hk') ha' hf')
    | some a =>
      dsimp only
      by_cases hall : c.signature.all (fun id => (a.componentArrays id).isSome) = true
      · rw [if_pos hall]
        refine ih _ hknd2 ?_ ?_
        · show (c.entities ++ a.entities).Nodup
          refine List.Nodup.append hcnd (hs.entities_nodup ha) ?_
          intro f hf1 hf2
          exact hdisj key a f (List.mem_cons_self key keys) ha hf2 hf1
        · intro key' a' f hk' ha' hf'
          show f ∉ c.entities ++ a.entities
          intro hf2
          rcases List.mem_append.mp hf2 with h1 | h2
          · exact hdisj key' a' f (List.mem_cons_of_mem key hk') ha' hf' h1
          · have hkeq : key' = key :=
              hs.mem_unique ha' ha hf' h2
            rw [hkeq] at hk'
            exact hknotin hk'
      · rw [if_neg hall]
        exact ih c hknd2 hcnd
          (fun key' a' f hk' ha' hf' => hdisj key' a' f
            (List.mem_cons_of_mem key hk') ha' hf')

/-- Recomputing a cache entry yields a clean, accurate entry and leaves
everything but that entry unchanged. -/
lemma updateQueryCacheOptimized_spec (s : CMState K V) (hs : WFcore s)
    (cacheKey : List Nat) {cache : QueryCacheData}
    (hqc : s.queryCache cacheKey = some cache) :
    WFcore (updateQueryCacheOptimized s cacheKey) ∧
    (updateQueryCacheOptimized s cacheKey).archetypes = s.archetypes ∧
    (updateQueryCacheOptimized s cacheKey).entityToArchetype =
      s.entityToArchetype ∧
    (updateQueryCacheOptimized s cacheKey).entityToIndex = s.entityToIndex ∧
    (updateQueryCacheOptimized s cacheKey).componentIdCounter =
      s.componentIdCounter ∧
    (updateQueryCacheOptimized s cacheKey).componentClassToId =
      s.componentClassToId ∧
    (updateQueryCacheOptimized s cacheKey).batchInvalidation =
      s.batchInvalidation ∧
    (updateQueryCacheOptimized s cacheKey).pendingCacheInvalidation =
      s.pendingCacheInvalidation ∧
    (∀ key', key' ≠ cacheKey →
      (updateQueryCacheOptimized s cacheKey).queryCache key' =
        s.queryCache key') ∧
    (∃ c', (updateQueryCacheOptimized s cacheKey).queryCache cacheKey =
        some c' ∧
      c'.needsUpdate = false ∧ c'.signature = cacheKey ∧ CacheAccurate s c') := by
  have hsig : cache.signature = cacheKey := hs.cache_sig cacheKey cache hqc
  have hkne : cacheKey ≠ [] := hs.cache_ne cacheKey cache hqc
  obtain ⟨fid, rest, hck⟩ := List.exists_cons_of_ne_nil hkne
  have hfid_mem : fid ∈ cacheKey := by
    rw [hck]
    exact List.mem_cons_self fid rest
  have hfid_lt : fid < s.componentIdCounter :=
    hs.cache_ids_lt cacheKey cache hqc fid hfid_mem
  have hidx_some : (s.archetypesByComponentId fid).isSome = true :=
    (hs.index_dom fid).mpr hfid_lt
  obtain ⟨keys, hkeys⟩ := Option.isSome_iff_exists.mp hidx_some
  obtain ⟨hkspec, hknd⟩ := hs.index_spec fid keys hkeys
  have hhead : cache.signature.head? = some fid := by
    rw [hsig, hck]
    rfl
  simp only [updateQueryCacheOptimized, hqc]
  rw [hhead]
  dsimp only
  rw [hkeys]
  dsimp only
  set c0 : QueryCacheData :=
    { signature := cache.signature, entities := [],
      archetypes := [], needsUpdate := cache.needsUpdate } with hc0d
  set C1 : QueryCacheData := keys.foldl (fun c key =>
    match s.archetypes key with
    | none => c
    | some a =>
      if c.signature.all (fun id => (a.componentArrays id).isSome) then
        { c with
          archetypes := setAdd c.archetypes key
          entities := c.entities ++ a.entities }
      else c) c0 with hC1d
  set C2 : QueryCacheData := { C1 with needsUpdate := false } with hC2d
  have hC1sig : C1.signature = cacheKey := by
    rw [hC1d, ufold_sig, hc0d]
    exact hsig
  have hC1mem : ∀ f, f ∈ C1.entities ↔ MatchesQuery s cacheKey f := by
    intro f
    rw [hC1d, ufold_mem]
    constructor
    · rintro (h | ⟨key, a, hk, ha, hall, hf⟩)
      · rw [hc0d] at h
        exact absurd h (List.not_mem_nil f)
      · refine ⟨key, a, ha, ?_, hf⟩
        intro id hid
        have h1 := (List.all_eq_true.mp hall) id
          (by rw [hc0d]; show id ∈ cache.signature; rw [hsig]; exact hid)
        exact (hs.cols_dom key a id ha).mp h1
    · rintro ⟨key, a, ha, hsub, hf⟩
      refine Or.inr ⟨key, a, ?_, ha, ?_, hf⟩
      · rw [hkspec key]
        exact ⟨a, ha, hsub fid hfid_mem⟩
      · rw [List.all_eq_true]
        intro id hid
        have hid2 : id ∈ cacheKey := by
          rw [hc0d] at hid
          show id ∈ cacheKey
          rw [← hsig]
          exact hid
        exact (hs.cols_dom key a id ha).mpr (hsub id hid2)
  have hC1nd : C1.entities.Nodup := by
    rw [hC1d]
    refine ufold_nodup s hs keys c0 hknd ?_ ?_
    · rw [hc0d]
      exact List.nodup_nil
    · intro key a f hk ha hf
      rw [hc0d]
      exact List.not_mem_nil f
  refine ⟨?_, rfl, rfl, rfl, rfl, rfl, rfl, rfl, ?_, ?_⟩
  · constructor
    case toId_lt => exact hs.toId_lt
    case toId_inj => exact hs.toId_inj
    case index_dom => exact hs.index_dom
    case pool_dom => exact hs.pool_dom
    case arch_sig => exact hs.arch_sig
    case arch_sorted => exact hs.arch_sorted
    case arch_ids_lt => exact hs.arch_ids_lt
    case cols_dom => exact hs.cols_dom
    case cols_len => exact hs.cols_len
    case loc => exact hs.loc
    case idx_loc => exact hs.idx_loc
    case row_loc => exact hs.row_loc
    case index_spec => exact hs.index_spec
    case cache_sig =>
      intro key' c' hc'
      show c'.signature = key'
      by_cases hk : key' = cacheKey
      · subst hk
        have hc2 : Function.update s.queryCache key' (some C2) key' = some c' := hc'
        rw [Function.update_same] at hc2
        injection hc2 with hc2
        rw [← hc2]
        show C1.signature = key'
        exact hC1sig
      · have hc2 : Function.update s.queryCache cacheKey (some C2) key' = some c' := hc'
        rw [Function.update_noteq hk] at hc2
        exact hs.cache_sig key' c' hc2
    case cache_sorted =>
      intro key' c' hc'
      by_cases hk : key' = cacheKey
      · subst hk
        exact hs.cache_sorted key' cache hqc
      · have hc2 : Function.update s.queryCache cacheKey (some C2) key' = some c' := hc'
        rw [Function.update_noteq hk] at hc2
        exact hs.cache_sorted key' c' hc2
    case cache_ne =>
      intro key' c' hc'
      by_cases hk : key' = cacheKey
      · subst hk
        exact hkne
      · have hc2 : Function.update s.queryCache cacheKey (some C2) key' = some c' := hc'
        rw [Function.update_noteq hk] at hc2
        exact hs.cache_ne key' c' hc2
    case cache_ids_lt =>
      intro key' c' hc'
      by_cases hk : key' = cacheKey
      · subst hk
        exact hs.cache_ids_lt key' cache hqc
      · have hc2 : Function.update s.queryCache cacheKey (some C2) key' = some c' := hc'
        rw [Function.update_noteq hk] at hc2
        exact hs.cache_ids_lt key' c' hc2
    case pending_batch => exact hs.pending_batch
  · intro key' hk'
    exact Function.update_noteq hk' _ _
  · refine ⟨C2, Function.update_same _ _ _, rfl, ?_, ?_, hC1nd⟩
    · show C1.signature = cacheKey
      exact hC1sig
    · intro f
      show f ∈ C1.entities ↔ MatchesQuery s C2.signature f
      rw [show C2.signature = cacheKey from hC1sig]
      exact hC1mem f

lemma getComponentIds_fold (L : List K) :
    ∀ (s : CMState K V) (acc : List Nat), WF s →
    (∀ id ∈ acc, id < s.componentIdCounter) →
    WF (L.foldl (fun acc componentClass =>
        let p := getComponentId acc.1 componentClass
        (p.1, acc.2 ++ [p.2])) (s, acc)).1 ∧
    (L.foldl (fun acc componentClass =>
        let p := getComponentId acc.1 componentClass
        (p.1, acc.2 ++ [p.2])) (s, acc)).1.archetypes = s.archetypes ∧
    (L.foldl (fun acc componentClass =>
        let p := getComponentId acc.1 componentClass
        (p.1, acc.2 ++ [p.2])) (s, acc)).1.entityToArchetype =
      s.entityToArchetype ∧
    (L.foldl (fun acc componentClass =>
        let p := getComponentId acc.1 componentClass
        (p.1, acc.2 ++ [p.2])) (s, acc)).1.entityToIndex = s.entityToIndex ∧
    (L.foldl (fun acc componentClass =>
        let p := getComponentId acc.1 componentClass
        (p.1, acc.2 ++ [p.2])) (s, acc)).1.queryCache = s.queryCache ∧
    (L.foldl (fun acc componentClass =>
        let p := getComponentId acc.1 componentClass
        (p.1, acc.2 ++ [p.2])) (s, acc)).1.batchInvalidation =
      s.batchInvalidation ∧
    (L.foldl (fun acc componentClass =>
        let p := getComponentId acc.1 componentClass
        (p.1, acc.2 ++ [p.2])) (s, acc)).1.pendingCacheInvalidation =
      s.pendingCacheInvalidation ∧
    (L.foldl (fun acc componentClass =>
        let p := getComponentId acc.1 componentClass
        (p.1, acc.2 ++ [p.2])) (s, acc)).2.length = acc.length + L.length ∧
    (∀ id ∈ (L.foldl (fun acc componentClass =>
        let p := getComponentId acc.1 componentClass
        (p.1, acc.2 ++ [p.2])) (s, acc)).2,
      id < (L.foldl (fun acc componentClass =>
        let p := getComponentId acc.1 componentClass
        (p.1, acc.2 ++ [p.2])) (s, acc)).1.componentIdCounter) := by
  induction L with
  | nil =>
    intro s acc hs hacc
    exact ⟨hs, rfl, rfl, rfl, rfl, rfl, rfl, by simp, hacc⟩
  | cons k L ih =>
    intro s acc hs hacc
    rw [List.foldl_cons]
    obtain ⟨g1, g2, g3, g4, g5, g6⟩ := getComponentId_unchanged s k
    have hwf1 : WF (getComponentId s k).1 := wf_getComponentId s k hs
    have hacc1 : ∀ id ∈ acc ++ [(getComponentId s k).2],
        id < (getComponentId s k).1.componentIdCounter := by
      intro id hid
      rcases List.mem_append.mp hid with h1 | h2
      · have := hacc id h1
        have := getComponentId_counter_le s k
        omega
      · rw [List.mem_singleton] at h2
        rw [h2]
        exact getComponentId_id_lt s k hs.1
    obtain ⟨a1, a2, a3, a4, a5, a6, a7, a8, a9⟩ :=
      ih (getComponentId s k).1 (acc ++ [(getComponentId s k).2]) hwf1 hacc1
    refine ⟨a1, ?_, ?_, ?_, ?_, ?_, ?_, ?_, a9⟩
    · rw [a2, g1]
    · rw [a3, g2]
    · rw [a4, g3]
    · rw [a5, g4]
    · rw [a6, g5]
    · rw [a7, g6]
    · rw [a8, List.length_append]
      simp only [List.length_singleton, List.length_cons, List.length_nil]
      omega

lemma getComponentIds_spec (s : CMState K V) (L : List K) (hs : WF s) :
    WF (getComponentIds s L).1 ∧
    (getComponentIds s L).1.archetypes = s.archetypes ∧
    (getComponentIds s L).1.entityToArchetype = s.entityToArchetype ∧
    (getComponentIds s L).1.entityToIndex = s.entityToIndex ∧
    (getComponentIds s L).1.queryCache = s.queryCache ∧
    (getComponentIds s L).1.batchInvalidation = s.batchInvalidation ∧
    (getComponentIds s L).1.pendingCacheInvalidation =
      s.pendingCacheInvalidation ∧
    (getComponentIds s L).2.length = L.length ∧
    (∀ id ∈ (getComponentIds s L).2,
      id < (getComponentIds s L).1.componentIdCounter) := by
  simp only [getComponentIds]
  obtain ⟨a1, a2, a3, a4, a5, a6, a7, a8, a9⟩ :=
    getComponentIds_fold L s [] hs (by simp)
  exact ⟨a1, a2, a3, a4, a5, a6, a7, by rw [a8]; simp, a9⟩

lemma cacheAccurate_transfer {s s' : CMState K V}
    (ha : s'.archetypes = s.archetypes) {c : QueryCacheData}
    (h : CacheAccurate s c) : CacheAccurate s' c := by
  obtain ⟨h1, h2⟩ := h
  refine ⟨?_, h2⟩
  intro f
  rw [h1 f]
  unfold MatchesQuery
  rw [ha]

lemma cacheInv_transfer (s s' : CMState K V)
    (ha : s'.archetypes = s.archetypes)
    (hp : s'.pendingCacheInvalidation = s.pendingCacheInvalidation)
    (key0 : List Nat)
    (hkey0 : ∀ key', key' ≠ key0 → s'.queryCache key' = s.queryCache key')
    (h0 : ∀ c, s'.queryCache key0 = some c → c.needsUpdate = false →
      CacheAccurate s' c)
    (hci : CacheInv s) : CacheInv s' := by
  rcases hci with hpend | hacc
  · exact Or.inl (by rw [hp]; exact hpend)
  · refine Or.inr ?_
    intro key c hc hcl
    by_cases hk : key = key0
    · subst hk
      exact h0 c hc hcl
    · rw [hkey0 key hk] at hc
      exact cacheAccurate_transfer ha (hacc key c hc hcl)

/-- Preservation and output accuracy of the cached multi-type query: the
store state keeps its data intact, and outside a batch the output lists
exactly the entities whose archetype covers the canonical id set. -/
lemma getEntitiesWithComponents_spec (s : CMState K V) (L : List K)
    (hs : WF s) (hL : ¬ (L.length = 0)) :
    WF (getEntitiesWithComponents s L).1 ∧
    (getEntitiesWithComponents s L).1.archetypes = s.archetypes ∧
    (getEntitiesWithComponents s L).1.entityToArchetype =
      s.entityToArchetype ∧
    (getEntitiesWithComponents s L).1.entityToIndex = s.entityToIndex ∧
    (getEntitiesWithComponents s L).1.batchInvalidation =
      s.batchInvalidation ∧
    (getEntitiesWithComponents s L).1.pendingCacheInvalidation =
      s.pendingCacheInvalidation ∧
    (s.batchInvalidation = false →
      (∀ f, f ∈ (getEntitiesWithComponents s L).2 ↔
        MatchesQuery s (sortIds (getComponentIds s L).2) f) ∧
      (getEntitiesWithComponents s L).2.Nodup) := by
  obtain ⟨hwfp, p2, p3, p4, p5, p6, p7, plen, plt⟩ := getComponentIds_spec s L hs
  have hkne : sortIds (getComponentIds s L).2 ≠ [] := by
    intro h
    have h1 := congrArg List.length h
    rw [List.length_nil, (sortIds_perm (getComponentIds s L).2).length_eq,
      plen] at h1
    exact hL h1
  have hsorted : List.Sorted (· ≤ ·) (sortIds (getComponentIds s L).2) :=
    sortIds_sorted (getComponentIds s L).2
  have hlt2 : ∀ id ∈ sortIds (getComponentIds s L).2,
      id < (getComponentIds s L).1.componentIdCounter :=
    fun id hid => plt id (mem_sortIds.mp hid)
  have hpend_of : s.batchInvalidation = false →
      s.pendingCacheInvalidation = false := by
    intro hb
    cases hp : s.pendingCacheInvalidation with
    | false => rfl
    | true =>
      have := hs.1.pending_batch hp
      rw [hb] at this
      cases this
  simp only [getEntitiesWithComponents, if_neg hL]
  cases hq1 : (getComponentIds s L).1.queryCache
      (sortIds (getComponentIds s L).2) with
  | some c =>
    dsimp only
    have hcsig : c.signature = sortIds (getComponentIds s L).2 :=
      hwfp.1.cache_sig _ c hq1
    cases hnu : c.needsUpdate with
    | true =>
      rw [hq1]
      dsimp only
      rw [hnu, if_pos rfl]
      obtain ⟨u1, u2, u3, u4, u5, u6, u7, u8, u9, c', huc, hucl, hucsig, hacc⟩ :=
        updateQueryCacheOptimized_spec (getComponentIds s L).1 hwfp.1
          (sortIds (getComponentIds s L).2) hq1
      rw [huc]
      dsimp only
      have harch : (updateQueryCacheOptimized (getComponentIds s L).1
          (sortIds (getComponentIds s L).2)).archetypes = s.archetypes := by
        rw [u2, p2]
      refine ⟨⟨u1, ?_⟩, harch, by rw [u3, p3], by rw [u4, p4],
        by rw [u7, p6], by rw [u8, p7], ?_⟩
      · refine cacheInv_transfer (getComponentIds s L).1 _ u2 u8
          (sortIds (getComponentIds s L).2) u9 ?_ hwfp.2
        intro c2 hc2 _
        rw [huc] at hc2
        injection hc2 with hc2
        rw [← hc2]
        exact cacheAccurate_transfer u2 hacc
      · intro _
        refine ⟨?_, hacc.2⟩
        intro f
        rw [hacc.1 f, hucsig]
        unfold MatchesQuery
        rw [p2]
    | false =>
      rw [hq1]
      dsimp only
      rw [hnu, if_neg (by simp)]
      rw [hq1]
      dsimp only
      refine ⟨hwfp, p2, p3, p4, p6, p7, ?_⟩
      intro hb
      have hpendp : (getComponentIds s L).1.pendingCacheInvalidation = false := by
        rw [p7]
        exact hpend_of hb
      rcases hwfp.2 with hpend | hacc
      · rw [hpendp] at hpend
        cases hpend
      · obtain ⟨h1, h2⟩ := hacc _ c hq1 hnu
        refine ⟨?_, h2⟩
        intro f
        rw [h1 f, hcsig]
        unfold MatchesQuery
        rw [p2]
  | none =>
    dsimp only
    rw [Function.update_same]
    dsimp only
    rw [if_pos rfl]
    have hwf1 : WFcore ({ (getComponentIds s L).1 with
        queryCache := Function.update (getComponentIds s L).1.queryCache
          (sortIds (getComponentIds s L).2)
          (some { signature := sortIds (getComponentIds s L).2, entities := [],
                  archetypes := [], needsUpdate := true }) } : CMState K V) := by
      constructor
      case toId_lt => exact hwfp.1.toId_lt
      case toId_inj => exact hwfp.1.toId_inj
      case index_dom => exact hwfp.1.index_dom
      case pool_dom => exact hwfp.1.pool_dom
      case arch_sig => exact hwfp.1.arch_sig
      case arch_sorted => exact hwfp.1.arch_sorted
      case arch_ids_lt => exact hwfp.1.arch_ids_lt
      case cols_dom => exact hwfp.1.cols_dom
      case cols_len => exact hwfp.1.cols_len
      case loc => exact hwfp.1.loc
      case idx_loc => exact hwfp.1.idx_loc
      case row_loc => exact hwfp.1.row_loc
      case index_spec => exact hwfp.1.index_spec
      case cache_sig =>
        intro key' c' hc'
        by_cases hk : key' = sortIds (getComponentIds s L).2
        · subst hk
          have hc2 : Function.update (getComponentIds s L).1.queryCache
              (sortIds (getComponentIds s L).2)
              (some { signature := sortIds (getComponentIds s L).2,
                      entities := [], archetypes := [],
                      needsUpdate := true })
              (sortIds (getComponentIds s L).2) = some c' := hc'
          rw [Function.update_same] at hc2
          injection hc2 with hc2
          rw [← hc2]
        · have hc2 : Function.update (getComponentIds s L).1.queryCache
              (sortIds (getComponentIds s L).2)
              (some { signature := sortIds (getComponentIds s L).2,
                      entities := [], archetypes := [],
                      needsUpdate := true }) key' = some c' := hc'
          rw [Function.update_noteq hk] at hc2
          exact hwfp.1.cache_sig key' c' hc2
      case cache_sorted =>
        intro key' c' hc'
        by_cases hk : key' = sortIds (getComponentIds s L).2
        · subst hk
          exact hsorted
        · have hc2 : Function.update (getComponentIds s L).1.queryCache
              (sortIds (getComponentIds s L).2)
              (some { signature := sortIds (getComponentIds s L).2,
                      entities := [], archetypes := [],
                      needsUpdate := true }) key' = some c' := hc'
          rw [Function.update_noteq hk] at hc2
          exact hwfp.1.cache_sorted key' c' hc2
      case cache_ne =>
        intro key' c' hc'
        by_cases hk : key' = sortIds (getComponentIds s L).2
        · subst hk
          exact hkne
        · have hc2 : Function.update (getComponentIds s L).1.queryCache
              (sortIds (getComponentIds s L).2)
              (some { signature := sortIds (getComponentIds s L).2,
                      entities := [], archetypes := [],
                      needsUpdate := true }) key' = some c' := hc'
          rw [Function.update_noteq hk] at hc2
          exact hwfp.1.cache_ne key' c' hc2
      case cache_ids_lt =>
        intro key' c' hc'
        by_cases hk : key' = sortIds (getComponentIds s L).2
        · subst hk
          exact hlt2
        · have hc2 : Function.update (getComponentIds s L).1.queryCache
              (sortIds (getComponentIds s L).2)
              (some { signature := sortIds (getComponentIds s L).2,
                      entities := [], archetypes := [],
                      needsUpdate := true }) key' = some c' := hc'
          rw [Function.update_noteq hk] at hc2
          exact hwfp.1.cache_ids_lt key' c' hc2
      case pending_batch => exact hwfp.1.pending_batch
    have hq1b : ({ (getComponentIds s L).1 with
        queryCache := Function.update (getComponentIds s L).1.queryCache
          (sortIds (getComponentIds s L).2)
          (some { signature := sortIds (getComponentIds s L).2, entities := [],
                  archetypes := [], needsUpdate := true }) } :
        CMState K V).queryCache (sortIds (getComponentIds s L).2) =
        some { signature := sortIds (getComponentIds s L).2, entities := [],
               archetypes := [], needsUpdate := true } :=
      Function.update_same _ _ _
    obtain ⟨u1, u2, u3, u4, u5, u6, u7, u8, u9, c', huc, hucl, hucsig, hacc⟩ :=
      updateQueryCacheOptimized_spec _ hwf1 (sortIds (getComponentIds s L).2) hq1b
    dsimp only at huc u2 u3 u4 u7 u8 u9
    rw [huc]
    dsimp only
    have harchm : ({ (getComponentIds s L).1 with
        queryCache := Function.update (getComponentIds s L).1.queryCache
          (sortIds (getComponentIds s L).2)
          (some { signature := sortIds (getComponentIds s L).2, entities := [],
                  archetypes := [], needsUpdate := true }) } :
        CMState K V).archetypes = s.archetypes := p2
    refine ⟨⟨u1, ?_⟩, by rw [u2]; try exact p2, by rw [u3]; try exact p3,
      by rw [u4]; try exact p4, by rw [u7]; try exact p6,
      by rw [u8]; try exact p7, ?_⟩
    · refine cacheInv_transfer (getComponentIds s L).1 _
        (by rw [u2]; try exact rfl) (by rw [u8]; try exact rfl)
        (sortIds (getComponentIds s L).2) ?_ ?_ hwfp.2
      · intro key' hk'
        rw [u9 key' hk']
        exact Function.update_noteq hk' _ _
      · intro c2 hc2 _
        have hc4 := huc.symm.trans hc2
        injection hc4 with hc4
        exact hc4 ▸ cacheAccurate_transfer u2 hacc
    · intro _
      refine ⟨?_, hacc.2⟩
      intro f
      rw [hacc.1 f, hucsig]
      unfold MatchesQuery
      dsimp only
      rw [p2]

lemma wf_getEntitiesWithComponents (s : CMState K V) (L : List K)
    (hs : WF s) : WF (getEntitiesWithComponents s L).1 := by
  by_cases hL : L.length = 0
  · rw [show getEntitiesWithComponents s L = (s, []) from by
      unfold getEntitiesWithComponents; rw [if_pos hL]]
    exact hs
  · exact (getEntitiesWithComponents_spec s L hs hL).1

/-- Every public operation preserves the invariant. -/
lemma wf_stepOp (s : CMState K V) (op : Op K V) (hs : WF s) :
    WF (stepOp s op) := by
  cases op with
  | add e k v => exact wf_addComponent s e k v hs
  | get e k => exact wf_getComponent s e k hs
  | has e k => exact wf_hasComponent s e k hs
  | remove e k => exact wf_removeComponent s e k hs
  | removeAll e => exact wf_removeAllComponents s e hs
  | queryAll ks => exact wf_getEntitiesWithComponents s ks hs
  | queryOne k => exact wf_getEntitiesWithComponent s k hs
  | startB => exact wf_startBatch s hs
  | endB => exact wf_endBatch s hs
  | clearCache => exact wf_clearQueryCache s hs

lemma wf_runOps (s : CMState K V) (ops : List (Op K V)) (hs : WF s) :
    WF (runOps s ops) := by
  induction ops generalizing s with
  | nil => exact hs
  | cons op ops ih => exact ih (stepOp s op) (wf_stepOp s op hs)

/-- Every reachable store state satisfies the invariant. -/
lemma wf_reachable {s : CMState K V} (h : Reachable s) : WF s := by
  obtain ⟨ops, hops⟩ := h
  rw [← hops]
  exact wf_runOps _ ops wf_init

/-- Two states that agree on registry, location and rows (modulo one
excluded entity) return identical component lookups. -/
lemma getComponent_agree (s s' : CMState K V) (e : Nat)
    (hclass : s'.componentClassToId = s.componentClassToId)
    (hcount : s'.componentIdCounter = s.componentIdCounter)
    (hEn : ∀ f, f ≠ e → s.entityToArchetype f = none →
      s'.entityToArchetype f = none)
    (hpres : ∀ (f : Nat) (key2 : List Nat), f ≠ e →
      s.entityToArchetype f = some key2 →
      s'.entityToArchetype f = some key2 ∧
      ∃ a2 a2' j j', s.archetypes key2 = some a2 ∧
        s'.archetypes key2 = some a2' ∧
        s.entityToIndex f = some j ∧ s'.entityToIndex f = some j' ∧
        (∀ id, (a2'.componentArrays id).isSome =
          (a2.componentArrays id).isSome) ∧
        (∀ id col col', a2.componentArrays id = some col →
          a2'.componentArrays id = some col' → col'[j']? = col[j]?)) :
    ∀ f, f ≠ e → ∀ k', (getComponent s' f k').2 = (getComponent s f k').2 := by
  intro f hfe k'
  have hid : (getComponentId s' k').2 = (getComponentId s k').2 := by
    unfold getComponentId
    rw [hclass]
    cases h : s.componentClassToId k' with
    | some id0 => rfl
    | none =>
      dsimp only
      rw [hcount]
  cases hE : s.entityToArchetype f with
  | none =>
    have hE' := hEn f hfe hE
    unfold getComponent
    rw [hE, hE']
  | some key2 =>
    obtain ⟨hE', a2, a2', j, j', ha2, ha2', hj, hj', hsome, hval⟩ :=
      hpres f key2 hfe hE
    obtain ⟨gg1, gg2, gg3, gg4, gg5, gg6⟩ := getComponentId_unchanged s k'
    obtain ⟨hh1, hh2, hh3, hh4, hh5, hh6⟩ := getComponentId_unchanged s' k'
    unfold getComponent
    rw [hE, hE']
    dsimp only
    rw [ha2, ha2']
    dsimp only
    cases hcol : a2.componentArrays (getComponentId s k').2 with
    | none =>
      have hcol2 : a2'.componentArrays (getComponentId s' k').2 = none := by
        rw [hid]
        apply (isSome_eq_false_iff _).mp
        rw [hsome, hcol]
        rfl
      rw [hcol2]
    | some col =>
      obtain ⟨col', hcol'⟩ : ∃ col',
          a2'.componentArrays (getComponentId s' k').2 = some col' := by
        rw [hid]
        apply Option.isSome_iff_exists.mp
        rw [hsome, hcol]
        rfl
      rw [hcol']
      dsimp only
      rw [hh3, hj', gg3, hj]
      dsimp only
      rw [hid] at hcol'
      exact hval _ col col' hcol hcol'

/-- `removeAllComponents` leaves every other entity's component lookups
unchanged. -/
lemma removeAllComponents_getComponent (s : CMState K V) (e : Nat)
    (hs : WF s) :
    ∀ f, f ≠ e → ∀ k',
      (getComponent (removeAllComponents s e) f k').2 =
      (getComponent s f k').2 := by
  cases hcur : s.entityToArchetype e with
  | none =>
    rw [removeAllComponents_noloc s e hcur]
    intro f _ k'
    rfl
  | some key =>
    obtain ⟨a, i, ha, hi, hr⟩ := hs.1.loc e key hcur
    obtain ⟨_, _, _, _, ⟨F, hFa, hFsig, hFents, hFcols, hFmem, hFtrack⟩,
      hoth, hEoth, hIoth2, hcls, hcnt, _, _, _⟩ :=
      removeAllComponents_spec s e hs.1 hcur ha hi hr
    apply getComponent_agree s (removeAllComponents s e) e hcls hcnt
    · intro f hfe hEn
      rw [hEoth f hfe]
      exact hEn
    · intro f key2 hfe hfk2
      refine ⟨by rw [hEoth f hfe]; exact hfk2, ?_⟩
      obtain ⟨a2, j, ha2, hj, hrowj⟩ := hs.1.loc f key2 hfk2
      by_cases hk : key2 = key
      · subst hk
        have haeq : a2 = a := Option.some_injective _ (ha2.symm.trans ha)
        rw [haeq] at hrowj
        obtain ⟨j', hj', hrow', hvals⟩ := hFtrack f j hfe hrowj
        refine ⟨a, F, j, j', ha, hFa, hj, hj', ?_, hvals⟩
        intro id
        rw [hFcols id, Option.isSome_map']
      · have ha2' : (removeAllComponents s e).archetypes key2 = some a2 := by
          rw [hoth key2 hk]
          exact ha2
        refine ⟨a2, a2, j, j, ha2, ha2', hj, ?_, fun id => rfl, ?_⟩
        · rw [hIoth2 f key2 hfe hfk2 hk]
          exact hj
        · intro id col col' hcol hcol'
          rw [hcol] at hcol'
          injection hcol' with hcol'
          rw [hcol']

lemma getComponentId_classToId_other (s : CMState K V) (k k' : K)
    (hne : k' ≠ k) :
    (getComponentId s k).1.componentClassToId k' =
      s.componentClassToId k' := by
  unfold getComponentId
  cases h : s.componentClassToId k with
  | some id => rfl
  | none =>
    dsimp only
    rw [Function.update_noteq hne]

lemma getComponentId_of_registered (s : CMState K V) (k : K) {id : Nat}
    (h : s.componentClassToId k = some id) : getComponentId s k = (s, id) := by
  unfold getComponentId
  rw [h]

/-- Characterization of `getComponent`. -/
lemma getComponent_char (s : CMState K V) (e : Nat) (k : K) (v : V) :
    (getComponent s e k).2 = some v ↔
    (∃ key a i col, s.entityToArchetype e = some key ∧
      s.archetypes key = some a ∧ s.entityToIndex e = some i ∧
      a.componentArrays (getComponentId s k).2 = some col ∧
      col[i]? = some v) := by
  obtain ⟨gg1, gg2, gg3, gg4, gg5, gg6⟩ := getComponentId_unchanged s k
  constructor
  · intro h
    unfold getComponent at h
    cases hE : s.entityToArchetype e with
    | none =>
      rw [hE] at h
      cases h
    | some key =>
      rw [hE] at h
      dsimp only at h
      cases ha : s.archetypes key with
      | none =>
        rw [ha] at h
        cases h
      | some a =>
        rw [ha] at h
        dsimp only at h
        cases hcol : a.componentArrays (getComponentId s k).2 with
        | none =>
          rw [hcol] at h
          cases h
        | some col =>
          rw [hcol] at h
          dsimp only at h
          cases hidx : (getComponentId s k).1.entityToIndex e with
          | none =>
            rw [hidx] at h
            cases h
          | some i =>
            rw [hidx] at h
            refine ⟨key, a, i, col, rfl, ha, ?_, hcol, h⟩
            rw [← gg3]
            exact hidx
  · rintro ⟨key, a, i, col, hE, ha, hidx, hcol, hv⟩
    unfold getComponent
    rw [hE]
    dsimp only
    rw [ha]
    dsimp only
    rw [hcol]
    dsimp only
    rw [gg3, hidx]
    exact hv

/-- Characterization of `hasComponent`. -/
lemma hasComponent_char (s : CMState K V) (e : Nat) (k : K) :
    (hasComponent s e k).2 = true ↔
    (∃ key a, s.entityToArchetype e = some key ∧
      s.archetypes key = some a ∧
      (a.componentArrays (getComponentId s k).2).isSome = true) := by
  constructor
  · intro h
    unfold hasComponent at h
    cases hE : s.entityToArchetype e with
    | none =>
      rw [hE] at h
      cases h
    | some key =>
      rw [hE] at h
      dsimp only at h
      cases ha : s.archetypes key with
      | none =>
        rw [ha] at h
        cases h
      | some a =>
        rw [ha] at h
        exact ⟨key, a, rfl, ha, h⟩
  · rintro ⟨key, a, hE, ha, hsome⟩
    unfold hasComponent
    rw [hE]
    dsimp only
    rw [ha]
    exact hsome

lemma reachable_init : Reachable (initState K V) := ⟨[], rfl⟩

lemma reachable_step {s : CMState K V} (h : Reachable s) (op : Op K V) :
    Reachable (stepOp s op) := by
  obtain ⟨ops, hops⟩ := h
  refine ⟨ops ++ [op], ?_⟩
  unfold runOps
  rw [List.foldl_append]
  show stepOp (runOps (initState K V) ops) op = _
  rw [hops]

lemma endBatch_batch (s : CMState K V) :
    (endBatch s).batchInvalidation = false := by
  unfold endBatch
  split
  · rfl
  · rfl

/-- `addComponent` never changes the batch flag. -/
lemma addComponent_batch (s : CMState K V) (e : Nat) (k : K) (v : V)
    (hs : WF s) :
    (addComponent s e k v).batchInvalidation = s.batchInvalidation := by
  obtain ⟨hc, hci⟩ := hs
  cases hcur : s.entityToArchetype e with
  | none =>
    obtain ⟨_, _, _, _, _, _, _, hb⟩ := addComponent_fresh_spec s e k v hc hcur
    exact hb
  | some curKey =>
    obtain ⟨cur, i, hcura, hidx, hrow⟩ : ∃ cur i,
        s.archetypes curKey = some cur ∧ s.entityToIndex e = some i ∧
        cur.entities[i]? = some e := by
      obtain ⟨a, i, ha, hi, hr⟩ := hc.loc e curKey hcur
      exact ⟨a, i, ha, hi, hr⟩
    cases hhas : (cur.componentArrays (getComponentId s k).2).isSome with
    | true =>
      obtain ⟨_, _, _, _, hb, _⟩ :=
        addComponent_overwrite_spec s e k v hc hcur hcura hhas
      exact hb
    | false =>
      have hlacks := (isSome_eq_false_iff _).mp hhas
      obtain ⟨_, _, _, _, _, _, _, _, _, _, hb⟩ :=
        addComponent_migrate_spec s e k v hc hcur hcura hidx hrow hlacks
      exact hb

/-- `removeAllComponents` never changes the batch flag. -/
lemma removeAllComponents_batch (s : CMState K V) (e : Nat) (hs : WF s) :
    (removeAllComponents s e).batchInvalidation = s.batchInvalidation := by
  cases hcur : s.entityToArchetype e with
  | none => rw [removeAllComponents_noloc s e hcur]
  | some key =>
    obtain ⟨a, i, ha, hi, hr⟩ := hs.1.loc e key hcur
    obtain ⟨_, _, _, _, _, _, _, _, _, _, _, _, hb⟩ :=
      removeAllComponents_spec s e hs.1 hcur ha hi hr
    exact hb

/-- `removeComponent` never changes the batch flag. -/
lemma removeComponent_batch (s : CMState K V) (e : Nat) (k : K) (hs : WF s) :
    (removeComponent s e k).1.batchInvalidation = s.batchInvalidation := by
  obtain ⟨g1, g2, g3, g4, g5, g6⟩ := getComponentId_unchanged s k
  cases hcur : s.entityToArchetype e with
  | none => rw [removeComponent_noarch s e k hcur]
  | some curKey =>
    obtain ⟨cur, i, hcura, hidx, hrow⟩ : ∃ cur i,
        s.archetypes curKey = some cur ∧ s.entityToIndex e = some i ∧
        cur.entities[i]? = some e := by
      obtain ⟨a, i, ha, hi, hr⟩ := hs.1.loc e curKey hcur
      exact ⟨a, i, ha, hi, hr⟩
    have hcura0 : (getComponentId s k).1.archetypes curKey = some cur := by
      rw [g1]
      exact hcura
    cases hhas : (cur.componentArrays (getComponentId s k).2).isSome with
    | false =>
      have hlacks := (isSome_eq_false_iff _).mp hhas
      rw [removeComponent_lacks s e k hcur hcura0 hlacks]
      exact g5
    | true =>
      by_cases hemp : (cur.signature.filter
          (fun id => id ≠ (getComponentId s k).2)).length = 0
      · rw [removeComponent_empty_heq s e k hcur hcura0 hhas hemp]
        dsimp only
        rw [(schedule_fields _).2.2.2.2.2.2.2]
        rw [removeAllComponents_batch (getComponentId s k).1 e
          (wf_getComponentId s k hs)]
        exact g5
      · obtain ⟨_, _, _, _, _, _, _, _, _, _, hb, _⟩ :=
          removeComponent_migrate_spec s e k hs.1 hcur hcura hidx hrow hhas hemp
        exact hb

/-- `removeComponent` (in its migration case) leaves every other entity's
component lookups unchanged. -/
lemma removeComponent_getComponent (s : CMState K V) (e : Nat) (k : K)
    (hs : WF s) {curKey : List Nat} {cur : ArchetypeData V} {i : Nat}
    (hcur : s.entityToArchetype e = some curKey)
    (hcura : s.archetypes curKey = some cur)
    (hidx : s.entityToIndex e = some i)
    (hrow : cur.entities[i]? = some e)
    (hhas : (cur.componentArrays (getComponentId s k).2).isSome = true)
    (hne : ¬ ((cur.signature.filter
      (fun id => id ≠ (getComponentId s k).2)).length = 0)) :
    ∀ f, f ≠ e → ∀ k',
      (getComponent (removeComponent s e k).1 f k').2 =
      (getComponent s f k').2 := by
  obtain ⟨_, _, _, _, _, _, _, _, _, hpres, _, hcls, hcnt, hEoth⟩ :=
    removeComponent_migrate_spec s e k hs.1 hcur hcura hidx hrow hhas hne
  apply getComponent_agree s (removeComponent s e k).1 e hcls hcnt
  · intro f hfe hEn
    rw [hEoth f hfe]
    exact hEn
  · exact hpres

/-- Every well-formed state is row-aligned. -/
lemma rowAligned_of_wf {s : CMState K V} (hs : WF s) : RowAligned s := by
  refine ⟨?_, fun key a id col ha hc => hs.1.cols_len key a id col ha hc,
    fun key a i e ha he => hs.1.row_loc key a i e ha he,
    fun e key h => hs.1.loc e key h⟩
  intro key a id ha
  rw [hs.1.arch_sig key a ha]
  exact hs.1.cols_dom key a id ha

/-! ### The claims -/

/-- C6: in every reachable store state, `addComponent(e,T,v)` followed by
`getComponent(e,T)` returns `v`, whether `e` previously had no components,
already had `T`, or had other types. -/
theorem C6_add_get_roundtrip (s : CMState K V) (e : Nat) (k : K) (v : V)
    (hs : Reachable s) :
    (getComponent (addComponent s e k v) e k).2 = some v :=
  addComponent_get s e k v (wf_reachable hs)

theorem C6_add_get_roundtrip_witness :
    Reachable (runOps (initState Nat Nat) [Op.add 1 0 5]) ∧
    (getComponent
      (addComponent (runOps (initState Nat Nat) [Op.add 1 0 5]) 2 0 7) 2 0).2 =
      some 7 :=
  ⟨⟨[Op.add 1 0 5], rfl⟩,
   C6_add_get_roundtrip (runOps (initState Nat Nat) [Op.add 1 0 5]) 2 0 7
     ⟨[Op.add 1 0 5], rfl⟩⟩

/-- C7: every reachable state is row-aligned and every public store
operation (adds, removes, queries, batching) preserves the row-alignment
invariant. -/
theorem C7_row_alignment (s : CMState K V) (op : Op K V)
    (hs : Reachable s) :
    RowAligned s ∧ RowAligned (stepOp s op) :=
  ⟨rowAligned_of_wf (wf_reachable hs),
   rowAligned_of_wf (wf_stepOp s op (wf_reachable hs))⟩

theorem C7_row_alignment_witness :
    Reachable (runOps (initState Nat Nat) [Op.add 1 0 5]) ∧
    (RowAligned (runOps (initState Nat Nat) [Op.add 1 0 5]) ∧
     RowAligned (stepOp (runOps (initState Nat Nat) [Op.add 1 0 5])
       (Op.remove 1 0))) :=
  ⟨⟨[Op.add 1 0 5], rfl⟩,
   C7_row_alignment (runOps (initState Nat Nat) [Op.add 1 0 5])
     (Op.remove 1 0) ⟨[Op.add 1 0 5], rfl⟩⟩

/-- C5: the string signature is injective, two id multisets get the same
canonical (ascending-sorted) key iff they are permutations of one another,
and in every reachable state archetype keys and query-cache keys are exactly
the ascending sorts recorded in their signatures; the key an entity gets
from `addComponent` and every cache key created by
`getEntitiesWithComponents` are ascending as well. -/
theorem C5_canonical_signature (s : CMState K V) (hs : Reachable s)
    (l₁ l₂ : List Nat) :
    (createSignature l₁ = createSignature l₂ ↔ l₁ = l₂) ∧
    (sortIds l₁ = sortIds l₂ ↔ l₁.Perm l₂) ∧
    List.Sorted (· ≤ ·) (sortIds l₁) ∧
    (sortIds l₁).Perm l₁ ∧
    (∀ key a, s.archetypes key = some a →
      a.signature = key ∧ key.Pairwise (· < ·)) ∧
    (∀ key c, s.queryCache key = some c →
      c.signature = key ∧ List.Sorted (· ≤ ·) key) ∧
    (∀ e k v key1, (addComponent s e k v).entityToArchetype e = some key1 →
      key1.Pairwise (· < ·)) ∧
    (∀ L key c, (getEntitiesWithComponents s L).1.queryCache key = some c →
      List.Sorted (· ≤ ·) key) := by
  have hw := wf_reachable hs
  refine ⟨createSignature_inj l₁ l₂, sortIds_eq_iff, sortIds_sorted l₁,
    sortIds_perm l₁, ?_, ?_, ?_, ?_⟩
  · intro key a ha
    exact ⟨hw.1.arch_sig key a ha, hw.1.arch_sorted key a ha⟩
  · intro key c hc
    exact ⟨hw.1.cache_sig key c hc, hw.1.cache_sorted key c hc⟩
  · intro e k v key1 hkey
    obtain ⟨a, i, ha, _, _⟩ := (wf_addComponent s e k v hw).1.loc e key1 hkey
    exact (wf_addComponent s e k v hw).1.arch_sorted key1 a ha
  · intro L key c hc
    exact (wf_getEntitiesWithComponents s L hw).1.cache_sorted key c hc

theorem C5_canonical_signature_witness :
    Reachable (initState Nat Nat) ∧
    (sortIds [2, 1] = sortIds [1, 2] ↔ ([2, 1] : List Nat).Perm [1, 2]) :=
  ⟨⟨[], rfl⟩,
   (C5_canonical_signature (initState Nat Nat) ⟨[], rfl⟩ [2, 1] [1, 2]).2.1⟩

/-- C1 (amended): in every reachable state with batching inactive, a
non-empty `getEntitiesWithComponents` query returns exactly the entities
belonging to some archetype whose signature contains every queried id — the
union of the member lists of the matching archetypes — with no duplicates
and no omissions.  (The unqualified claim fails mid-batch, see the
counterexample.) -/
theorem C1_queryAll_exact (s : CMState K V) (L : List K) (hs : Reachable s)
    (hb : s.batchInvalidation = false) (hL : ¬ (L.length = 0)) :
    (∀ f, f ∈ (getEntitiesWithComponents s L).2 ↔
      MatchesQuery s (sortIds (getComponentIds s L).2) f) ∧
    (getEntitiesWithComponents s L).2.Nodup :=
  (getEntitiesWithComponents_spec s L (wf_reachable hs) hL).2.2.2.2.2.2 hb

theorem C1_queryAll_exact_witness :
    Reachable (runOps (initState Nat Nat) [Op.add 1 0 5]) ∧
    (runOps (initState Nat Nat) [Op.add 1 0 5]).batchInvalidation = false ∧
    ¬ (([0] : List Nat).length = 0) ∧
    ((∀ f, f ∈ (getEntitiesWithComponents
        (runOps (initState Nat Nat) [Op.add 1 0 5]) [0]).2 ↔
      MatchesQuery (runOps (initState Nat Nat) [Op.add 1 0 5])
        (sortIds (getComponentIds
          (runOps (initState Nat Nat) [Op.add 1 0 5]) [0]).2) f) ∧
     (getEntitiesWithComponents
        (runOps (initState Nat Nat) [Op.add 1 0 5]) [0]).2.Nodup) :=
  ⟨⟨[Op.add 1 0 5], rfl⟩, rfl, by decide,
   C1_queryAll_exact (runOps (initState Nat Nat) [Op.add 1 0 5]) [0]
     ⟨[Op.add 1 0 5], rfl⟩ rfl (by decide)⟩

/-- C1 counterexample: inside a batch the literal claim fails.  After
`add 1 0`, a cached query for class 0, `startBatch`, and `add 2 0`, entity 2
belongs to an archetype whose signature contains the queried id, yet the
query still returns only `[1]` from the stale cache. -/
theorem C1_queryAll_exact_cex :
    Reachable (runOps (initState Nat Nat)
      [Op.add 1 0 5, Op.queryAll [0], Op.startB, Op.add 2 0 6]) ∧
    MatchesQuery (runOps (initState Nat Nat)
      [Op.add 1 0 5, Op.queryAll [0], Op.startB, Op.add 2 0 6]) [0] 2 ∧
    (getEntitiesWithComponents (runOps (initState Nat Nat)
      [Op.add 1 0 5, Op.queryAll [0], Op.startB, Op.add 2 0 6]) [0]).2 =
      [1] :=
  ⟨⟨_, rfl⟩, ⟨[0], _, rfl, by decide, by decide⟩, by decide⟩

/-- C2: after any `addComponent` or `removeComponent` mutation of a
reachable unbatched state, re-querying any non-empty component set is exact
(no stale entries) — both when the mutation runs bare and when it is
wrapped in `startBatch`/`endBatch`; `endBatch` always clears the pending
flag and leaves batching off, so batched changes are recomputed on the next
read. -/
theorem C2_cache_coherence (s : CMState K V) (m : Op K V) (L : List K)
    (hs : Reachable s) (hb : s.batchInvalidation = false)
    (hm : (∃ e k v, m = Op.add e k v) ∨ (∃ e k, m = Op.remove e k))
    (hL : ¬ (L.length = 0)) :
    ((∀ f, f ∈ (getEntitiesWithComponents (stepOp s m) L).2 ↔
        MatchesQuery (stepOp s m)
          (sortIds (getComponentIds (stepOp s m) L).2) f) ∧
      (getEntitiesWithComponents (stepOp s m) L).2.Nodup) ∧
    ((endBatch (stepOp (startBatch s) m)).batchInvalidation = false ∧
     (endBatch (stepOp (startBatch s) m)).pendingCacheInvalidation = false ∧
     (∀ f, f ∈ (getEntitiesWithComponents
          (endBatch (stepOp (startBatch s) m)) L).2 ↔
        MatchesQuery (endBatch (stepOp (startBatch s) m))
          (sortIds (getComponentIds
            (endBatch (stepOp (startBatch s) m)) L).2) f) ∧
     (getEntitiesWithComponents
        (endBatch (stepOp (startBatch s) m)) L).2.Nodup) := by
  have hw := wf_reachable hs
  have hw1 : WF (stepOp s m) := wf_stepOp s m hw
  have hb1 : (stepOp s m).batchInvalidation = false := by
    rcases hm with ⟨e, k, v, rfl⟩ | ⟨e, k, rfl⟩
    · rw [show stepOp s (Op.add e k v) = addComponent s e k v from rfl,
        addComponent_batch s e k v hw, hb]
    · rw [show stepOp s (Op.remove e k) = (removeComponent s e k).1 from rfl,
        removeComponent_batch s e k hw, hb]
  have hw2 : WF (endBatch (stepOp (startBatch s) m)) :=
    wf_endBatch _ (wf_stepOp _ m (wf_startBatch s hw))
  have hb2 := endBatch_batch (stepOp (startBatch s) m)
  exact ⟨(getEntitiesWithComponents_spec (stepOp s m) L hw1
      hL).2.2.2.2.2.2 hb1,
    hb2, endBatch_pending _,
    (getEntitiesWithComponents_spec (endBatch (stepOp (startBatch s) m)) L
      hw2 hL).2.2.2.2.2.2 hb2⟩

theorem C2_cache_coherence_witness :
    Reachable (runOps (initState Nat Nat) [Op.add 1 0 5, Op.queryAll [0]]) ∧
    (runOps (initState Nat Nat)
      [Op.add 1 0 5, Op.queryAll [0]]).batchInvalidation = false ∧
    ((∀ f, f ∈ (getEntitiesWithComponents
        (stepOp (runOps (initState Nat Nat) [Op.add 1 0 5, Op.queryAll [0]])
          (Op.add 2 0 6)) [0]).2 ↔
      MatchesQuery
        (stepOp (runOps (initState Nat Nat) [Op.add 1 0 5, Op.queryAll [0]])
          (Op.add 2 0 6))
        (sortIds (getComponentIds
          (stepOp (runOps (initState Nat Nat)
            [Op.add 1 0 5, Op.queryAll [0]]) (Op.add 2 0 6)) [0]).2) f) ∧
     (getEntitiesWithComponents
        (stepOp (runOps (initState Nat Nat) [Op.add 1 0 5, Op.queryAll [0]])
          (Op.add 2 0 6)) [0]).2.Nodup) :=
  ⟨⟨[Op.add 1 0 5, Op.queryAll [0]], rfl⟩, rfl,
   (C2_cache_coherence
     (runOps (initState Nat Nat) [Op.add 1 0 5, Op.queryAll [0]])
     (Op.add 2 0 6) [0] ⟨[Op.add 1 0 5, Op.queryAll [0]], rfl⟩ rfl
     (Or.inl ⟨2, 0, 6, rfl⟩) (by decide)).1⟩

/-- C8 (amended): `addComponent` schedules query-cache invalidation in its
fresh and migration branches — immediately outside a batch (every existing
cache entry goes dirty) and deferred inside one (the pending flag is set) —
but the in-place overwrite branch returns early without scheduling: the
query cache and the pending flag are left exactly as they were.  (The
unqualified claim, which includes the overwrite case, fails: see the
counterexample.) -/
theorem C8_add_schedules_invalidation (s : CMState K V) (e : Nat) (k : K)
    (v : V) (hs : Reachable s) :
    (∀ curKey cur, s.entityToArchetype e = some curKey →
      s.archetypes curKey = some cur →
      (cur.componentArrays (getComponentId s k).2).isSome = true →
      (addComponent s e k v).queryCache = s.queryCache ∧
      (addComponent s e k v).pendingCacheInvalidation =
        s.pendingCacheInvalidation) ∧
    ((s.entityToArchetype e = none ∨
      (∃ curKey cur, s.entityToArchetype e = some curKey ∧
        s.archetypes curKey = some cur ∧
        cur.componentArrays (getComponentId s k).2 = none)) →
      (s.batchInvalidation = false →
        ∀ key c, (addComponent s e k v).queryCache key = some c →
          c.needsUpdate = true) ∧
      (s.batchInvalidation = true →
        (addComponent s e k v).pendingCacheInvalidation = true)) := by
  have hw := wf_reachable hs
  constructor
  · intro curKey cur hcur hcura hhas
    obtain ⟨_, _, hq, hp, _⟩ :=
      addComponent_overwrite_spec s e k v hw.1 hcur hcura hhas
    exact ⟨hq, hp⟩
  · rintro (hnone | ⟨curKey, cur, hcur, hcura, hlacks⟩)
    · obtain ⟨_, _, _, _, _, hdirty, hpend, _⟩ :=
        addComponent_fresh_spec s e k v hw.1 hnone
      exact ⟨hdirty, hpend⟩
    · obtain ⟨a, i, ha, hi, hr⟩ := hw.1.loc e curKey hcur
      have haeq : a = cur := Option.some_injective _ (ha.symm.trans hcura)
      rw [haeq] at hr
      obtain ⟨_, _, _, _, _, _, _, _, hdirty, hpend, _⟩ :=
        addComponent_migrate_spec s e k v hw.1 hcur hcura hi hr hlacks
      exact ⟨hdirty, hpend⟩

theorem C8_add_schedules_invalidation_witness :
    Reachable (runOps (initState Nat Nat) [Op.add 1 0 5, Op.queryAll [0]]) ∧
    ((addComponent (runOps (initState Nat Nat)
        [Op.add 1 0 5, Op.queryAll [0]]) 1 0 6).queryCache =
      (runOps (initState Nat Nat)
        [Op.add 1 0 5, Op.queryAll [0]]).queryCache ∧
     (addComponent (runOps (initState Nat Nat)
        [Op.add 1 0 5, Op.queryAll [0]]) 1 0 6).pendingCacheInvalidation =
      (runOps (initState Nat Nat)
        [Op.add 1 0 5, Op.queryAll [0]]).pendingCacheInvalidation) :=
  ⟨⟨[Op.add 1 0 5, Op.queryAll [0]], rfl⟩,
   (C8_add_schedules_invalidation
     (runOps (initState Nat Nat) [Op.add 1 0 5, Op.queryAll [0]]) 1 0 6
     ⟨[Op.add 1 0 5, Op.queryAll [0]], rfl⟩).1 [0] _ rfl rfl (by decide)⟩

/-- C8 counterexample: after `add 1 0`, a cached query for class 0, and an
overwriting `add 1 0` outside any batch, the new value is stored but the
cache entry for the queried set is still clean and no invalidation is
pending — refuting that every `addComponent` schedules invalidation. -/
theorem C8_add_schedules_invalidation_cex :
    Reachable (runOps (initState Nat Nat)
      [Op.add 1 0 5, Op.queryAll [0], Op.add 1 0 6]) ∧
    (getComponent (runOps (initState Nat Nat)
      [Op.add 1 0 5, Op.queryAll [0], Op.add 1 0 6]) 1 0).2 = some 6 ∧
    (runOps (initState Nat Nat)
      [Op.add 1 0 5, Op.queryAll [0], Op.add 1 0 6]).batchInvalidation =
      false ∧
    (runOps (initState Nat Nat)
      [Op.add 1 0 5, Op.queryAll [0],
        Op.add 1 0 6]).pendingCacheInvalidation = false ∧
    Option.map QueryCacheData.needsUpdate
      ((runOps (initState Nat Nat)
        [Op.add 1 0 5, Op.queryAll [0], Op.add 1 0 6]).queryCache [0]) =
      some false :=
  ⟨⟨_, rfl⟩, by decide, rfl, rfl, by decide⟩

/-- C9 (amended): expected absence never fails, and always yields an
explicit absent result.  If the entity has no archetype, `getComponent`
returns `none` and `removeComponent`/`removeAllComponents` are exact
no-ops returning `false`.  If its archetype lacks the type,
`getComponent`/`hasComponent` return `none`/`false` and `removeComponent`
returns `false` leaving archetypes, locations, rows and caches untouched —
but in that branch a never-seen type still gets registered first, so the
id registry may grow (the literal "entire store state unchanged" fails:
see the counterexample). -/
theorem C9_absence_is_benign (s : CMState K V) (e : Nat) (k : K)
    (hs : Reachable s) :
    (s.entityToArchetype e = none →
      (getComponent s e k).2 = none ∧
      (hasComponent s e k).2 = false ∧
      removeComponent s e k = (s, false) ∧
      removeAllComponents s e = s) ∧
    (∀ curKey cur, s.entityToArchetype e = some curKey →
      s.archetypes curKey = some cur →
      cur.componentArrays (getComponentId s k).2 = none →
      (getComponent s e k).2 = none ∧
      (hasComponent s e k).2 = false ∧
      (removeComponent s e k).2 = false ∧
      (removeComponent s e k).1.archetypes = s.archetypes ∧
      (removeComponent s e k).1.entityToArchetype = s.entityToArchetype ∧
      (removeComponent s e k).1.entityToIndex = s.entityToIndex ∧
      (removeComponent s e k).1.queryCache = s.queryCache ∧
      (removeComponent s e k).1.batchInvalidation = s.batchInvalidation ∧
      (removeComponent s e k).1.pendingCacheInvalidation =
        s.pendingCacheInvalidation) := by
  obtain ⟨g1, g2, g3, g4, g5, g6⟩ := getComponentId_unchanged s k
  constructor
  · intro hnone
    refine ⟨?_, ?_, removeComponent_noarch s e k hnone,
      removeAllComponents_noloc s e hnone⟩
    · unfold getComponent
      rw [hnone]
    · unfold hasComponent
      rw [hnone]
  · intro curKey cur hcur hcura hlacks
    have hcura0 : (getComponentId s k).1.archetypes curKey = some cur := by
      rw [g1]
      exact hcura
    have hrc := removeComponent_lacks s e k hcur hcura0 hlacks
    refine ⟨?_, ?_, by rw [hrc], by rw [hrc]; exact g1, by rw [hrc]; exact g2,
      by rw [hrc]; exact g3, by rw [hrc]; exact g4, by rw [hrc]; exact g5,
      by rw [hrc]; exact g6⟩
    · unfold getComponent
      rw [hcur]
      dsimp only
      rw [hcura]
      dsimp only
      rw [hlacks]
    · unfold hasComponent
      rw [hcur]
      dsimp only
      rw [hcura]
      dsimp only
      rw [hlacks]
      rfl

theorem C9_absence_is_benign_witness :
    Reachable (runOps (initState Nat Nat) [Op.add 1 0 5]) ∧
    removeComponent (runOps (initState Nat Nat) [Op.add 1 0 5]) 2 0 =
      (runOps (initState Nat Nat) [Op.add 1 0 5], false) :=
  ⟨⟨[Op.add 1 0 5], rfl⟩,
   ((C9_absence_is_benign (runOps (initState Nat Nat) [Op.add 1 0 5]) 2 0
     ⟨[Op.add 1 0 5], rfl⟩).1 rfl).2.2.1⟩

/-- C9 counterexample: removing a never-registered type from an entity that
has an archetype returns `false` as claimed, yet the store state does
change — the type gets registered and the id counter grows from 1 to 2. -/
theorem C9_absence_is_benign_cex :
    Reachable (runOps (initState Nat Nat) [Op.add 1 0 5]) ∧
    (removeComponent (runOps (initState Nat Nat) [Op.add 1 0 5]) 1 1).2 =
      false ∧
    (runOps (initState Nat Nat) [Op.add 1 0 5]).componentIdCounter = 1 ∧
    (removeComponent (runOps (initState Nat Nat)
      [Op.add 1 0 5]) 1 1).1.componentIdCounter = 2 :=
  ⟨⟨_, rfl⟩, rfl, rfl, rfl⟩

/-- C10: on every migration — `addComponent` with a type the entity lacks,
or `removeComponent` leaving a non-empty signature — each component
instance popped from the entity's old row (the dropped type's and every
sibling's) is appended to its type's recycle pool when that pool holds
fewer than 1000 entries, and is discarded otherwise; moreover, when the
entity occupied the last row, the very value just pushed onto a sibling's
pool is still live in the destination archetype's column at the entity's
new row. -/
theorem C10_recycle_on_migration (s : CMState K V) (e : Nat) (k : K) (v : V)
    (hs : Reachable s) {curKey : List Nat} {cur : ArchetypeData V} {i : Nat}
    (hcur : s.entityToArchetype e = some curKey)
    (hcura : s.archetypes curKey = some cur)
    (hidx : s.entityToIndex e = some i)
    (hrow : cur.entities[i]? = some e) :
    (cur.componentArrays (getComponentId s k).2 = none →
      ∀ id col0 r, id ∈ curKey → cur.componentArrays id = some col0 →
        s.recycledComponents id = some r →
        (addComponent s e k v).recycledComponents id =
          some (if r.length < 1000 then
            r ++ [col0.getD (cur.entities.length - 1) default] else r) ∧
        (i = cur.entities.length - 1 →
          ∃ A ni col, (addComponent s e k v).archetypes
              (sortIds (curKey ++ [(getComponentId s k).2])) = some A ∧
            (addComponent s e k v).entityToIndex e = some ni ∧
            A.componentArrays id = some col ∧
            col[ni]? =
              some (col0.getD (cur.entities.length - 1) default))) ∧
    ((cur.componentArrays (getComponentId s k).2).isSome = true →
      ¬ ((cur.signature.filter
          (fun id2 => id2 ≠ (getComponentId s k).2)).length = 0) →
      ∀ id col0 r, id ∈ cur.signature → cur.componentArrays id = some col0 →
        s.recycledComponents id = some r →
        (removeComponent s e k).1.recycledComponents id =
          some (if r.length < 1000 then
            r ++ [col0.getD (cur.entities.length - 1) default] else r)) := by
  have hw := wf_reachable hs
  constructor
  · intro hlacks id col0 r hmem hcol0 hr
    obtain ⟨_, _, _, ⟨A, ni, hA, hAsig, hni, hrowA, _, hsib⟩, _, _, _,
        hpool, _, _, _⟩ :=
      addComponent_migrate_spec s e k v hw.1 hcur hcura hidx hrow hlacks
    refine ⟨hpool id col0 r hmem hcol0 hr, ?_⟩
    intro hlast
    obtain ⟨col, hcol, hval⟩ := hsib id col0 hmem hcol0
    refine ⟨A, ni, col, hA, hni, hcol, ?_⟩
    rw [hval, hlast]
    have hi : i < cur.entities.length := (List.getElem?_eq_some.mp hrow).1
    have hlen : col0.length = cur.entities.length :=
      hw.1.cols_len curKey cur id col0 hcura hcol0
    rw [← hlast]
    apply getElem?_getD_of_lt
    rw [hlen]
    exact hi
  · intro hhas hne id col0 r hmem hcol0 hr
    obtain ⟨_, _, _, _, _, hpool, _⟩ :=
      removeComponent_migrate_spec s e k hw.1 hcur hcura hidx hrow hhas hne
    exact hpool id col0 r hmem hcol0 hr

theorem C10_recycle_on_migration_witness :
    Reachable (runOps (initState Nat Nat) [Op.add 1 0 5]) ∧
    (addComponent (runOps (initState Nat Nat) [Op.add 1 0 5])
      1 1 7).recycledComponents 0 = some [5] :=
  ⟨⟨[Op.add 1 0 5], rfl⟩,
   ((C10_recycle_on_migration (runOps (initState Nat Nat) [Op.add 1 0 5])
     1 1 7 ⟨[Op.add 1 0 5], rfl⟩ rfl rfl rfl (by decide)).1 rfl 0 [5] []
     (by decide) rfl rfl).1⟩

/-- C3: for an entity holding sibling components (e.g. {A:a, B:b}), adding
a type C it does not yet have preserves every sibling lookup, stores the
new value, and moves the entity to the archetype whose signature is exactly
the old id set extended with C's id (canonically sorted): migration copies
every sibling column value into the destination archetype at the entity's
new row. -/
theorem C3_migration_preserves_siblings (s : CMState K V) (e : Nat)
    (kC : K) (c : V) (hs : Reachable s) {curKey : List Nat}
    (hcur : s.entityToArchetype e = some curKey)
    (hnew : (hasComponent s e kC).2 = false) :
    (getComponent (addComponent s e kC c) e kC).2 = some c ∧
    (∀ kP w, (getComponent s e kP).2 = some w →
      (getComponent (addComponent s e kC c) e kP).2 = some w) ∧
    (addComponent s e kC c).entityToArchetype e =
      some (sortIds (curKey ++ [(getComponentId s kC).2])) ∧
    (∀ id, id ∈ sortIds (curKey ++ [(getComponentId s kC).2]) ↔
      (id ∈ curKey ∨ id = (getComponentId s kC).2)) := by
  have hw := wf_reachable hs
  obtain ⟨cur, i, hcura, hidx, hrow⟩ : ∃ cur i,
      s.archetypes curKey = some cur ∧ s.entityToIndex e = some i ∧
      cur.entities[i]? = some e := by
    obtain ⟨a, i, ha, hi, hr⟩ := hw.1.loc e curKey hcur
    exact ⟨a, i, ha, hi, hr⟩
  have hlacks : cur.componentArrays (getComponentId s kC).2 = none := by
    apply (isSome_eq_false_iff _).mp
    cases hres : (cur.componentArrays (getComponentId s kC).2).isSome with
    | false => rfl
    | true =>
      exfalso
      have hc := (hasComponent_char s e kC).mpr ⟨curKey, cur, hcur, hcura, hres⟩
      rw [hc] at hnew
      exact Bool.noConfusion hnew
  obtain ⟨_, _, hE, ⟨A, ni, hA, hAsig, hni, hrowA, _, hsib⟩, _, _, hcls, _,
      _, _, _⟩ :=
    addComponent_migrate_spec s e kC c hw.1 hcur hcura hidx hrow hlacks
  refine ⟨addComponent_get s e kC c hw, ?_, hE, ?_⟩
  · intro kP w hval
    obtain ⟨key1, a1, i1, col1, hE1, ha1, hi1, hcol1, hv1⟩ :=
      (getComponent_char s e kP w).mp hval
    have hkey1 : key1 = curKey :=
      Option.some_injective _ (hE1.symm.trans hcur)
    rw [hkey1] at ha1
    have ha1c : a1 = cur := Option.some_injective _ (ha1.symm.trans hcura)
    rw [ha1c] at hcol1
    have hi1i : i1 = i := Option.some_injective _ (hi1.symm.trans hidx)
    rw [hi1i] at hv1
    have hmem : (getComponentId s kP).2 ∈ curKey :=
      (hw.1.cols_dom curKey cur (getComponentId s kP).2 hcura).mp
        (by rw [hcol1]; rfl)
    have hP : s.componentClassToId kP = some (getComponentId s kP).2 := by
      cases h : s.componentClassToId kP with
      | none =>
        exfalso
        have hbig : (getComponentId s kP).2 = s.componentIdCounter := by
          simp [getComponentId, h]
        have hlt := hw.1.arch_ids_lt curKey cur hcura _ hmem
        rw [hbig] at hlt
        exact absurd hlt (lt_irrefl _)
      | some id0 =>
        rw [getComponentId_of_registered s kP h]
    have hne : kP ≠ kC := by
      intro hpe
      rw [hpe, hlacks] at hcol1
      cases hcol1
    obtain ⟨colA, hcolA, hvalA⟩ :=
      hsib (getComponentId s kP).2 col1 hmem hcol1
    have hreg2 : getComponentId (addComponent s e kC c) kP =
        (addComponent s e kC c, (getComponentId s kP).2) := by
      apply getComponentId_of_registered
      rw [hcls, getComponentId_classToId_other s kC kP hne]
      exact hP
    apply (getComponent_char (addComponent s e kC c) e kP w).mpr
    refine ⟨_, A, ni, colA, hE, hA, hni, ?_, ?_⟩
    · rw [hreg2]
      exact hcolA
    · rw [hvalA]
      exact hv1
  · intro id
    rw [mem_sortIds, List.mem_append, List.mem_singleton]

theorem C3_migration_preserves_siblings_witness :
    Reachable (runOps (initState Nat Nat) [Op.add 1 0 5, Op.add 1 1 6]) ∧
    (hasComponent (runOps (initState Nat Nat)
      [Op.add 1 0 5, Op.add 1 1 6]) 1 2).2 = false ∧
    (getComponent (addComponent (runOps (initState Nat Nat)
      [Op.add 1 0 5, Op.add 1 1 6]) 1 2 7) 1 0).2 = some 5 :=
  ⟨⟨[Op.add 1 0 5, Op.add 1 1 6], rfl⟩, rfl,
   (C3_migration_preserves_siblings
     (runOps (initState Nat Nat) [Op.add 1 0 5, Op.add 1 1 6]) 1 2 7
     ⟨[Op.add 1 0 5, Op.add 1 1 6], rfl⟩ rfl rfl).2.1 0 5 rfl⟩

/-- C4: removing an entity's membership from its archetype — via
`removeAllComponents`, or via `removeComponent` when the archetype holds
the type and the remaining signature is non-empty — leaves exactly the
other members, preserves every remaining entity's component values, and
proceeds by swap-compaction: unless the removed row is the last, the last
row's entity and every column value are copied into it and the moved
entity's recorded row is updated, then the entity list and every column
are truncated by one. -/
theorem C4_swap_compaction (s : CMState K V) (e : Nat) (hs : Reachable s)
    {key : List Nat} {a : ArchetypeData V} {i : Nat}
    (hcur : s.entityToArchetype e = some key)
    (hcura : s.archetypes key = some a)
    (hidx : s.entityToIndex e = some i)
    (hrow : a.entities[i]? = some e) :
    (∃ F, (removeAllComponents s e).archetypes key = some F ∧
      (∀ f, f ∈ F.entities ↔ (f ∈ a.entities ∧ f ≠ e)) ∧
      F.entities = (if i = a.entities.length - 1 then a.entities
        else a.entities.set i
          (a.entities.getD (a.entities.length - 1) default)).dropLast ∧
      (∀ id, F.componentArrays id = (a.componentArrays id).map
        (fun col => (if i = a.entities.length - 1 then col
          else col.set i
            (col.getD (a.entities.length - 1) default)).dropLast)) ∧
      (∀ (f : Nat) (j : Nat), f ≠ e → a.entities[j]? = some f →
        ∃ j2 : Nat, (removeAllComponents s e).entityToIndex f = some j2 ∧
          F.entities[j2]? = some f)) ∧
    (∀ f, f ≠ e → ∀ k2,
      (getComponent (removeAllComponents s e) f k2).2 =
        (getComponent s f k2).2) ∧
    (∀ k, (a.componentArrays (getComponentId s k).2).isSome = true →
      ¬ ((a.signature.filter
          (fun id => id ≠ (getComponentId s k).2)).length = 0) →
      (removeComponent s e k).2 = true ∧
      (∃ F2, (removeComponent s e k).1.archetypes key = some F2 ∧
        (∀ f, f ∈ F2.entities ↔ (f ∈ a.entities ∧ f ≠ e))) ∧
      (∀ f, f ≠ e → ∀ k2,
        (getComponent (removeComponent s e k).1 f k2).2 =
          (getComponent s f k2).2)) := by
  have hw := wf_reachable hs
  obtain ⟨_, _, _, _, ⟨F, hFa, hFsig, hFents, hFcols, hFmem, hFtrack⟩, _,
      _, _, _, _, _, _, _⟩ := removeAllComponents_spec s e hw.1 hcur hcura hidx hrow
  refine ⟨⟨F, hFa, hFmem, hFents, hFcols, ?_⟩,
    removeAllComponents_getComponent s e hw, ?_⟩
  · intro f j hf hj
    obtain ⟨j2, h1, h2, _⟩ := hFtrack f j hf hj
    exact ⟨j2, h1, h2⟩
  · intro k hhas hne
    obtain ⟨_, _, htrue, _, _, _, _, _, ⟨F2, hF2a, _, _, _, hF2mem⟩, _, _,
        _, _, _⟩ :=
      removeComponent_migrate_spec s e k hw.1 hcur hcura hidx hrow hhas hne
    exact ⟨htrue, ⟨F2, hF2a, hF2mem⟩,
      removeComponent_getComponent s e k hw hcur hcura hidx hrow hhas hne⟩

theorem C4_swap_compaction_witness :
    Reachable (runOps (initState Nat Nat)
      [Op.add 1 0 5, Op.add 2 0 6, Op.add 3 0 7]) ∧
    (getComponent (removeAllComponents (runOps (initState Nat Nat)
        [Op.add 1 0 5, Op.add 2 0 6, Op.add 3 0 7]) 1) 2 0).2 =
      (getComponent (runOps (initState Nat Nat)
        [Op.add 1 0 5, Op.add 2 0 6, Op.add 3 0 7]) 2 0).2 :=
  ⟨⟨[Op.add 1 0 5, Op.add 2 0 6, Op.add 3 0 7], rfl⟩,
   (C4_swap_compaction (runOps (initState Nat Nat)
       [Op.add 1 0 5, Op.add 2 0 6, Op.add 3 0 7]) 1
     ⟨[Op.add 1 0 5, Op.add 2 0 6, Op.add 3 0 7], rfl⟩
     rfl rfl rfl (by decide)).2.1 2 (by decide) 0⟩

end Ecs
